import Mathlib

/-!
# LibFS: a sector-based inode file system

A shallow embedding of `LibFS.c` (with the disk parameters of `LibDisk.h`) and
theorems about its file operations.

Conventions of the embedding.

* Memory is byte addressed: a buffer is a function from byte offsets to bytes.
  A disk sector is the 512 bytes at offsets `0 .. 511` of such a buffer.  An
  access outside a declared array is an access to the memory around it, which
  the model keeps with the buffer; memory faults are not represented.
* C `int` values are mathematical integers; signed arithmetic is exact.  The
  truncating division and remainder of C are `Int.tdiv` and `Int.tmod`.  The
  places where the source computes in `size_t` (every expression involving
  `sizeof`) go through `to_size_t` (64 bit) and come back through `to_int`.
* `int` fields stored in a sector are four bytes, little endian, two's
  complement.
* A C string is the list of its bytes before the terminating NUL.
* What the source leaves open is collected in `Env`: the two constants of the
  header `LibFS.h` whose values the code does not fix, and the indeterminate
  contents of uninitialised locals.
* A failed `assert` aborts the program: functions that contain one return
  `none` in that case.
* Loops are structural recursions over the number of iterations still to run,
  with the loop variables as arguments.
-/

namespace LibFS

/-! ## Bytes, buffers, the disk -/

abbrev Byte := Fin 256

abbrev Mem := Int → Byte

abbrev Disk := Int → Mem

/-- The byte with the low eight bits of `n`. -/
def byte (n : Nat) : Byte := ⟨n % 256, Nat.mod_lt n (by decide)⟩

/-- Conversion of a 64-bit `size_t` value to `int` (keeps the low 32 bits). -/
def to_int (x : Int) : Int := (x + 2147483648) % 4294967296 - 2147483648

/-- Conversion of an `int` to the 64-bit unsigned type `size_t`. -/
def to_size_t (x : Int) : Int := x % 18446744073709551616

/-- C division of two `int`s (truncation toward zero). -/
def cdiv (a b : Int) : Int := Int.tdiv a b

/-- C remainder of two `int`s (sign of the dividend). -/
def cmod (a b : Int) : Int := Int.tmod a b

/-- The `int` stored at byte offset `off` of a buffer. -/
def read_int (m : Mem) (off : Int) : Int :=
  to_int (((m off).val : Int) + 256 * ((m (off + 1)).val : Int)
    + 65536 * ((m (off + 2)).val : Int) + 16777216 * ((m (off + 3)).val : Int))

/-- Store the `int` `v` at byte offset `off` of a buffer. -/
def write_int (m : Mem) (off : Int) (v : Int) : Mem := fun j =>
  if j = off then byte (v % 256).toNat
  else if j = off + 1 then byte ((v / 256) % 256).toNat
  else if j = off + 2 then byte ((v / 65536) % 256).toNat
  else if j = off + 3 then byte ((v / 16777216) % 256).toNat
  else m j

/-- `memset(m + off, 0, len)`. -/
def memset0 (m : Mem) (off len : Int) : Mem := fun j =>
  if off ≤ j ∧ j < off + len then 0 else m j

/-- `memcpy(dst + doff, src + soff, len)`, copying in increasing address order
from a source that the copy does not overwrite. -/
def memcpy (dst : Mem) (doff : Int) (src : Mem) (soff len : Int) : Mem := fun j =>
  if doff ≤ j ∧ j < doff + len then src (j - doff + soff) else dst j

/-! ## LibDisk.h -/

def SECTOR_SIZE : Int := 512

def TOTAL_SECTORS : Int := 10000

/-- Modelled from the spec: `Disk_Read` of the block device (its source
`LibDisk.c` is not part of the repository sources): `read(sector_index) ->
fixed-size buffer | err`.  A sector index outside the disk is the error; the
destination buffer then keeps its contents. -/
def Disk_Read (d : Disk) (sector : Int) (buffer : Mem) : Int × Mem :=
  if sector < 0 ∨ sector ≥ TOTAL_SECTORS then (-1, buffer)
  else (0, fun j => if 0 ≤ j ∧ j < SECTOR_SIZE then d sector j else buffer j)

/-- Modelled from the spec: `Disk_Write` of the block device (its source
`LibDisk.c` is not part of the repository sources): `write(sector_index,
fixed-size buffer) -> ok | err`.  A sector index outside the disk is the
error; the disk is then unchanged. -/
def Disk_Write (d : Disk) (sector : Int) (buffer : Mem) : Int × Disk :=
  if sector < 0 ∨ sector ≥ TOTAL_SECTORS then (-1, d)
  else (0, fun s j => if s = sector ∧ 0 ≤ j ∧ j < SECTOR_SIZE then buffer j else d s j)

/-- Modelled from the spec: the disk right after `Disk_Init` (its source
`LibDisk.c` is not part of the repository sources): a fixed extent of equally
sized sectors, all bytes zero. -/
def Disk_Init : Disk := fun _ _ => 0

/-! ## What the source leaves open -/

/-- The constants of the header `LibFS.h` (not part of the repository
sources) that the code does not fix, and the contents of uninitialised
locals.  `stack` is what an uninitialised local array holds, `stack_int`
what an uninitialised `int` holds and `stack_str` the string found in an
uninitialised name buffer. -/
structure Env where
  MAX_FILES : Int
  MAX_FILE_SIZE : Int
  stack : Mem
  stack_int : Int
  stack_str : List Nat

/-- Modelled from the spec: the error kinds of section 7, under the names the
source uses for them (the enumeration is declared in the header `LibFS.h`,
which is not part of the repository sources). -/
inductive FS_Error where
  | E_GENERAL
  | E_CREATE
  | E_NO_SUCH_FILE
  | E_TOO_MANY_OPEN_FILES
  | E_BAD_FD
  | E_NO_SPACE
  | E_FILE_TOO_BIG
  | E_SEEK_OUT_OF_BOUNDS
  | E_FILE_IN_USE
  | E_NO_SUCH_DIR
  | E_DIR_NOT_EMPTY
  | E_ROOT_DIR
  | E_BUFFER_TOO_SMALL
  deriving DecidableEq, Repr

/-! ## Layout of the disk (the macros of LibFS.c) -/

/-- Modelled from the spec: the per-file maximum of data sectors (declared in
the header `LibFS.h`, not part of the repository sources); the value is the
one the source itself hard-codes in the loops of `remove_inode` and
`Dir_Size`. -/
def MAX_SECTORS_PER_FILE : Int := 30

def SUPERBLOCK_START_SECTOR : Int := 0

def INODE_BITMAP_START_SECTOR : Int := 1

def INODE_BITMAP_SIZE (env : Env) : Int := cdiv (env.MAX_FILES + 7) 8

def INODE_BITMAP_SECTORS (env : Env) : Int :=
  cdiv (INODE_BITMAP_SIZE env + SECTOR_SIZE - 1) SECTOR_SIZE

def SECTOR_BITMAP_START_SECTOR (env : Env) : Int :=
  INODE_BITMAP_START_SECTOR + INODE_BITMAP_SECTORS env

def SECTOR_BITMAP_SIZE : Int := cdiv (TOTAL_SECTORS + 7) 8

def SECTOR_BITMAP_SECTORS : Int := cdiv (SECTOR_BITMAP_SIZE + SECTOR_SIZE - 1) SECTOR_SIZE

def INODE_TABLE_START_SECTOR (env : Env) : Int :=
  SECTOR_BITMAP_START_SECTOR env + SECTOR_BITMAP_SECTORS

/-- The value of `sizeof(inode_t)`: two `int`s and `MAX_SECTORS_PER_FILE` more. -/
def sizeof_inode_t : Int := 4 + 4 + 4 * MAX_SECTORS_PER_FILE

/-- A `size_t` value. -/
def INODES_PER_SECTOR : Int := SECTOR_SIZE / sizeof_inode_t

/-- A `size_t` value. -/
def INODE_TABLE_SECTORS (env : Env) : Int :=
  (to_size_t (to_size_t env.MAX_FILES + INODES_PER_SECTOR - 1)) / INODES_PER_SECTOR

/-- A `size_t` value. -/
def DATABLOCK_START_SECTOR (env : Env) : Int :=
  to_size_t (to_size_t (INODE_TABLE_START_SECTOR env) + INODE_TABLE_SECTORS env)

def MAX_PATH : Int := 256

def MAX_NAME : Int := 16

def MAX_OPEN_FILES : Int := 256

/-- The value of `sizeof(dirent_t)`: a 16-byte name and an `int`. -/
def sizeof_dirent_t : Int := MAX_NAME + 4

/-- A `size_t` value. -/
def DIRENTS_PER_SECTOR : Int := SECTOR_SIZE / sizeof_dirent_t

/-- The configuration of the usual header: 1000 files, and a maximal file
size of `MAX_SECTORS_PER_FILE * SECTOR_SIZE` bytes; every uninitialised
local holds zeros. -/
def stdEnv : Env :=
  { MAX_FILES := 1000
    MAX_FILE_SIZE := MAX_SECTORS_PER_FILE * SECTOR_SIZE
    stack := fun _ => 0
    stack_int := 0
    stack_str := [] }

/-! ## The bitmaps -/

/-- The loop of `getExponent`, `fuel` iterations at most. -/
def getExponent_loop : Nat → Int → Int → Int → Int
  | 0, _, _, final => final
  | fuel + 1, num, exponent, final =>
    let final := if exponent % 2 = 1 then final * num else final
    let exponent := exponent / 2
    if exponent = 0 then final else getExponent_loop fuel (num * num) exponent final

/-- `getExponent(num, exponent)`: square and multiply.  An `int` exponent
that is not negative has at most 31 bits, which 32 iterations consume. -/
def getExponent (num exponent : Int) : Int := getExponent_loop 32 num exponent 1

/-- `bitsHandler(currentBits, sector)`. -/
def bitsHandler (env : Env) (d : Disk) (currentBits sector : Int) : Disk :=
  let fullSectors := cdiv currentBits 8
  let remainingBits := cmod currentBits 8
  let currentBytes := if remainingBits > 0 then fullSectors + 1 else fullSectors
  let buffer : Mem := env.stack
  let buffer : Mem := fun j => if 0 ≤ j ∧ j < fullSectors then 255 else buffer j
  let buffer : Mem :=
    if remainingBits > 0 then
      let count := (List.range remainingBits.toNat).foldl
        (fun count k => count + getExponent 2 (7 - (k : Int))) (0 : Int)
      fun j => if j = currentBytes - 1 then byte (count % 256).toNat else buffer j
    else buffer
  let buffer : Mem := fun j => if currentBytes ≤ j ∧ j < SECTOR_SIZE then 0 else buffer j
  (Disk_Write d sector buffer).2

/-- The loop of `bitmap_init` over the sectors `i, i+1, ..` (`n` of them). -/
def bitmap_init_loop (env : Env) : Nat → Disk → Int → Int → Disk
  | 0, d, _, _ => d
  | n + 1, d, i, currentBits =>
    let maxBits := SECTOR_SIZE * 8
    if currentBits > maxBits then
      bitmap_init_loop env n (bitsHandler env d maxBits i) (i + 1) (currentBits - maxBits)
    else
      bitmap_init_loop env n (bitsHandler env d currentBits i) (i + 1) 0

/-- `bitmap_init(start, num, nbits)`. -/
def bitmap_init (env : Env) (d : Disk) (start num nbits : Int) : Disk :=
  bitmap_init_loop env num.toNat d start nbits

/-- The `while(tempBuffer2 != 0)` loop of `bitmap_first_unused`: `none` is its
`return -1`, otherwise the final `bitLocation`.  A byte has eight bits, so
eight iterations exhaust it. -/
def first_unused_bit : Nat → Nat → Int → Int → Option Int
  | 0, _, _, bitLocation => some bitLocation
  | fuel + 1, tempBuffer2, byteSize, bitLocation =>
    if tempBuffer2 ≠ 0 then
      if byteSize - 1 < 0 then none
      else first_unused_bit fuel (tempBuffer2 >>> 1) (byteSize - 1) (bitLocation + 1)
    else some bitLocation

/-- The `for(j ..)` loop of `bitmap_first_unused` over the bytes `j, j+1, ..`
(`n` of them) of the sector in `buffer`: `none` when the loop ends without a
`return`, otherwise the returned value and the disk. -/
def first_unused_byte (d : Disk) (i : Int) (buffer : Mem)
    (currentSectors maxBits maxBytes totalBits : Int) : Nat → Int → Option (Int × Disk)
  | 0, _ => none
  | n + 1, j =>
    let tempBuffer := buffer j
    if tempBuffer ≠ 255 then
      let tempBuffer2 : Nat := 255 - tempBuffer.val
      let byteSize : Int := if j = maxBytes - 1 then maxBits - totalBits else 8
      match first_unused_bit 8 tempBuffer2 byteSize 0 with
      | none => some (-1, d)
      | some bitLocation =>
        let bitLocation := if bitLocation = 0 then 7 else bitLocation
        let byteSize := getExponent 2 (bitLocation - 1)
        let buffer : Mem := fun k =>
          if k = j then byte ((buffer j).val ||| (byteSize % 256).toNat) else buffer k
        some (currentSectors * SECTOR_SIZE * 8 + j * 8 + (8 - bitLocation),
              (Disk_Write d i buffer).2)
    else first_unused_byte d i buffer currentSectors maxBits maxBytes totalBits n (j + 1)

/-- The `for(i ..)` loop of `bitmap_first_unused` over the sectors
`i, i+1, ..` (`n` of them). -/
def first_unused_sector (d : Disk) (start : Int) :
    Nat → Int → Mem → Int → Int → Int → Int × Disk
  | 0, _, _, _, _, _ => (-1, d)
  | n + 1, i, buffer, currentSectors, maxBytes, totalBits =>
    let maxBits := SECTOR_SIZE * 8
    let buffer := (Disk_Read d start buffer).2
    let totalBits := if totalBits > maxBits then maxBits else totalBits
    let maxBytes := if cmod maxBytes 8 > 0 then maxBytes + 1 else maxBytes
    match first_unused_byte d i buffer currentSectors maxBits maxBytes totalBits
        maxBytes.toNat 0 with
    | some r => r
    | none => first_unused_sector d start n (i + 1) buffer (currentSectors + 1) maxBytes totalBits

/-- `bitmap_first_unused(start, num, nbits)`: the returned value and the disk. -/
def bitmap_first_unused (env : Env) (d : Disk) (start num nbits : Int) : Int × Disk :=
  first_unused_sector d start num.toNat start env.stack 0 SECTOR_SIZE (nbits * 8)

/-- `bitmap_reset(start, num, ibit)`: the returned value and the disk. -/
def bitmap_reset (env : Env) (d : Disk) (start _num ibit : Int) : Int × Disk :=
  let maxBits := SECTOR_SIZE * 8
  let tempBits := ibit - 1
  let bitLocation := cmod tempBits maxBits
  let sectorLocation := cdiv tempBits maxBits + start
  if ibit > maxBits then (-1, d)
  else
    let sectorLocation := if bitLocation = 0 then sectorLocation - 1 else sectorLocation
    let bitLocation := if bitLocation = 0 then maxBits else bitLocation
    let buffer := (Disk_Read d sectorLocation env.stack).2
    let byteLocation := cdiv bitLocation 8
    let currentBit := cmod bitLocation 8
    let tempBuffer := buffer byteLocation
    let tempBuffer2 := 255 - getExponent 2 (7 - currentBit)
    let buffer : Mem := fun k =>
      if k = byteLocation then byte (tempBuffer.val &&& (tempBuffer2 % 256).toNat) else buffer k
    (0, (Disk_Write d sectorLocation buffer).2)

/-! ## Names and paths -/

/-- Whether a character is legal in a file name. -/
def legal_char (c : Nat) : Bool :=
  (65 ≤ c && c ≤ 90) || (97 ≤ c && c ≤ 122) || (48 ≤ c && c ≤ 57)
    || c == 45 || c == 46 || c == 95

/-- `illegal_filename(name)`. -/
def illegal_filename (name : List Nat) : Int :=
  if (name.length : Int) > MAX_NAME - 1 then 1
  else if name.all legal_char then 0 else 1

/-- The string a `char*` argument points to: the bytes before the first NUL. -/
def c_str (s : List Nat) : List Nat := s.takeWhile (fun c => c ≠ 0)

/-- Whether `strcmp(m + off, s)` is zero, for a string `s`. -/
def strcmp_eq (m : Mem) (off : Int) : List Nat → Bool
  | [] => (m off).val == 0
  | c :: cs => (m off).val == c && c != 0 && strcmp_eq m (off + 1) cs

/-- The tokens that the successive calls `strsep(&lpath, "/")` return. -/
def strsep_tokens : List Nat → List (List Nat)
  | [] => [[]]
  | c :: cs =>
    if c = 47 then [] :: strsep_tokens cs
    else match strsep_tokens cs with
      | [] => [[c]]
      | t :: ts => (c :: t) :: ts

/-- `strncpy(m + off, s, n)`: the string, then NULs up to `n` bytes. -/
def strncpy (m : Mem) (off : Int) (s : List Nat) (n : Int) : Mem := fun j =>
  if off ≤ j ∧ j < off + n then byte ((s.take n.toNat).getD (j - off).toNat 0) else m j

/-! ## Inodes and directory entries -/

/-- The field `size` of the `inode_t` at `p` in `m`. -/
def inode_size (m : Mem) (p : Int) : Int := read_int m p

/-- The field `type` of the `inode_t` at `p` in `m`. -/
def inode_type (m : Mem) (p : Int) : Int := read_int m (p + 4)

/-- The element `data[i]` of the `inode_t` at `p` in `m`. -/
def inode_data (m : Mem) (p i : Int) : Int := read_int m (p + 8 + 4 * i)

/-- The field `inode` of the `dirent_t` at `p` in `m` (the name is at `p`). -/
def dirent_inode (m : Mem) (p : Int) : Int := read_int m (p + MAX_NAME)

/-- The sector of the inode table that holds inode `n`:
`INODE_TABLE_START_SECTOR + n/INODES_PER_SECTOR`, computed in `size_t` and
assigned to an `int`. -/
def inode_sector (env : Env) (n : Int) : Int :=
  to_int (to_size_t (to_size_t (INODE_TABLE_START_SECTOR env)
    + to_size_t n / INODES_PER_SECTOR))

/-- The first inode of a sector of the inode table:
`(sector - INODE_TABLE_START_SECTOR) * INODES_PER_SECTOR`, a `size_t`. -/
def inode_start_entry (env : Env) (sector : Int) : Int :=
  to_size_t (to_size_t (sector - INODE_TABLE_START_SECTOR env) * INODES_PER_SECTOR)

/-- The index of inode `n` in the sector `sector` of the inode table, the way
`find_child_inode`, `add_inode`, `File_Open` and `File_Read` compute it: the
start entry is assigned to an `int` and subtracted from `n`. -/
def inode_offset (env : Env) (n sector : Int) : Int :=
  n - to_int (inode_start_entry env sector)

/-! ## Path resolution -/

/-- The `for(i ..)` loop of `find_child_inode` over the entries `i, i+1, ..`
(`n` of them) of the directory sector in `buf`: the inode of the first entry
named `fname`, `none` when the loop ends (or breaks) without one. -/
def find_child_dirent (buf : Mem) (fname : List Nat) (nentries : Int) : Nat → Int → Option Int
  | 0, _ => none
  | n + 1, i =>
    if i > nentries then none
    else if strcmp_eq buf (i * sizeof_dirent_t) fname then
      some (dirent_inode buf (i * sizeof_dirent_t))
    else find_child_dirent buf fname nentries n (i + 1)

/-- The `while(nentries > 0)` loop of `find_child_inode`; the parent inode is
at `p` in the cached buffer.  Every iteration takes `DIRENTS_PER_SECTOR`
entries off `nentries`, so `nentries` iterations suffice.  The result is the
returned value with the cached sector number and buffer. -/
def find_child_loop (env : Env) (d : Disk) (p : Int) (fname : List Nat) :
    Nat → Int → Int → Int → Mem → Int × Int × Mem
  | 0, _, _, cached_inode_sector, cached_inode_buffer =>
    (-1, cached_inode_sector, cached_inode_buffer)
  | fuel + 1, nentries, idx, cached_inode_sector, cached_inode_buffer =>
    if nentries > 0 then
      let r := Disk_Read d (inode_data cached_inode_buffer p idx) env.stack
      if r.1 < 0 then (-2, cached_inode_sector, cached_inode_buffer)
      else
        match find_child_dirent r.2 fname nentries DIRENTS_PER_SECTOR.toNat 0 with
        | some child_inode =>
          let sector := inode_sector env child_inode
          if sector ≠ cached_inode_sector then
            let r2 := Disk_Read d sector cached_inode_buffer
            if r2.1 < 0 then (-2, sector, r2.2) else (child_inode, sector, r2.2)
          else (child_inode, cached_inode_sector, cached_inode_buffer)
        | none =>
          find_child_loop env d p fname fuel
            (to_int (to_size_t (to_size_t nentries - DIRENTS_PER_SECTOR))) (idx + 1)
            cached_inode_sector cached_inode_buffer
    else (-1, cached_inode_sector, cached_inode_buffer)

/-- `find_child_inode(parent_inode, fname, &cached_inode_sector,
cached_inode_buffer)`: the returned value with the cached sector number and
buffer; `none` when the assertion fails. -/
def find_child_inode (env : Env) (d : Disk) (parent_inode : Int) (fname : List Nat)
    (cached_inode_sector : Int) (cached_inode_buffer : Mem) : Option (Int × Int × Mem) :=
  let offset := inode_offset env parent_inode cached_inode_sector
  if 0 ≤ offset ∧ offset < INODES_PER_SECTOR then
    let p := offset * sizeof_inode_t
    if inode_type cached_inode_buffer p ≠ 1 then
      some (-2, cached_inode_sector, cached_inode_buffer)
    else
      some (find_child_loop env d p fname (inode_size cached_inode_buffer p).toNat
        (inode_size cached_inode_buffer p) 0 cached_inode_sector cached_inode_buffer)
  else none

/-- The `while((token = strsep(..)) != NULL)` loop of `follow_path` over the
tokens still to come.  The result is `none` when an assertion fails, and
otherwise whether the loop ran to its end (`false` is a `return -1` from
inside it) with `parent_inode`, `child_inode` and `last_fname`. -/
def follow_path_loop (env : Env) (d : Disk) :
    List (List Nat) → Int → Int → Int → Mem → Option (List Nat) →
      Option (Bool × Int × Int × Option (List Nat))
  | [], parent_inode, child_inode, _, _, last_fname =>
    some (true, parent_inode, child_inode, last_fname)
  | token :: rest, parent_inode, child_inode, cached_sector, cached_buffer, last_fname =>
    if token = [] then
      follow_path_loop env d rest parent_inode child_inode cached_sector cached_buffer last_fname
    else if illegal_filename token ≠ 0 then some (false, parent_inode, child_inode, last_fname)
    else if child_inode < 0 then some (false, parent_inode, child_inode, last_fname)
    else
      match find_child_inode env d child_inode token cached_sector cached_buffer with
      | none => none
      | some r =>
        follow_path_loop env d rest child_inode r.1 r.2.1 r.2.2
          (last_fname.map (fun _ => token))

/-- `follow_path(path, &last_inode, last_fname)` for a path that is not the
null pointer: the returned value, the value of `last_inode` and the string in
`last_fname` afterwards (`last_fname` is `none` for the null pointer that
`File_Open` passes); `none` when an assertion fails.  The arguments
`last_inode` and `last_fname` are what the caller's variables hold before the
call: a `return -1` leaves `last_inode` as it is. -/
def follow_path (env : Env) (d : Disk) (path : List Nat) (last_inode : Int)
    (last_fname : Option (List Nat)) : Option (Int × Int × Option (List Nat)) :=
  if (c_str path).head? ≠ some 47 then some (-1, last_inode, last_fname)
  else
    let pathstore := ((c_str path).tail).take (MAX_PATH - 1).toNat
    let cached_sector := INODE_TABLE_START_SECTOR env
    let r := Disk_Read d cached_sector env.stack
    if r.1 < 0 then some (-1, last_inode, last_fname)
    else
      match follow_path_loop env d (strsep_tokens pathstore) (-1) 0 cached_sector r.2
          last_fname with
      | none => none
      | some (false, _, _, fname) => some (-1, last_inode, fname)
      | some (true, parent_inode, child_inode, fname) =>
        if child_inode < -1 then some (-1, last_inode, fname)
        else some (if parent_inode = -1 ∧ child_inode = 0 then 0 else parent_inode,
                   child_inode, fname)

/-! ## Creation -/

/-- `add_inode(type, parent_inode, file)`: the returned value and the disk;
`none` when an assertion fails. -/
def add_inode (env : Env) (d : Disk) (type parent_inode : Int) (file : List Nat) :
    Option (Int × Disk) :=
  let a := bitmap_first_unused env d INODE_BITMAP_START_SECTOR (INODE_BITMAP_SECTORS env)
    (INODE_BITMAP_SIZE env)
  let child_inode := a.1
  let d := a.2
  if child_inode < 0 then some (-1, d)
  else
    let inode_sector1 := inode_sector env child_inode
    let r := Disk_Read d inode_sector1 env.stack
    if r.1 < 0 then some (-1, d)
    else
      let offset := inode_offset env child_inode inode_sector1
      if ¬ (0 ≤ offset ∧ offset < INODES_PER_SECTOR) then none
      else
        let child := offset * sizeof_inode_t
        let inode_buffer := memset0 r.2 child sizeof_inode_t
        let inode_buffer := write_int inode_buffer (child + 4) type
        let w := Disk_Write d inode_sector1 inode_buffer
        if w.1 < 0 then some (-1, d)
        else
          let d := w.2
          let inode_sector2 := inode_sector env parent_inode
          let r := Disk_Read d inode_sector2 inode_buffer
          if r.1 < 0 then some (-1, d)
          else
            let inode_buffer := r.2
            let offset := inode_offset env parent_inode inode_sector2
            if ¬ (0 ≤ offset ∧ offset < INODES_PER_SECTOR) then none
            else
              let parent := offset * sizeof_inode_t
              if inode_type inode_buffer parent ≠ 1 then some (-2, d)
              else
                let size := inode_size inode_buffer parent
                let group := to_int (to_size_t size / DIRENTS_PER_SECTOR)
                let fresh := to_size_t (to_size_t group * DIRENTS_PER_SECTOR) = to_size_t size
                let b :=
                  if fresh then
                    bitmap_first_unused env d (SECTOR_BITMAP_START_SECTOR env)
                      SECTOR_BITMAP_SECTORS SECTOR_BITMAP_SIZE
                  else (0, d)
                if fresh ∧ b.1 < 0 then some (-1, b.2)
                else
                  let d := b.2
                  let inode_buffer :=
                    if fresh then write_int inode_buffer (parent + 8 + 4 * group) b.1
                    else inode_buffer
                  let rd := Disk_Read d (inode_data inode_buffer parent group) env.stack
                  if ¬ fresh ∧ rd.1 < 0 then some (-1, d)
                  else
                    let dirent_buffer := if fresh then memset0 env.stack 0 SECTOR_SIZE else rd.2
                    let start_entry := to_int (to_size_t (to_size_t group * DIRENTS_PER_SECTOR))
                    let offset := size - start_entry
                    let dirent := offset * sizeof_dirent_t
                    let dirent_buffer := strncpy dirent_buffer dirent file MAX_NAME
                    let dirent_buffer := write_int dirent_buffer (dirent + MAX_NAME) child_inode
                    let w := Disk_Write d (inode_data inode_buffer parent group) dirent_buffer
                    if w.1 < 0 then some (-1, d)
                    else
                      let d := w.2
                      let inode_buffer := write_int inode_buffer parent (size + 1)
                      let w := Disk_Write d inode_sector2 inode_buffer
                      if w.1 < 0 then some (-1, d) else some (0, w.2)

/-! ## The file system state -/

/-- The type `open_file_t`. -/
structure open_file_t where
  inode : Int
  size : Int
  pos : Int
  deriving DecidableEq, Repr

/-- The global state: the disk, the table `open_files` and `osErrno`. -/
structure FS where
  disk : Disk
  open_files : Int → open_file_t
  osErrno : FS_Error

/-- The assignment `open_files[fd] = f`. -/
def set_open_file (t : Int → open_file_t) (fd : Int) (f : open_file_t) : Int → open_file_t :=
  fun i => if i = fd then f else t i

/-- `create_file_or_directory(type, pathname)`: the returned value and the
state; `none` when an assertion fails. -/
def create_file_or_directory (env : Env) (st : FS) (type : Int) (pathname : List Nat) :
    Option (Int × FS) :=
  match follow_path env st.disk pathname env.stack_int (some env.stack_str) with
  | none => none
  | some (parent_inode, child_inode, last_fname) =>
    if parent_inode ≥ 0 then
      if child_inode ≥ 0 then some (-1, { st with osErrno := FS_Error.E_CREATE })
      else
        match add_inode env st.disk type parent_inode (last_fname.getD []) with
        | none => none
        | some a =>
          if a.1 ≥ 0 then some (0, { st with disk := a.2 })
          else some (-1, { st with disk := a.2, osErrno := FS_Error.E_CREATE })
    else some (-1, { st with osErrno := FS_Error.E_CREATE })

/-- `File_Create(file)`. -/
def File_Create (env : Env) (st : FS) (file : List Nat) : Option (Int × FS) :=
  create_file_or_directory env st 0 file

/-- `Dir_Create(path)`. -/
def Dir_Create (env : Env) (st : FS) (path : List Nat) : Option (Int × FS) :=
  create_file_or_directory env st 1 path

/-! ## Removal -/

/-- `getNode(childNode)`: the buffer the function reads the sector into and
the offset in it of the inode it returns a pointer to.  The pointer is used
after `getNode` has returned; the model takes the record as it is at the time
of the call. -/
def getNode (env : Env) (d : Disk) (childNode : Int) : Mem × Int :=
  let sector := inode_sector env childNode
  let buffer := (Disk_Read d sector env.stack).2
  let childLocation := to_int (to_size_t (to_size_t childNode - inode_start_entry env sector))
  (buffer, childLocation * sizeof_inode_t)

/-- The first loop of `remove_inode` for a file, over the entries
`i, i+1, ..` (`n` of them) of the data list of `child`. -/
def remove_inode_sectors (env : Env) (child : Mem × Int) : Nat → Int → Disk → Disk
  | 0, _, d => d
  | n + 1, i, d =>
    let childSector : Int := inode_data child.1 child.2 i % 256
    if childSector ≠ 0 then
      let buffer := memset0 env.stack 0 SECTOR_SIZE
      let d := (Disk_Write d childSector buffer).2
      remove_inode_sectors env child n (i + 1) (bitmap_reset env d 2 3 (childSector + 1)).2
    else remove_inode_sectors env child n (i + 1) d

/-- The `for(k ..)` loop of `remove_inode` over the entries `k, k+1, ..`
(`n` of them) of a directory sector: the first entry whose inode is
`child_inode`, if any. -/
def remove_inode_entry (sectorBuffer : Mem) (child_inode : Int) : Nat → Int → Option Int
  | 0, _ => none
  | n + 1, k =>
    if dirent_inode sectorBuffer (k * 20) = child_inode then some k
    else remove_inode_entry sectorBuffer child_inode n (k + 1)

/-- The `for(j ..)` loop of `remove_inode` over the entries `j, j+1, ..`
(`n` of them) of the data list of `parent`: the disk when the function
returns. -/
def remove_inode_dirent (env : Env) (d : Disk) (parent : Mem × Int) (child_inode : Int) :
    Nat → Int → Disk
  | 0, _ => d
  | n + 1, j =>
    let parentSector := inode_data parent.1 parent.2 j
    let sectorBuffer := (Disk_Read d parentSector env.stack).2
    match remove_inode_entry sectorBuffer child_inode 25 0 with
    | some k => (Disk_Write d parentSector (memset0 sectorBuffer (k * 20) sizeof_dirent_t)).2
    | none => remove_inode_dirent env d parent child_inode n (j + 1)

/-- `remove_inode(type, parent_inode, child_inode)`: the returned value and
the disk. -/
def remove_inode (env : Env) (d : Disk) (type parent_inode child_inode : Int) : Int × Disk :=
  let child := getNode env d child_inode
  let parent := getNode env d parent_inode
  if type = 0 then
    let d := remove_inode_sectors env child 30 0 d
    let d := (bitmap_reset env d 1 1 (child_inode + 1)).2
    (0, remove_inode_dirent env d parent child_inode 30 0)
  else if type = 1 then (0, remove_inode_dirent env d parent child_inode 30 0)
  else if type ≤ -1 then (-3, d)
  else (-1, d)

/-! ## Open files -/

/-- The loop of `is_file_open` over the slots `i, i+1, ..` (`n` of them). -/
def is_file_open_loop (t : Int → open_file_t) (inode : Int) : Nat → Int → Int
  | 0, _ => 0
  | n + 1, i => if (t i).inode = inode then 1 else is_file_open_loop t inode n (i + 1)

/-- `is_file_open(inode)`. -/
def is_file_open (st : FS) (inode : Int) : Int :=
  is_file_open_loop st.open_files inode MAX_OPEN_FILES.toNat 0

/-- The loop of `new_file_fd` over the slots `i, i+1, ..` (`n` of them). -/
def new_file_fd_loop (t : Int → open_file_t) : Nat → Int → Int
  | 0, _ => -1
  | n + 1, i => if (t i).inode ≤ 0 then i else new_file_fd_loop t n (i + 1)

/-- `new_file_fd()`. -/
def new_file_fd (st : FS) : Int := new_file_fd_loop st.open_files MAX_OPEN_FILES.toNat 0

/-- `File_Unlink(pathname)`: the returned value and the state; `none` when an
assertion fails. -/
def File_Unlink (env : Env) (st : FS) (pathname : List Nat) : Option (Int × FS) :=
  match follow_path env st.disk pathname env.stack_int (some env.stack_str) with
  | none => none
  | some (parent, child, _) =>
    if child < 1 then some (-1, { st with osErrno := FS_Error.E_NO_SUCH_FILE })
    else if is_file_open st child = 1 then some (-1, { st with osErrno := FS_Error.E_FILE_IN_USE })
    else
      let r := remove_inode env st.disk 0 parent child
      if r.1 ≥ 0 then some (0, { st with disk := r.2 }) else some (-1, { st with disk := r.2 })

/-- `File_Open(file)`: the returned value and the state; `none` when an
assertion fails. -/
def File_Open (env : Env) (st : FS) (file : List Nat) : Option (Int × FS) :=
  let fd := new_file_fd st
  if fd < 0 then some (-1, { st with osErrno := FS_Error.E_TOO_MANY_OPEN_FILES })
  else
    match follow_path env st.disk file env.stack_int none with
    | none => none
    | some (_, child_inode, _) =>
      if child_inode ≥ 0 then
        let inode_sector := inode_sector env child_inode
        let r := Disk_Read st.disk inode_sector env.stack
        if r.1 < 0 then some (-1, { st with osErrno := FS_Error.E_GENERAL })
        else
          let offset := inode_offset env child_inode inode_sector
          if 0 ≤ offset ∧ offset < INODES_PER_SECTOR then
            let child := offset * sizeof_inode_t
            if inode_type r.2 child ≠ 0 then some (-1, { st with osErrno := FS_Error.E_GENERAL })
            else
              let f : open_file_t := { inode := child_inode, size := inode_size r.2 child, pos := 0 }
              some (fd, { st with open_files := set_open_file st.open_files fd f })
          else none
      else some (-1, { st with osErrno := FS_Error.E_NO_SUCH_FILE })

/-- The `for(j ..)` loop of `File_Read` over the bytes `j, j+1, ..` (`n` of
them) of the sector in `fileBuffer`: `counter` and the caller's buffer. -/
def File_Read_bytes (pos fsize size : Int) (fileBuffer : Mem) :
    Nat → Int → Int → Mem → Int × Mem
  | 0, _, counter, data => (counter, data)
  | n + 1, j, counter, data =>
    if counter + pos < fsize ∧ counter < size then
      File_Read_bytes pos fsize size fileBuffer n (j + 1) (counter + 1)
        (fun k => if k = counter then fileBuffer j else data k)
    else File_Read_bytes pos fsize size fileBuffer n (j + 1) counter data

/-- The `for(i ..)` loop of `File_Read` over the entries `i, i+1, ..` (`n` of
them) of the data list of the inode at `file` in `nodeBuffer`: `counter` and
the caller's buffer. -/
def File_Read_sectors (d : Disk) (nodeBuffer : Mem) (file pos size : Int) :
    Nat → Int → Int → Mem → Int → Mem → Int × Mem
  | 0, _, _, _, counter, data => (counter, data)
  | n + 1, i, index2, fileBuffer, counter, data =>
    if inode_data nodeBuffer file i ≠ 0 then
      let fileBuffer := (Disk_Read d (inode_data nodeBuffer file i) fileBuffer).2
      let r := File_Read_bytes pos (inode_size nodeBuffer file) size fileBuffer
        (SECTOR_SIZE - index2).toNat index2 counter data
      File_Read_sectors d nodeBuffer file pos size n (i + 1) 0 fileBuffer r.1 r.2
    else File_Read_sectors d nodeBuffer file pos size n (i + 1) index2 fileBuffer counter data

/-- `File_Read(fd, buffer, size)`: the returned value, the state and the
caller's buffer; `none` when the assertion fails. -/
def File_Read (env : Env) (st : FS) (fd : Int) (buffer : Mem) (size : Int) :
    Option (Int × FS × Mem) :=
  let fileNode := (st.open_files fd).inode
  if fileNode = 0 then some (-1, { st with osErrno := FS_Error.E_BAD_FD }, buffer)
  else
    let nodeSector := inode_sector env fileNode
    let r := Disk_Read st.disk nodeSector env.stack
    if r.1 < 0 then some (-1, st, buffer)
    else
      let offset := inode_offset env fileNode nodeSector
      if 0 ≤ offset ∧ offset < INODES_PER_SECTOR then
        let file := offset * sizeof_inode_t
        let pos := (st.open_files fd).pos
        let index1 := cdiv pos SECTOR_SIZE
        let index2 := cmod pos SECTOR_SIZE
        let out := File_Read_sectors st.disk r.2 file pos size
          (MAX_SECTORS_PER_FILE - index1).toNat index1 index2 env.stack 0 buffer
        let f : open_file_t := { st.open_files fd with pos := pos + out.1 }
        some (out.1, { st with open_files := set_open_file st.open_files fd f }, out.2)
      else none

/-- The `for(i ..)` loop of `File_Write` over the sectors `i, i+1, ..` (`n` of
them): the disk, `open_files[fd].pos` and `bytesLeft`.  `fsize` is
`open_files[fd].size`; the arrays `dataBuff` and `diskBuff` are uninitialised,
and the length of the second `memcpy` is converted to `size_t`.  The bounds
of the two arrays are not represented here: a `memcpy` that leaves them reads
the bytes of `env.stack`; `File_Write_loop_checked` is the loop with the
bounds. -/
def File_Write_loop (env : Env) (inode : Mem × Int) (fsize : Int) :
    Nat → Int → Disk → Int → Int → Disk × Int × Int
  | 0, _, d, pos, bytesLeft => (d, pos, bytesLeft)
  | n + 1, i, d, pos, bytesLeft =>
    let dataBuff : Mem := env.stack
    let diskBuff : Mem := env.stack
    let sector := inode_data inode.1 inode.2 i
    let a :=
      if sector = 0 then
        bitmap_first_unused env d (SECTOR_BITMAP_START_SECTOR env) SECTOR_BITMAP_SECTORS
          SECTOR_BITMAP_SIZE
      else (sector, d)
    let sector := a.1
    let d := a.2
    if pos = 0 then
      if bytesLeft ≥ SECTOR_SIZE then
        let diskBuff := memcpy diskBuff 0 dataBuff (i * SECTOR_SIZE) SECTOR_SIZE
        File_Write_loop env inode fsize n (i + 1) (Disk_Write d sector diskBuff).2 pos
          (bytesLeft - SECTOR_SIZE)
      else
        let diskBuff := memcpy diskBuff 0 dataBuff (i * SECTOR_SIZE) (to_size_t bytesLeft)
        File_Write_loop env inode fsize n (i + 1) (Disk_Write d sector diskBuff).2 pos 0
    else
      let diskBuff := (Disk_Read d sector diskBuff).2
      let diskBuff := memcpy diskBuff 0 diskBuff fsize (to_size_t (SECTOR_SIZE - fsize))
      File_Write_loop env inode fsize n (i + 1) (Disk_Write d sector diskBuff).2 0
        (bytesLeft - (SECTOR_SIZE - fsize))

/-- The local `start` of `File_Write`. -/
def File_Write_start (st : FS) (fd : Int) : Int := cdiv (st.open_files fd).pos SECTOR_SIZE

/-- The local `end` of `File_Write`. -/
def File_Write_end (st : FS) (fd size : Int) : Int :=
  File_Write_start st fd + cdiv (size + (st.open_files fd).pos + SECTOR_SIZE - 1) SECTOR_SIZE

/-- `File_Write(fd, buffer, size)`: the returned value and the state.  The
source never reads `buffer`. -/
def File_Write (env : Env) (st : FS) (fd : Int) (_buffer : Mem) (size : Int) : Int × FS :=
  let startingPos := (st.open_files fd).pos
  let start := File_Write_start st fd
  let end_ := File_Write_end st fd size
  if fd < 0 ∧ fd > MAX_OPEN_FILES then (-1, { st with osErrno := FS_Error.E_NO_SPACE })
  else if (st.open_files fd).inode < 1 then (-1, { st with osErrno := FS_Error.E_BAD_FD })
  else if end_ ≥ env.MAX_FILE_SIZE then (-1, { st with osErrno := FS_Error.E_FILE_TOO_BIG })
  else
    let inode := getNode env st.disk (st.open_files fd).inode
    let r := File_Write_loop env inode (st.open_files fd).size (end_ - start).toNat start
      st.disk (st.open_files fd).pos size
    let f : open_file_t := { st.open_files fd with pos := startingPos + size }
    (size, { st with disk := r.1, open_files := set_open_file st.open_files fd f })

/-- `File_Seek(fd, offset)`: the returned value and the state. -/
def File_Seek (st : FS) (fd offset : Int) : Int × FS :=
  if is_file_open st (st.open_files fd).inode ≠ 1 then
    (-1, { st with osErrno := FS_Error.E_BAD_FD })
  else if offset > (st.open_files fd).size ∨ offset < 0 then
    (-1, { st with osErrno := FS_Error.E_SEEK_OUT_OF_BOUNDS })
  else
    let f : open_file_t := { st.open_files fd with pos := offset }
    (offset, { st with open_files := set_open_file st.open_files fd f })

/-- `File_Close(fd)`: the returned value and the state. -/
def File_Close (st : FS) (fd : Int) : Int × FS :=
  if 0 > fd ∨ fd > MAX_OPEN_FILES then (-1, { st with osErrno := FS_Error.E_BAD_FD })
  else if (st.open_files fd).inode ≤ 0 then (-1, { st with osErrno := FS_Error.E_BAD_FD })
  else
    let f : open_file_t := { st.open_files fd with inode := 0 }
    (0, { st with open_files := set_open_file st.open_files fd f })

/-! ## Directories -/

/-- `path_type_resolver(pathname)`: the returned value; `none` when an
assertion fails. -/
def path_type_resolver (env : Env) (d : Disk) (pathname : List Nat) : Option Int :=
  match follow_path env d pathname env.stack_int (some env.stack_str) with
  | none => none
  | some (_, last_inode, _) =>
    if last_inode = -1 then some (-1)
    else
      let node := getNode env d last_inode
      some (inode_type node.1 node.2)

/-- `Dir_Unlink(path)`: the returned value and the state; `none` when an
assertion fails.  The first test of the source, `!strcmp(path, "/") != 0`,
holds exactly when `path` is `"/"`. -/
def Dir_Unlink (env : Env) (st : FS) (path : List Nat) : Option (Int × FS) :=
  if c_str path = [47] then some (-1, { st with osErrno := FS_Error.E_NO_SUCH_DIR })
  else if c_str path = [47] then some (-1, { st with osErrno := FS_Error.E_ROOT_DIR })
  else
    match path_type_resolver env st.disk path with
    | none => none
    | some t =>
      if t = 1 then
        match follow_path env st.disk path env.stack_int (some env.stack_str) with
        | none => none
        | some (parent, last_inode, _) =>
          let inode := getNode env st.disk last_inode
          if inode_size inode.1 inode.2 > 0 then
            some (-1, { st with osErrno := FS_Error.E_DIR_NOT_EMPTY })
          else
            let r := remove_inode env st.disk 1 parent last_inode
            if r.1 ≥ 0 then some (0, { st with disk := r.2 }) else some (-1, { st with disk := r.2 })
      else some (-1, st)

/-- The `for(j ..)` loop of `Dir_Size` over the entries `j, j+1, ..` (`n` of
them) of the sector in `tempBuffer`: the value of `byteCounter`. -/
def Dir_Size_entries (tempBuffer : Mem) : Nat → Int → Int → Int
  | 0, _, byteCounter => byteCounter
  | n + 1, j, byteCounter =>
    if dirent_inode tempBuffer (j * 20) > 0 then
      Dir_Size_entries tempBuffer n (j + 1) (byteCounter + 20)
    else Dir_Size_entries tempBuffer n (j + 1) byteCounter

/-- The `for(i ..)` loop of `Dir_Size` over the entries `i, i+1, ..` (`n` of
them) of the data list of `inodeDir`: the value of `byteCounter`. -/
def Dir_Size_sectors (d : Disk) (inodeDir : Mem × Int) : Nat → Int → Mem → Int → Int
  | 0, _, _, byteCounter => byteCounter
  | n + 1, i, tempBuffer, byteCounter =>
    let sect : Int := inode_data inodeDir.1 inodeDir.2 i % 256
    let tempBuffer := (Disk_Read d sect tempBuffer).2
    Dir_Size_sectors d inodeDir n (i + 1) tempBuffer
      (Dir_Size_entries tempBuffer 25 0 byteCounter)

/-- `Dir_Size(path)`: the returned value; `none` when an assertion fails. -/
def Dir_Size (env : Env) (d : Disk) (path : List Nat) : Option Int :=
  match path_type_resolver env d path with
  | none => none
  | some t =>
    if t = 1 then
      match follow_path env d path env.stack_int (some env.stack_str) with
      | none => none
      | some (_, last_inode, _) =>
        some (Dir_Size_sectors d (getNode env d last_inode) 30 0 env.stack 0)
    else some 0

/-- The `for(j ..)` loop of `Dir_Read` over the entries `j, j+1, ..` (`n` of
them) of the sector in `dirBuffer`: `counter` and the caller's buffer. -/
def Dir_Read_entries (dirBuffer : Mem) : Nat → Int → Int → Mem → Int × Mem
  | 0, _, counter, buffer => (counter, buffer)
  | n + 1, j, counter, buffer =>
    if dirent_inode dirBuffer (j * sizeof_dirent_t) ≠ 0 then
      Dir_Read_entries dirBuffer n (j + 1) (to_int (to_size_t (to_size_t counter + sizeof_dirent_t)))
        (memcpy buffer counter dirBuffer (j * sizeof_dirent_t) sizeof_dirent_t)
    else Dir_Read_entries dirBuffer n (j + 1) counter buffer

/-- The `for(i ..)` loop of `Dir_Read` over the entries `i, i+1, ..` (`n` of
them) of the data list of the inode at `directory` in `nodeBuffer`: `counter`
and the caller's buffer. -/
def Dir_Read_sectors (d : Disk) (nodeBuffer : Mem) (directory : Int) :
    Nat → Int → Mem → Int → Mem → Int × Mem
  | 0, _, _, counter, buffer => (counter, buffer)
  | n + 1, i, dirBuffer, counter, buffer =>
    if inode_data nodeBuffer directory i ≠ 0 then
      let dirBuffer := (Disk_Read d (inode_data nodeBuffer directory i) dirBuffer).2
      let r := Dir_Read_entries dirBuffer DIRENTS_PER_SECTOR.toNat 0 counter buffer
      Dir_Read_sectors d nodeBuffer directory n (i + 1) dirBuffer r.1 r.2
    else Dir_Read_sectors d nodeBuffer directory n (i + 1) dirBuffer counter buffer

/-- `Dir_Read(path, buffer, size)`: the returned value, the state and the
caller's buffer; `none` when an assertion fails. -/
def Dir_Read (env : Env) (st : FS) (path : List Nat) (buffer : Mem) (size : Int) :
    Option (Int × FS × Mem) :=
  match follow_path env st.disk path env.stack_int (some env.stack_str) with
  | none => none
  | some (_, dirNode, _) =>
    let nodeSector := inode_sector env dirNode
    let r := Disk_Read st.disk nodeSector env.stack
    if r.1 < 0 then some (-1, st, buffer)
    else
      let offset := inode_offset env dirNode nodeSector
      if 0 ≤ offset ∧ offset < INODES_PER_SECTOR then
        let directory := offset * sizeof_inode_t
        if inode_type r.2 directory = 0 then
          some (-1, { st with osErrno := FS_Error.E_GENERAL }, buffer)
        else if to_size_t (to_size_t (inode_size r.2 directory) * sizeof_dirent_t)
            > to_size_t size then
          some (-1, { st with osErrno := FS_Error.E_BUFFER_TOO_SMALL }, buffer)
        else
          let out := Dir_Read_sectors st.disk r.2 directory MAX_SECTORS_PER_FILE.toNat 0
            env.stack 0 buffer
          some (inode_size r.2 directory, st, out.2)
      else none

/-! ## Formatting -/

def OS_MAGIC : Int := 3735928559

/-- The loop of `FS_Boot` that formats the sectors `i, i+1, ..` (`n` of them)
of the inode table: whether every `Disk_Write` succeeded, and the disk. -/
def FS_Boot_inode_table (env : Env) : Nat → Int → Disk → Bool × Disk
  | 0, _, d => (true, d)
  | n + 1, i, d =>
    let buf := memset0 env.stack 0 SECTOR_SIZE
    let buf := if i = 0 then write_int (write_int buf 0 0) 4 1 else buf
    let w := Disk_Write d (INODE_TABLE_START_SECTOR env + i) buf
    if w.1 < 0 then (false, d) else FS_Boot_inode_table env n (i + 1) w.2

/-- The branch of `FS_Boot` that creates a new file system, taken when the
backstore file does not exist (`Disk_Init` succeeds, `Disk_Load` fails with
`E_OPENING_FILE`), with a `Disk_Save` that succeeds: the returned value and
the state.  `st` is the state before the call. -/
def FS_Boot_format (env : Env) (st : FS) : Int × FS :=
  let buf := memset0 env.stack 0 SECTOR_SIZE
  let buf := write_int buf 0 OS_MAGIC
  let w := Disk_Write Disk_Init SUPERBLOCK_START_SECTOR buf
  if w.1 < 0 then (-1, { st with disk := w.2, osErrno := FS_Error.E_GENERAL })
  else
    let d := bitmap_init env w.2 INODE_BITMAP_START_SECTOR (INODE_BITMAP_SECTORS env) 1
    let d := bitmap_init env d (SECTOR_BITMAP_START_SECTOR env) SECTOR_BITMAP_SECTORS
      (to_int (DATABLOCK_START_SECTOR env))
    let t := FS_Boot_inode_table env (INODE_TABLE_SECTORS env).toNat 0 d
    if t.1 then (0, { disk := t.2, open_files := fun _ => ⟨0, 0, 0⟩, osErrno := st.osErrno })
    else (-1, { st with disk := t.2, osErrno := FS_Error.E_GENERAL })

/-! ## Vocabulary of the statements -/

/-- Inode `n` has its record in a sector of the disk: the number is not
negative and the sector `INODE_TABLE_START_SECTOR + n / INODES_PER_SECTOR`
exists. -/
def valid_inode (env : Env) (n : Int) : Prop :=
  0 ≤ INODE_TABLE_START_SECTOR env ∧ 0 ≤ n
    ∧ INODE_TABLE_START_SECTOR env + n / INODES_PER_SECTOR < TOTAL_SECTORS

/-- The sector of the disk that holds the record of inode `n`. -/
def inode_record_sector (env : Env) (d : Disk) (n : Int) : Mem :=
  d (INODE_TABLE_START_SECTOR env + n / INODES_PER_SECTOR)

/-- The field `size` of the record of inode `n` in the inode table. -/
def inode_record_size (env : Env) (d : Disk) (n : Int) : Int :=
  inode_size (inode_record_sector env d n) (n % INODES_PER_SECTOR * sizeof_inode_t)

/-- The field `type` of the record of inode `n` in the inode table. -/
def inode_record_type (env : Env) (d : Disk) (n : Int) : Int :=
  inode_type (inode_record_sector env d n) (n % INODES_PER_SECTOR * sizeof_inode_t)

/-- The element `data[i]` of the record of inode `n` in the inode table. -/
def inode_record_data (env : Env) (d : Disk) (n i : Int) : Int :=
  inode_data (inode_record_sector env d n) (n % INODES_PER_SECTOR * sizeof_inode_t) i

/-- The byte at offset `o` of the file with inode `n`: the byte at offset
`o mod SECTOR_SIZE` of the data sector number `o div SECTOR_SIZE`. -/
def file_byte (env : Env) (d : Disk) (n o : Int) : Byte :=
  d (inode_record_data env d n (o / SECTOR_SIZE)) (o % SECTOR_SIZE)

/-- Every slot of `open_files` is in use. -/
def all_fds_in_use (st : FS) : Prop :=
  ∀ i, 0 ≤ i → i < MAX_OPEN_FILES → 0 < (st.open_files i).inode

/-- The slot `fd` is the lowest free slot of `open_files`. -/
def lowest_free_fd (st : FS) (fd : Int) : Prop :=
  0 ≤ fd ∧ fd < MAX_OPEN_FILES ∧ (st.open_files fd).inode ≤ 0
    ∧ ∀ i, 0 ≤ i → i < fd → 0 < (st.open_files i).inode

/-! ## Concrete states -/

/-- The bytes of a string literal. -/
def ascii (s : String) : List Nat := s.toList.map Char.toNat

/-- A state before `FS_Boot`: an empty descriptor table. -/
def FS_initial : FS :=
  { disk := Disk_Init, open_files := fun _ => ⟨0, 0, 0⟩, osErrno := FS_Error.E_GENERAL }

/-- The freshly formatted file system. -/
def FS_fresh : FS := (FS_Boot_format stdEnv FS_initial).2

/-- The state after `File_Create("/a")` on the freshly formatted file system. -/
def FS_created : FS := ((File_Create stdEnv FS_fresh (ascii "/a")).map Prod.snd).getD FS_fresh

/-- The state after `File_Open("/a")` on `FS_created`: descriptor 0 is open
on the empty file `/a`, whose inode is 1. -/
def FS_opened : FS := ((File_Open stdEnv FS_created (ascii "/a")).map Prod.snd).getD FS_created

/-- The run of the write/read symmetry property: on the freshly formatted
file system, `File_Create("/a")`, `fd = File_Open("/a")`,
`File_Write(fd, b, N)`, `File_Seek(fd, 0)` and `File_Read(fd, out, N)` into a
zeroed buffer `out`.  The result is the value `File_Read` returns, with `out`. -/
def write_read_run (b : Mem) (N : Int) : Option (Int × Mem) :=
  match File_Create stdEnv FS_fresh (ascii "/a") with
  | none => none
  | some c =>
    match File_Open stdEnv c.2 (ascii "/a") with
    | none => none
    | some o =>
      let w := File_Write stdEnv o.2 o.1 b N
      let s := File_Seek w.2 o.1 0
      (File_Read stdEnv s.2 o.1 (fun _ => 0) N).map (fun r => (r.1, r.2.2))

/-- The state `FS_opened` with every bit of the three sectors of the sector
bitmap set: no sector is free. -/
def FS_full : FS :=
  { FS_opened with
    disk := (Disk_Write (Disk_Write (Disk_Write FS_opened.disk 2 (fun _ => 255)).2 3
      (fun _ => 255)).2 4 (fun _ => 255)).2 }

/-- A disk image on which the file `/a` (inode 1) holds 600 bytes in the data
sectors 300 and 301: the image of `FS_created` with the record of inode 1
set to size 600 and data list 300, 301, the bits of the two sectors set in
the sector bitmap, and byte `j` of sector 300 equal to `j mod 256`, of sector
301 to `(j + 100) mod 256`. -/
def stored_disk : Disk :=
  let d := FS_created.disk
  let inodes := write_int (write_int (write_int (d 5) 128 600) 136 300) 140 301
  let d := (Disk_Write d 5 inodes).2
  let d := (Disk_Write d 2 (fun j => if j = 37 then 12 else d 2 j)).2
  let d := (Disk_Write d 300 (fun j => byte j.toNat)).2
  (Disk_Write d 301 (fun j => byte (j.toNat + 100))).2

/-- The state with the disk image `stored_disk`, after `File_Open("/a")`
(descriptor 0, cached size 600) and `File_Seek(0, 500)`. -/
def FS_stored : FS :=
  let st : FS := { FS_created with disk := stored_disk }
  let st := ((File_Open stdEnv st (ascii "/a")).map Prod.snd).getD st
  (File_Seek st 0 500).2

/-! ## Vocabulary of the directory statements -/

/-- Bit `k` of the bitmap that starts at sector `start`: bit `7 - k mod 8` of
byte `(k div 8) mod SECTOR_SIZE` of sector `start + k div (SECTOR_SIZE * 8)`. -/
def bitmap_bit (d : Disk) (start k : Int) : Bool :=
  (d (start + k / (SECTOR_SIZE * 8)) (k / 8 % SECTOR_SIZE)).val.testBit (7 - k % 8).toNat

/-- The number of slots with a non-zero inode number among the slots
`k, k+1, ..` (`n` of them) of a directory sector. -/
def live_entries_sector (m : Mem) : Nat → Int → Nat
  | 0, _ => 0
  | n + 1, k =>
    (if dirent_inode m (k * sizeof_dirent_t) ≠ 0 then 1 else 0) + live_entries_sector m n (k + 1)

/-- The number of live entries in the data sectors `data[i], data[i+1], ..`
(`n` of them) of inode `dir`; an element 0 of the data list is no sector. -/
def live_entries_from (env : Env) (d : Disk) (dir : Int) : Nat → Int → Nat
  | 0, _ => 0
  | n + 1, i =>
    (if inode_record_data env d dir i ≠ 0 then
      live_entries_sector (d (inode_record_data env d dir i)) DIRENTS_PER_SECTOR.toNat 0
    else 0) + live_entries_from env d dir n (i + 1)

/-- The number of live (non-zeroed) entries of the directory with inode `dir`. -/
def live_entries (env : Env) (d : Disk) (dir : Int) : Nat :=
  live_entries_from env d dir MAX_SECTORS_PER_FILE.toNat 0

/-- What `follow_path(path, &last_inode, last_fname)` returns and leaves in
`last_inode`, called the way the public operations call it. -/
def resolve (env : Env) (d : Disk) (path : List Nat) : Option (Int × Int) :=
  (follow_path env d path env.stack_int (some env.stack_str)).map (fun r => (r.1, r.2.1))

/-- The state after a call that gave `r` in the state `st` (`st` itself when
an assertion failed). -/
def state_after (r : Option (Int × FS)) (st : FS) : FS := (r.map Prod.snd).getD st

/-- The bytes `0 .. n-1` of a buffer. -/
def bytes_of (m : Mem) (n : Nat) : List Nat := (List.range n).map (fun i => (m i).val)

/-! ## Concrete states of the directory operations -/

/-- After `Dir_Create("/d")` on the freshly formatted file system: the empty
directory `/d` has inode 1. -/
def FS_d : FS := state_after (Dir_Create stdEnv FS_fresh (ascii "/d")) FS_fresh

/-- After `Dir_Unlink("/d")` on `FS_d`. -/
def FS_d_unlinked : FS := state_after (Dir_Unlink stdEnv FS_d (ascii "/d")) FS_d

/-- After `File_Create("/d/f")` on `FS_d`: the file has inode 2, the directory
`/d` the data sector 256. -/
def FS_d_f : FS := state_after (File_Create stdEnv FS_d (ascii "/d/f")) FS_d

/-- After `File_Unlink("/d/f")` on `FS_d_f`. -/
def FS_d_f_unlinked : FS := state_after (File_Unlink stdEnv FS_d_f (ascii "/d/f")) FS_d_f

/-- After `File_Create("/a.txt")` on the freshly formatted file system. -/
def FS_a_txt : FS := state_after (File_Create stdEnv FS_fresh (ascii "/a.txt")) FS_fresh

/-- After `File_Create("/b")` on `FS_created`: the root holds the files `/a`
(inode 1) and `/b` (inode 2). -/
def FS_a_b : FS := state_after (File_Create stdEnv FS_created (ascii "/b")) FS_created

/-- After `File_Unlink("/a")` on `FS_a_b`. -/
def FS_a_b_unlinked : FS := state_after (File_Unlink stdEnv FS_a_b (ascii "/a")) FS_a_b

/-- After `Dir_Create("/a")` and `File_Create("/a/b")` on the freshly
formatted file system. -/
def FS_dir_a_b : FS :=
  let st := state_after (Dir_Create stdEnv FS_fresh (ascii "/a")) FS_fresh
  state_after (File_Create stdEnv st (ascii "/a/b")) st

/-- After `Dir_Create("/a")`, `Dir_Create("/b")`, `File_Create("/a/x")` and
`File_Create("/b/y")` on the freshly formatted file system: the directory `/a`
(inode 1) has the data sector 256 and `/b` (inode 2) the data sector 257. -/
def FS_two_dirs : FS :=
  let st := state_after (Dir_Create stdEnv FS_fresh (ascii "/a")) FS_fresh
  let st := state_after (Dir_Create stdEnv st (ascii "/b")) st
  let st := state_after (File_Create stdEnv st (ascii "/a/x")) st
  state_after (File_Create stdEnv st (ascii "/b/y")) st

/-- After `File_Unlink("/b")` on `FS_two_dirs`. -/
def FS_root_freed : FS := state_after (File_Unlink stdEnv FS_two_dirs (ascii "/b")) FS_two_dirs

/-- After `File_Create("/c")` on `FS_root_freed`. -/
def FS_root_reused : FS := state_after (File_Create stdEnv FS_root_freed (ascii "/c")) FS_root_freed

/-- The freshly formatted file system with every bit of the first sector of
the sector bitmap set (the sectors 0 to 4095 are in use); the sectors 4096 to
9999, whose bits are in the two other sectors of the bitmap, are free. -/
def FS_first_sector_full : FS :=
  { FS_fresh with disk := (Disk_Write FS_fresh.disk 2 (fun _ => 255)).2 }

/-- A disk image on which the file `/a` (inode 1) holds 3072 bytes in the six
data sectors 256 to 261, the first six that the sector bitmap hands out after
the sector 255 of the root directory: the image of `FS_created` with the
record of inode 1 set to that size and data list, and the bits of the six
sectors set in the sector bitmap. -/
def six_sector_disk : Disk :=
  let d := FS_created.disk
  let inodes := write_int (d 5) 128 3072
  let inodes := write_int (write_int (write_int inodes 136 256) 140 257) 144 258
  let inodes := write_int (write_int (write_int inodes 148 259) 152 260) 156 261
  let d := (Disk_Write d 5 inodes).2
  (Disk_Write d 2 (fun j => if j = 31 then 255 else if j = 32 then 252 else d 2 j)).2

/-- The state with the disk image `six_sector_disk` after `File_Open("/a")`:
descriptor 0 is the only one open on the file. -/
def FS_six_sectors : FS :=
  let st : FS := { FS_created with disk := six_sector_disk }
  state_after (File_Open stdEnv st (ascii "/a")) st

/-- After `File_Close(0)` on `FS_six_sectors`. -/
def FS_six_closed : FS := (File_Close FS_six_sectors 0).2

/-- After `File_Unlink("/a")` on `FS_six_closed`. -/
def FS_six_unlinked : FS :=
  state_after (File_Unlink stdEnv FS_six_closed (ascii "/a")) FS_six_closed

/-- After `File_Close(0)` and `File_Unlink("/a")` on `FS_opened`, where the
file `/a` is empty. -/
def FS_opened_unlinked : FS :=
  state_after (File_Unlink stdEnv (File_Close FS_opened 0).2 (ascii "/a")) (File_Close FS_opened 0).2

/-- The path made of 241 slashes and sixteen letters `a`. -/
def long_path : List Nat := List.replicate 241 47 ++ List.replicate 16 97

/-- Whether a character may occur in a name: an ASCII letter, a digit, a
dot, a dash or an underscore. -/
def name_char (c : Nat) : Prop :=
  (Char.toNat 'A' ≤ c ∧ c ≤ Char.toNat 'Z') ∨ (Char.toNat 'a' ≤ c ∧ c ≤ Char.toNat 'z')
    ∨ (Char.toNat '0' ≤ c ∧ c ≤ Char.toNat '9')
    ∨ c = Char.toNat '.' ∨ c = Char.toNat '-' ∨ c = Char.toNat '_'

instance (c : Nat) : Decidable (name_char c) := by
  unfold name_char
  infer_instance

/-- The components of the path in the string `s`: the strings between its
slashes, the empty ones left out. -/
def path_components (s : List Nat) : List (List Nat) :=
  (strsep_tokens s).filter (fun t => t ≠ [])

/-- The cached sector is the one of the inode `child` whenever `child` is an
inode number: the offset that `find_child_inode` asserts is in range. -/
def cache_holds (env : Env) (child cached_sector : Int) : Prop :=
  0 ≤ child → 0 ≤ inode_offset env child cached_sector
    ∧ inode_offset env child cached_sector < INODES_PER_SECTOR

/-! ## Vocabulary of the bitmap statements -/

/-- The byte `b` with bit `i` (0 is the least significant) set to `v`. -/
def set_byte_bit (b : Byte) (i : Nat) (v : Bool) : Byte :=
  if v then byte (b.val ||| 2 ^ i) else byte (b.val &&& (255 - 2 ^ i))

/-- The disk `d` with bit `k` of the bitmap that starts at sector `start` set
to `v` and nothing else changed. -/
def bitmap_with (d : Disk) (start k : Int) (v : Bool) : Disk := fun s t =>
  if s = start + k / (SECTOR_SIZE * 8) ∧ t = k / 8 % SECTOR_SIZE then
    set_byte_bit (d s t) (7 - k % 8).toNat v
  else d s t

/-! ## Concrete states of the bitmap statements -/

/-- After `File_Write(0, buffer, 1)` on `FS_opened`, where descriptor 0 is
open on the empty file `/a` (inode 1). -/
def FS_written : FS := (File_Write stdEnv FS_opened 0 (fun _ => 65) 1).2

/-- The freshly formatted file system with every bit of the three sectors of
the sector bitmap set: no sector is free. -/
def FS_no_sector : FS :=
  { FS_fresh with
    disk := (Disk_Write (Disk_Write (Disk_Write FS_fresh.disk 2 (fun _ => 255)).2 3
      (fun _ => 255)).2 4 (fun _ => 255)).2 }

/-- The freshly formatted file system with the bits 0 to 999 of the inode
bitmap set: all `MAX_FILES` = 1000 inode slots are live. -/
def FS_inodes_full : FS :=
  { FS_fresh with disk := (Disk_Write FS_fresh.disk 1 (fun j => if j < 125 then 255 else 0)).2 }

/-- After `File_Create("/a")` on `FS_inodes_full`. -/
def FS_inodes_full_a : FS :=
  state_after (File_Create stdEnv FS_inodes_full (ascii "/a")) FS_inodes_full

/-- The freshly formatted file system with bit 4096 of the sector bitmap (the
first bit of its second sector, sector 3) set. -/
def disk_bit_4096 : Disk := (Disk_Write FS_fresh.disk 3 (fun j => if j = 0 then 128 else 0)).2

/-- The freshly formatted file system with the bits 0 to 4087 of the sector
bitmap set and the bits 4088 to 4095, those of the last byte of its first
sector, clear. -/
def disk_last_byte : Disk := (Disk_Write FS_fresh.disk 2 (fun j => if j = 511 then 0 else 255)).2

/-- The disk of `FS_created`, where the root directory has the one entry `a`
in slot 0 of sector 255, with the name `b` and the inode number 2 written into
slot 1 of that sector; the size of the root stays 1. -/
def stale_slot_disk : Disk :=
  (Disk_Write FS_created.disk 255
    (write_int (strncpy (FS_created.disk 255) 20 (ascii "b") MAX_NAME) (20 + MAX_NAME) 2)).2

/-- The freshly formatted file system with every bit of the sector of the
inode bitmap set: `bitmap_first_unused` finds no inode slot. -/
def FS_no_inode : FS :=
  { FS_fresh with disk := (Disk_Write FS_fresh.disk 1 (fun _ => 255)).2 }

/-! ## Vocabulary of the path statements -/

/-- The cache of `follow_path` is exact for the inode `child`: whenever
`child` is an inode number, the cached sector number is
`INODE_TABLE_START_SECTOR + child / INODES_PER_SECTOR`, a sector of the disk,
and the cached buffer holds the contents of that sector. -/
def cache_exact (env : Env) (d : Disk) (child cached_sector : Int) (cached_buffer : Mem) : Prop :=
  0 ≤ child →
    cached_sector = INODE_TABLE_START_SECTOR env + child / INODES_PER_SECTOR
      ∧ 0 ≤ cached_sector ∧ cached_sector < TOTAL_SECTORS
      ∧ ∀ j, 0 ≤ j → j < SECTOR_SIZE → cached_buffer j = d cached_sector j

/-- The calls `find_child_inode(parent_inode, token, &cached_sector,
cached_buffer)` that the loop of `follow_path` makes when it is entered with
the tokens still to come, `child_inode`, the cached sector number and the
cached buffer: a call is given by its parent inode, cached sector number and
cached buffer.  An empty token is skipped; a token that is an illegal name, or
a negative `child_inode`, ends the loop; otherwise the loop makes the call
for the token and goes on with what the call returns. -/
inductive follow_path_call (env : Env) (d : Disk) :
    List (List Nat) → Int → Int → Mem → Int × Int × Mem → Prop where
  | skip (token : List Nat) (rest : List (List Nat)) (child cs : Int) (cb : Mem)
      (x : Int × Int × Mem) :
      token = [] → follow_path_call env d rest child cs cb x →
      follow_path_call env d (token :: rest) child cs cb x
  | here (token : List Nat) (rest : List (List Nat)) (child cs : Int) (cb : Mem) :
      token ≠ [] → illegal_filename token = 0 → 0 ≤ child →
      follow_path_call env d (token :: rest) child cs cb (child, cs, cb)
  | next (token : List Nat) (rest : List (List Nat)) (child cs : Int) (cb : Mem)
      (r x : Int × Int × Mem) :
      token ≠ [] → illegal_filename token = 0 → 0 ≤ child →
      find_child_inode env d child token cs cb = some r →
      follow_path_call env d rest r.1 r.2.1 r.2.2 x →
      follow_path_call env d (token :: rest) child cs cb x

/-- The calls of `find_child_inode` that `follow_path(path, ..)` makes: the
path is absolute, the sector of the root inode has been read, and the loop is
entered with `child_inode = 0` and that sector in the cache. -/
def follow_path_calls (env : Env) (d : Disk) (path : List Nat) (x : Int × Int × Mem) : Prop :=
  (c_str path).head? = some 47
    ∧ ¬ (Disk_Read d (INODE_TABLE_START_SECTOR env) env.stack).1 < 0
    ∧ follow_path_call env d
        (strsep_tokens (((c_str path).tail).take (MAX_PATH - 1).toNat)) 0
        (INODE_TABLE_START_SECTOR env)
        (Disk_Read d (INODE_TABLE_START_SECTOR env) env.stack).2 x

/-! ## The reference walk -/

/-- Reference definition after the spec (section 3: a directory entry is a
20-byte record, a 16-byte null-padded name and a 4-byte inode number, "Packed
densely into a directory inode's data sectors, D entries per sector"): the
sector that holds entry `e` of the directory with inode `p`, data sector
number `e div DIRENTS_PER_SECTOR` of its record. -/
def entry_sector (env : Env) (d : Disk) (p e : Int) : Mem :=
  d (inode_record_data env d p (e / DIRENTS_PER_SECTOR))

/-- Reference definition after the spec (section 3): the offset of entry `e`
in its sector. -/
def entry_offset (e : Int) : Int := e % DIRENTS_PER_SECTOR * sizeof_dirent_t

/-- Reference definition after the spec (section 4.4, "looks up the name
among the current directory's entries (linear scan)"): the inode number of
the first entry named `name` among the entries `e, e+1, ..` (`n` of them) of
the directory with inode `p`, `none` when there is none. -/
def lookup_from (env : Env) (d : Disk) (p : Int) (name : List Nat) : Nat → Int → Option Int
  | 0, _ => none
  | n + 1, e =>
    if strcmp_eq (entry_sector env d p e) (entry_offset e) name then
      some (dirent_inode (entry_sector env d p e) (entry_offset e))
    else lookup_from env d p name n (e + 1)

/-- Reference definition after the spec (section 4.4): the inode recorded
for `name` in the directory with inode `p`, among its `size` entries. -/
def lookup_ref (env : Env) (d : Disk) (p : Int) (name : List Nat) : Option Int :=
  lookup_from env d p name (inode_record_size env d p).toNat 0

/-- Reference definition after the spec (section 4.4): the walk over the
components `c :: rest` of a path from the node `cur`, with `isdir` telling whether a node
is a directory and `look` the lookup of a name among the entries of a
directory.  The current node has to be a directory; a component that is not
the last has to be found in it, and the walk goes on from the inode found;
for the last component the result is the current directory as the parent with
the inode found for the component as the child, -1 when it is absent.  `none`
is the failure of the resolution. -/
def walk (isdir : Int → Bool) (look : Int → List Nat → Option Int) :
    List (List Nat) → Int → Option (Int × Int)
  | [], _ => none
  | c :: rest, cur =>
    if isdir cur then
      if rest = [] then some (cur, (look cur c).getD (-1))
      else
        match look cur c with
        | some x => walk isdir look rest x
        | none => none
    else none

/-- Reference definition after the spec (section 3): whether the record of
inode `n` is that of a directory, the field `type` being 1. -/
def is_dir (env : Env) (d : Disk) (n : Int) : Bool := decide (inode_record_type env d n = 1)

/-- Reference definition after the spec (section 4.4): the walk over the
components of a path on the disk `d` from the inode `cur`, the lookup being
the linear scan of the entries of the directory. -/
def walk_ref (env : Env) (d : Disk) (comps : List (List Nat)) (cur : Int) : Option (Int × Int) :=
  walk (is_dir env d) (lookup_ref env d) comps cur

/-- Reference definition after the spec (section 4.4): `resolve(path)`, for
a path whose components are legal names.  A path that is not absolute is
rejected; the components are those of the first
`MAX_PATH - 1` characters after the leading slash, the empty ones skipped; the
path without a component is the root, parent and child; otherwise the walk
starts at the root inode 0. -/
def resolve_ref (env : Env) (d : Disk) (path : List Nat) : Option (Int × Int) :=
  if (c_str path).head? = some 47 then
    if path_components (((c_str path).tail).take (MAX_PATH - 1).toNat) = [] then some (0, 0)
    else walk_ref env d (path_components (((c_str path).tail).take (MAX_PATH - 1).toNat)) 0
  else none

instance (env : Env) (n : Int) : Decidable (valid_inode env n) := by
  unfold valid_inode
  infer_instance

/-- The directory with inode `p` is well formed: its size is between 0 and
the `MAX_SECTORS_PER_FILE * DIRENTS_PER_SECTOR` entries that its data list can
hold, the data sectors that hold its entries are sectors of the disk, the
slot after its last entry, when the last sector is not full, has an empty
name, and the inode numbers in its entries are those of inodes with a record
on the disk.  `add_inode` keeps a directory so: it zeroes a new data sector
before it appends the first entry to it, it appends an entry at slot `size`,
and no operation lowers `size`. -/
def dir_wf (env : Env) (d : Disk) (p : Int) : Prop :=
  0 ≤ inode_record_size env d p
    ∧ inode_record_size env d p ≤ MAX_SECTORS_PER_FILE * DIRENTS_PER_SECTOR
    ∧ (∀ idx : Nat, idx < MAX_SECTORS_PER_FILE.toNat →
        (idx : Int) * DIRENTS_PER_SECTOR < inode_record_size env d p →
        0 ≤ inode_record_data env d p idx ∧ inode_record_data env d p idx < TOTAL_SECTORS)
    ∧ (inode_record_size env d p % DIRENTS_PER_SECTOR ≠ 0 →
        (entry_sector env d p (inode_record_size env d p)
          (entry_offset (inode_record_size env d p))).val = 0)
    ∧ (∀ e : Nat, e < (inode_record_size env d p).toNat →
        valid_inode env (dirent_inode (entry_sector env d p e) (entry_offset e)))

instance (env : Env) (d : Disk) (p : Int) : Decidable (dir_wf env d p) := by
  unfold dir_wf
  infer_instance

/-- The directories that the reference walk over the components `c :: rest`
visits from the inode `cur` are well formed. -/
def walk_wf (env : Env) (d : Disk) : List (List Nat) → Int → Prop
  | [], _ => True
  | c :: rest, cur =>
    inode_record_type env d cur = 1 →
      dir_wf env d cur ∧ ∀ x, lookup_ref env d cur c = some x → walk_wf env d rest x

/-! ## A path longer than `MAX_PATH` -/

/-- After `File_Create("/abcdefgh")` on the freshly formatted file system:
the root holds the file `abcdefgh`, inode 1. -/
def FS_abcdefgh : FS := state_after (File_Create stdEnv FS_fresh (ascii "/abcdefgh")) FS_fresh

/-- The path made of 250 slashes and the name `abcdefgh`: 258 characters. -/
def slashes_abcdefgh : List Nat := List.replicate 250 47 ++ ascii "abcdefgh"

/-! ## The arrays of `File_Write` -/

/-- Whether the `n` bytes from offset `off` of an array of `SECTOR_SIZE`
bytes, such as `dataBuff` and `diskBuff` of `File_Write`, are inside the
array. -/
def in_sector_buffer (off n : Int) : Prop := 0 ≤ off ∧ 0 ≤ n ∧ off + n ≤ SECTOR_SIZE

instance (off n : Int) : Decidable (in_sector_buffer off n) := by
  unfold in_sector_buffer
  infer_instance

/-- The loop of `File_Write` as `File_Write_loop` has it, with the bounds of
the arrays `char dataBuff[SECTOR_SIZE]` and `char diskBuff[SECTOR_SIZE]`:
`none` when a `memcpy` reads or writes bytes outside them. -/
def File_Write_loop_checked (env : Env) (inode : Mem × Int) (fsize : Int) :
    Nat → Int → Disk → Int → Int → Option (Disk × Int × Int)
  | 0, _, d, pos, bytesLeft => some (d, pos, bytesLeft)
  | n + 1, i, d, pos, bytesLeft =>
    let dataBuff : Mem := env.stack
    let diskBuff : Mem := env.stack
    let sector := inode_data inode.1 inode.2 i
    let a :=
      if sector = 0 then
        bitmap_first_unused env d (SECTOR_BITMAP_START_SECTOR env) SECTOR_BITMAP_SECTORS
          SECTOR_BITMAP_SIZE
      else (sector, d)
    let sector := a.1
    let d := a.2
    if pos = 0 then
      if bytesLeft ≥ SECTOR_SIZE then
        if in_sector_buffer (i * SECTOR_SIZE) SECTOR_SIZE then
          let diskBuff := memcpy diskBuff 0 dataBuff (i * SECTOR_SIZE) SECTOR_SIZE
          File_Write_loop_checked env inode fsize n (i + 1) (Disk_Write d sector diskBuff).2 pos
            (bytesLeft - SECTOR_SIZE)
        else none
      else
        if in_sector_buffer (i * SECTOR_SIZE) (to_size_t bytesLeft)
            ∧ in_sector_buffer 0 (to_size_t bytesLeft) then
          let diskBuff := memcpy diskBuff 0 dataBuff (i * SECTOR_SIZE) (to_size_t bytesLeft)
          File_Write_loop_checked env inode fsize n (i + 1) (Disk_Write d sector diskBuff).2 pos 0
        else none
    else
      let diskBuff := (Disk_Read d sector diskBuff).2
      if in_sector_buffer fsize (to_size_t (SECTOR_SIZE - fsize))
          ∧ in_sector_buffer 0 (to_size_t (SECTOR_SIZE - fsize)) then
        let diskBuff := memcpy diskBuff 0 diskBuff fsize (to_size_t (SECTOR_SIZE - fsize))
        File_Write_loop_checked env inode fsize n (i + 1) (Disk_Write d sector diskBuff).2 0
          (bytesLeft - (SECTOR_SIZE - fsize))
      else none

/-- `File_Write(fd, buffer, size)` as `File_Write` has it, with the bounds of
the arrays of its loop: `none` when a `memcpy` of the loop reads or writes
bytes outside `dataBuff` or `diskBuff`. -/
def File_Write_checked (env : Env) (st : FS) (fd : Int) (_buffer : Mem) (size : Int) :
    Option (Int × FS) :=
  let startingPos := (st.open_files fd).pos
  let start := File_Write_start st fd
  let end_ := File_Write_end st fd size
  if fd < 0 ∧ fd > MAX_OPEN_FILES then some (-1, { st with osErrno := FS_Error.E_NO_SPACE })
  else if (st.open_files fd).inode < 1 then some (-1, { st with osErrno := FS_Error.E_BAD_FD })
  else if end_ ≥ env.MAX_FILE_SIZE then
    some (-1, { st with osErrno := FS_Error.E_FILE_TOO_BIG })
  else
    let inode := getNode env st.disk (st.open_files fd).inode
    match File_Write_loop_checked env inode (st.open_files fd).size (end_ - start).toNat start
        st.disk (st.open_files fd).pos size with
    | none => none
    | some r =>
      let f : open_file_t := { st.open_files fd with pos := startingPos + size }
      some (size, { st with disk := r.1, open_files := set_open_file st.open_files fd f })

/-! ## Constants -/

theorem SECTOR_SIZE_eq : SECTOR_SIZE = 512 := rfl

theorem TOTAL_SECTORS_eq : TOTAL_SECTORS = 10000 := rfl

theorem INODES_PER_SECTOR_eq : INODES_PER_SECTOR = 4 := by decide

theorem sizeof_inode_t_eq : sizeof_inode_t = 128 := by decide

/-! ## The inode table -/

theorem inode_sector_eq (env : Env) (n : Int) (h : valid_inode env n) :
    inode_sector env n = INODE_TABLE_START_SECTOR env + n / INODES_PER_SECTOR := by
  obtain ⟨h0, h1, h2⟩ := h
  rw [INODES_PER_SECTOR_eq, TOTAL_SECTORS_eq] at h2
  rw [INODES_PER_SECTOR_eq]
  unfold inode_sector to_int to_size_t
  rw [INODES_PER_SECTOR_eq]
  omega

theorem inode_offset_eq (env : Env) (n : Int) (h : valid_inode env n) :
    inode_offset env n (inode_sector env n) = n % INODES_PER_SECTOR := by
  rw [inode_sector_eq env n h]
  obtain ⟨h0, h1, h2⟩ := h
  rw [INODES_PER_SECTOR_eq, TOTAL_SECTORS_eq] at h2
  rw [INODES_PER_SECTOR_eq]
  unfold inode_offset inode_start_entry to_int to_size_t
  rw [INODES_PER_SECTOR_eq]
  omega

theorem read_int_congr (m1 m2 : Mem) (off : Int)
    (h : ∀ j, off ≤ j → j ≤ off + 3 → m1 j = m2 j) : read_int m1 off = read_int m2 off := by
  unfold read_int
  rw [h off (by omega) (by omega), h (off + 1) (by omega) (by omega),
    h (off + 2) (by omega) (by omega), h (off + 3) (by omega) (by omega)]

/-- Reading a sector of the disk gives the bytes of the sector. -/
theorem Disk_Read_valid (d : Disk) (sector : Int) (buf : Mem) (j : Int)
    (h0 : 0 ≤ sector) (h1 : sector < 10000) (hj0 : 0 ≤ j) (hj1 : j < 512) :
    (Disk_Read d sector buf).2 j = d sector j := by
  unfold Disk_Read
  rw [TOTAL_SECTORS_eq, SECTOR_SIZE_eq, if_neg (by omega)]
  simp only
  rw [if_pos ⟨hj0, hj1⟩]

/-- What `Disk_Read` of the sector of a valid inode gives. -/
theorem Disk_Read_inode_sector (env : Env) (d : Disk) (n : Int) (h : valid_inode env n)
    (buf : Mem) :
    Disk_Read d (inode_sector env n) buf
      = (0, fun j => if 0 ≤ j ∧ j < SECTOR_SIZE then inode_record_sector env d n j else buf j) := by
  rw [inode_sector_eq env n h]
  obtain ⟨h0, h1, h2⟩ := h
  have h3 : 0 ≤ n / INODES_PER_SECTOR := by rw [INODES_PER_SECTOR_eq]; omega
  unfold Disk_Read inode_record_sector
  rw [if_neg (by omega)]

theorem inode_type_read (env : Env) (d : Disk) (n : Int) (h : valid_inode env n) (buf : Mem) :
    inode_type (Disk_Read d (inode_sector env n) buf).2 (n % INODES_PER_SECTOR * sizeof_inode_t)
      = inode_record_type env d n := by
  rw [Disk_Read_inode_sector env d n h]
  unfold inode_type inode_record_type inode_type
  apply read_int_congr
  intro j hj1 hj2
  rw [INODES_PER_SECTOR_eq, sizeof_inode_t_eq] at hj1 hj2
  simp only
  rw [if_pos (by rw [SECTOR_SIZE_eq]; omega)]

theorem inode_size_read (env : Env) (d : Disk) (n : Int) (h : valid_inode env n) (buf : Mem) :
    inode_size (Disk_Read d (inode_sector env n) buf).2 (n % INODES_PER_SECTOR * sizeof_inode_t)
      = inode_record_size env d n := by
  rw [Disk_Read_inode_sector env d n h]
  unfold inode_size inode_record_size inode_size
  apply read_int_congr
  intro j hj1 hj2
  rw [INODES_PER_SECTOR_eq, sizeof_inode_t_eq] at hj1 hj2
  simp only
  rw [if_pos (by rw [SECTOR_SIZE_eq]; omega)]

theorem inode_data_read (env : Env) (d : Disk) (n : Int) (h : valid_inode env n) (buf : Mem)
    (i : Int) (hi0 : 0 ≤ i) (hi1 : i < MAX_SECTORS_PER_FILE) :
    inode_data (Disk_Read d (inode_sector env n) buf).2 (n % INODES_PER_SECTOR * sizeof_inode_t) i
      = inode_record_data env d n i := by
  rw [Disk_Read_inode_sector env d n h]
  have hM : MAX_SECTORS_PER_FILE = 30 := rfl
  rw [hM] at hi1
  unfold inode_data inode_record_data inode_data
  apply read_int_congr
  intro j hj1 hj2
  rw [INODES_PER_SECTOR_eq, sizeof_inode_t_eq] at hj1 hj2
  simp only
  rw [if_pos (by rw [SECTOR_SIZE_eq]; omega)]

/-! ## The table of open files -/

theorem is_file_open_loop_hit (t : Int → open_file_t) (inode : Int) :
    ∀ (n : Nat) (i k : Int), i ≤ k → k < i + n → (t k).inode = inode →
      is_file_open_loop t inode n i = 1
  | 0, i, k, h1, h2, _ => by simp at h2; omega
  | n + 1, i, k, h1, h2, h3 => by
    unfold is_file_open_loop
    split
    · rfl
    · next hne =>
      have hik : i ≠ k := by
        rintro rfl
        exact hne h3
      exact is_file_open_loop_hit t inode n (i + 1) k (by omega) (by push_cast at h2; omega) h3

/-- The inode held by a slot of the table is open, whatever it is: the loop
of `is_file_open` meets the slot itself. -/
theorem is_file_open_of_slot (st : FS) (fd : Int) (h0 : 0 ≤ fd) (h1 : fd < MAX_OPEN_FILES) :
    is_file_open st (st.open_files fd).inode = 1 := by
  unfold is_file_open
  exact is_file_open_loop_hit st.open_files _ _ 0 fd h0 (by simpa [MAX_OPEN_FILES] using h1) rfl

theorem new_file_fd_loop_full (t : Int → open_file_t) :
    ∀ (n : Nat) (i : Int), (∀ k, i ≤ k → k < i + n → 0 < (t k).inode) →
      new_file_fd_loop t n i = -1
  | 0, _, _ => rfl
  | n + 1, i, h => by
    unfold new_file_fd_loop
    have hi := h i (le_refl i) (by push_cast; omega)
    rw [if_neg (by omega)]
    exact new_file_fd_loop_full t n (i + 1) (fun k hk1 hk2 => h k (by omega) (by push_cast; omega))

theorem new_file_fd_loop_first (t : Int → open_file_t) (fd : Int) (hfree : (t fd).inode ≤ 0) :
    ∀ (n : Nat) (i : Int), i ≤ fd → fd < i + n → (∀ k, i ≤ k → k < fd → 0 < (t k).inode) →
      new_file_fd_loop t n i = fd
  | 0, i, h1, h2, _ => by simp at h2; omega
  | n + 1, i, h1, h2, h => by
    unfold new_file_fd_loop
    by_cases hi : i = fd
    · subst hi
      rw [if_pos hfree]
    · have := h i (le_refl i) (by omega)
      rw [if_neg (by omega)]
      exact new_file_fd_loop_first t fd hfree n (i + 1) (by omega) (by push_cast at h2; omega)
        (fun k hk1 hk2 => h k (by omega) hk2)

theorem new_file_fd_full (st : FS) (h : all_fds_in_use st) : new_file_fd st = -1 :=
  new_file_fd_loop_full st.open_files _ 0
    (fun k hk1 hk2 => h k hk1 (by simpa [MAX_OPEN_FILES] using hk2))

theorem new_file_fd_lowest (st : FS) (fd : Int) (h : lowest_free_fd st fd) :
    new_file_fd st = fd :=
  new_file_fd_loop_first st.open_files fd h.2.2.1 _ 0 h.1 (by simpa [MAX_OPEN_FILES] using h.2.1)
    (fun k hk1 hk2 => h.2.2.2 k hk1 hk2)

/-! ## File_Write -/

/-- The result of `File_Write` does not depend on the bytes of the caller's
buffer. -/
theorem File_Write_ignores_buffer (env : Env) (st : FS) (fd : Int) (b1 b2 : Mem) (len : Int) :
    File_Write env st fd b1 len = File_Write env st fd b2 len := rfl

/-- No call of `File_Write` changes the cached size of a descriptor. -/
theorem File_Write_size_unchanged (env : Env) (st : FS) (fd i : Int) (b : Mem) (len : Int) :
    ((File_Write env st fd b len).2.open_files i).size = (st.open_files i).size := by
  unfold File_Write
  simp only
  split_ifs
  · rfl
  · rfl
  · rfl
  · simp only [set_open_file]
    split_ifs with h
    · rw [h]
    · rfl

/-- C1: the write/read symmetry does not hold.  On a freshly created and
opened file, `File_Write` of `N` bytes followed by `File_Seek(fd, 0)` and
`File_Read(fd, out, N)` makes `File_Read` return 0 and not `N`, for the
sub-sector size 1, the exact-sector size 512 and the multi-sector size 1024. -/
theorem write_read_symmetry_fails :
    (write_read_run (fun _ => 65) 1).map Prod.fst = some 0
      ∧ (write_read_run (fun _ => 65) 512).map Prod.fst = some 0
      ∧ (write_read_run (fun _ => 65) 1024).map Prod.fst = some 0 := by
  decide!

/-- C2: a successful `File_Write` does not update the file size.  On the
empty file open in descriptor 0 (size 0, cursor 0) `File_Write(0, buf, 1)`
returns 1, allocates sector 256 (bit 256 of the sector bitmap, the top bit of
byte 32 of sector 2, goes from 0 to 1) and fills it, and afterwards the
cached size and the size in the inode record are still 0 and the data list of
the inode record is all zero. -/
theorem File_Write_size_not_updated :
    (File_Write stdEnv FS_opened 0 (fun _ => 65) 1).1 = 1
      ∧ (FS_opened.open_files 0).size = 0 ∧ (FS_opened.open_files 0).pos = 0
      ∧ ((File_Write stdEnv FS_opened 0 (fun _ => 65) 1).2.open_files 0).size = 0
      ∧ inode_record_size stdEnv (File_Write stdEnv FS_opened 0 (fun _ => 65) 1).2.disk 1 = 0
      ∧ FS_opened.disk 2 32 = 0
      ∧ (File_Write stdEnv FS_opened 0 (fun _ => 65) 1).2.disk 2 32 = 128
      ∧ (List.range 30).all (fun i =>
          inode_record_data stdEnv (File_Write stdEnv FS_opened 0 (fun _ => 65) 1).2.disk 1 i
            == 0) = true := by
  decide!

/-- When the slot holds an inode that is at least 1 and `end` is below
`MAX_FILE_SIZE`, `File_Write`, run without the bounds of the arrays of its
loop, returns `size` and sets the cursor to the previous cursor plus `size`. -/
theorem File_Write_accepted (env : Env) (st : FS) (fd : Int) (buffer : Mem) (len : Int)
    (hinode : 1 ≤ (st.open_files fd).inode)
    (hbig : File_Write_end st fd len < env.MAX_FILE_SIZE) :
    (File_Write env st fd buffer len).1 = len
      ∧ ((File_Write env st fd buffer len).2.open_files fd).pos
          = (st.open_files fd).pos + len := by
  have h1 : ¬ (st.open_files fd).inode < 1 := by omega
  have h2 : ¬ File_Write_end st fd len ≥ env.MAX_FILE_SIZE := by omega
  have h3 : ¬ (fd < 0 ∧ fd > MAX_OPEN_FILES) := by
    have : MAX_OPEN_FILES = 256 := rfl
    omega
  simp [File_Write, h1, h2, h3, set_open_file]

/-- C4: allocation exhaustion is not reported.  In the state `FS_full` every
bit of the sector bitmap is set, `bitmap_first_unused` returns -1 and the
file of descriptor 0 owns no sector; yet `File_Write(0, buf, 1)` returns 1,
leaves `osErrno` as it was (`E_GENERAL`, not `E_NO_SPACE`) and moves the
cursor to 1. -/
theorem File_Write_no_space_not_reported :
    (bitmap_first_unused stdEnv FS_full.disk (SECTOR_BITMAP_START_SECTOR stdEnv)
        SECTOR_BITMAP_SECTORS SECTOR_BITMAP_SIZE).1 = -1
      ∧ inode_record_data stdEnv FS_full.disk 1 0 = 0
      ∧ FS_full.osErrno = FS_Error.E_GENERAL
      ∧ (File_Write stdEnv FS_full 0 (fun _ => 65) 1).1 = 1
      ∧ (File_Write stdEnv FS_full 0 (fun _ => 65) 1).2.osErrno = FS_Error.E_GENERAL
      ∧ ((File_Write stdEnv FS_full 0 (fun _ => 65) 1).2.open_files 0).pos = 1 := by
  decide!

/-- The test of `File_Write` for a file that is too big compares the sector
number `end` with `MAX_FILE_SIZE`: a write of 31 sectors at cursor 0 has
`end = 31` and passes the test for every value of `MAX_FILE_SIZE` above 31. -/
theorem File_Write_31_sectors_accepted (env : Env) (st : FS) (fd : Int) (b : Mem)
    (hinode : 1 ≤ (st.open_files fd).inode) (hpos : (st.open_files fd).pos = 0)
    (hmax : 31 < env.MAX_FILE_SIZE) :
    (File_Write env st fd b 15872).1 = 15872 := by
  have hend : File_Write_end st fd 15872 = 31 := by
    unfold File_Write_end File_Write_start
    rw [hpos]
    decide
  exact (File_Write_accepted env st fd b 15872 hinode (by rw [hend]; exact hmax)).1

/-- With a value of `MAX_FILE_SIZE` of at most 31 the test rejects a write
that stays inside the file: at cursor `15 * 512` a write of 512 bytes, which
fills sector 15 only, has `end = 15 + 16 = 31`. -/
theorem File_Write_one_sector_rejected (env : Env) (st : FS) (fd : Int) (b : Mem)
    (hinode : 1 ≤ (st.open_files fd).inode) (hpos : (st.open_files fd).pos = 7680)
    (hmax : env.MAX_FILE_SIZE ≤ 31) :
    (File_Write env st fd b 512).1 = -1
      ∧ (File_Write env st fd b 512).2.osErrno = FS_Error.E_FILE_TOO_BIG := by
  have hend : File_Write_end st fd 512 = 31 := by
    unfold File_Write_end File_Write_start
    rw [hpos]
    decide
  have h1 : ¬ (st.open_files fd).inode < 1 := by omega
  have h2 : File_Write_end st fd 512 ≥ env.MAX_FILE_SIZE := by rw [hend]; exact hmax
  have h3 : ¬ (fd < 0 ∧ fd > MAX_OPEN_FILES) := by
    have : MAX_OPEN_FILES = 256 := rfl
    omega
  simp [File_Write, h1, h2, h3]

/-- C5: a write that needs more than `MAX_SECTORS_PER_FILE` sectors is not
rejected.  With `MAX_FILE_SIZE = 30 * 512` bytes, descriptor 0 at cursor 0
and `len = 31 * 512 = 15872`, the local `end` of `File_Write` is 31, the
call returns 15872 and leaves `osErrno` as it was (`E_GENERAL`, not
`E_FILE_TOO_BIG`); its loop has run for the indices 0 to 30 of the data list
and has changed the disk (31 sectors allocated: byte 35 of the sector bitmap
goes from 0 to 254) and the cursor. -/
theorem File_Write_too_big_not_rejected :
    stdEnv.MAX_FILE_SIZE = 15360
      ∧ (FS_opened.open_files 0).pos = 0
      ∧ File_Write_start FS_opened 0 = 0
      ∧ File_Write_end FS_opened 0 15872 = 31
      ∧ (File_Write stdEnv FS_opened 0 (fun _ => 65) 15872).1 = 15872
      ∧ (File_Write stdEnv FS_opened 0 (fun _ => 65) 15872).2.osErrno = FS_Error.E_GENERAL
      ∧ FS_opened.disk 2 35 = 0
      ∧ (File_Write stdEnv FS_opened 0 (fun _ => 65) 15872).2.disk 2 35 = 254
      ∧ ((File_Write stdEnv FS_opened 0 (fun _ => 65) 15872).2.open_files 0).pos = 15872 := by
  decide!

/-! ## File_Read -/

theorem File_Read_bytes_spec (pos fsize size : Int) (fb : Mem) :
    ∀ (n : Nat) (j c : Int) (data : Mem), c ≤ min size (fsize - pos) →
      (File_Read_bytes pos fsize size fb n j c data).1 = min (c + n) (min size (fsize - pos))
      ∧ ∀ k, (File_Read_bytes pos fsize size fb n j c data).2 k
          = if c ≤ k ∧ k < min (c + n) (min size (fsize - pos)) then fb (j + (k - c)) else data k
  | 0, j, c, data, hc => by
    unfold File_Read_bytes
    refine ⟨by simp only; push_cast; omega, fun k => ?_⟩
    simp only
    rw [if_neg (by push_cast; omega)]
  | n + 1, j, c, data, hc => by
    unfold File_Read_bytes
    by_cases h : c + pos < fsize ∧ c < size
    · rw [if_pos h]
      obtain ⟨ih1, ih2⟩ := File_Read_bytes_spec pos fsize size fb n (j + 1) (c + 1)
        (fun k => if k = c then fb j else data k) (by omega)
      refine ⟨by rw [ih1]; push_cast; omega, fun k => ?_⟩
      rw [ih2 k]
      push_cast
      by_cases hk : k = c
      · subst hk
        rw [if_neg (by omega), if_pos (by omega), if_pos (by omega)]
        congr 1
        omega
      · simp only [hk, if_false]
        by_cases hk2 : c + 1 ≤ k ∧ k < min (c + 1 + ↑n) (min size (fsize - pos))
        · rw [if_pos hk2, if_pos (by omega)]
          congr 1
          omega
        · rw [if_neg hk2, if_neg (by omega)]
    · rw [if_neg h]
      obtain ⟨ih1, ih2⟩ := File_Read_bytes_spec pos fsize size fb n (j + 1) c data hc
      refine ⟨by rw [ih1]; push_cast; omega, fun k => ?_⟩
      rw [ih2 k]
      rw [if_neg (by omega), if_neg (by push_cast; omega)]

theorem File_Read_sectors_zero (d : Disk) (nb : Mem) (file pos size i index2 : Int) (fb : Mem)
    (c : Int) (data : Mem) :
    File_Read_sectors d nb file pos size 0 i index2 fb c data = (c, data) := rfl

theorem File_Read_sectors_succ (d : Disk) (nb : Mem) (file pos size : Int) (n : Nat)
    (i index2 : Int) (fb : Mem) (c : Int) (data : Mem) :
    File_Read_sectors d nb file pos size (n + 1) i index2 fb c data
      = if inode_data nb file i ≠ 0 then
          File_Read_sectors d nb file pos size n (i + 1) 0
            (Disk_Read d (inode_data nb file i) fb).2
            (File_Read_bytes pos (inode_size nb file) size (Disk_Read d (inode_data nb file i) fb).2
              (SECTOR_SIZE - index2).toNat index2 c data).1
            (File_Read_bytes pos (inode_size nb file) size (Disk_Read d (inode_data nb file i) fb).2
              (SECTOR_SIZE - index2).toNat index2 c data).2
        else File_Read_sectors d nb file pos size n (i + 1) index2 fb c data := rfl

/-- The loop of `File_Read` over the data list: started at the sector and
offset of the cursor with `counter` bytes already copied, it ends with
`min size (S - pos)` bytes copied, each the byte of the file at its offset. -/
theorem File_Read_sectors_spec (d : Disk) (nb : Mem) (file pos size : Int)
    (hdata : ∀ i, 0 ≤ i → i * 512 < inode_size nb file →
      i < 30 ∧ inode_data nb file i ≠ 0 ∧ 0 ≤ inode_data nb file i
        ∧ inode_data nb file i < 10000) :
    ∀ (n : Nat) (i index2 : Int) (fb : Mem) (c : Int) (data : Mem),
      0 ≤ i → i + n = 30 → 0 ≤ index2 → index2 < 512 → pos ≤ i * 512 + index2 →
      c = min (min size (inode_size nb file - pos)) (i * 512 + index2 - pos) →
      (File_Read_sectors d nb file pos size n i index2 fb c data).1
          = min size (inode_size nb file - pos)
      ∧ ∀ k, (File_Read_sectors d nb file pos size n i index2 fb c data).2 k
          = if c ≤ k ∧ k < min size (inode_size nb file - pos) then
              d (inode_data nb file ((pos + k) / 512)) ((pos + k) % 512)
            else data k := by
  have hS : inode_size nb file ≤ 15360 := by
    by_contra hcon
    have := (hdata 30 (by omega) (by omega)).1
    omega
  intro n
  induction n with
  | zero =>
    intro i index2 fb c data hi hin h0 h1 hp hc
    rw [File_Read_sectors_zero]
    refine ⟨by simp only; omega, fun k => ?_⟩
    simp only
    rw [if_neg (by omega)]
  | succ n ih =>
    intro i index2 fb c data hi hin h0 h1 hp hc
    rw [File_Read_sectors_succ]
    by_cases hz : inode_data nb file i ≠ 0
    · rw [if_pos hz]
      have hn : (((SECTOR_SIZE - index2).toNat : Nat) : Int) = 512 - index2 := by
        rw [SECTOR_SIZE_eq]
        exact Int.toNat_of_nonneg (by omega)
      have hc0 : c ≤ min size (inode_size nb file - pos) := by omega
      have hfbv : i * 512 < inode_size nb file → ∀ j : Int, 0 ≤ j → j < 512 →
          (Disk_Read d (inode_data nb file i) fb).2 j = d (inode_data nb file i) j := by
        intro hlt j hj0 hj1
        have hv := hdata i hi hlt
        exact Disk_Read_valid d _ fb j hv.2.2.1 hv.2.2.2 hj0 hj1
      generalize (Disk_Read d (inode_data nb file i) fb).2 = fb1 at hfbv ⊢
      have hb := File_Read_bytes_spec pos (inode_size nb file) size
        fb1 (SECTOR_SIZE - index2).toNat index2 c data hc0
      rw [hn] at hb
      clear hn
      generalize File_Read_bytes pos (inode_size nb file) size fb1
        (SECTOR_SIZE - index2).toNat index2 c data = r at hb ⊢
      obtain ⟨b1, b2⟩ := hb
      have hc1 : r.1 = min (min size (inode_size nb file - pos)) ((i + 1) * 512 + 0 - pos) := by
        rw [b1]; omega
      obtain ⟨ih1, ih2⟩ := ih (i + 1) 0 fb1 r.1 r.2
        (by omega) (by push_cast at hin; omega) (by omega) (by omega) (by omega) hc1
      refine ⟨ih1, fun k => ?_⟩
      rw [ih2 k, b2 k, b1]
      by_cases hk1 : c ≤ k ∧ k < min (c + (512 - index2)) (min size (inode_size nb file - pos))
      · rw [if_neg (by omega), if_pos hk1, if_pos (by omega)]
        have hci : c = i * 512 + index2 - pos := by omega
        have hq : (pos + k) / 512 = i := by omega
        have hr : (pos + k) % 512 = index2 + (k - c) := by omega
        rw [hq, hr]
        exact hfbv (by omega) _ (by omega) (by omega)
      · by_cases hk2 : c ≤ k ∧ k < min size (inode_size nb file - pos)
        · rw [if_pos (by omega), if_pos hk2]
        · rw [if_neg (by omega), if_neg hk1, if_neg hk2]
    · rw [if_neg hz]
      have hz1 : inode_data nb file i = 0 := by
        by_contra hne
        exact hz hne
      have hS1 : inode_size nb file ≤ i * 512 := by
        by_contra hcon
        exact (hdata i hi (by omega)).2.1 hz1
      exact ih (i + 1) index2 fb c data
        (by omega) (by push_cast at hin; omega) h0 h1 (by omega) (by omega)

theorem File_Read_arith (P S max_len : Int) (h0 : 0 ≤ P) (h1 : P ≤ S) (h2 : 0 ≤ max_len)
    (h3 : S ≤ 15360) :
    0 ≤ P / 512 ∧ 0 ≤ P % 512 ∧ P % 512 < 512 ∧ P ≤ P / 512 * 512 + P % 512
      ∧ (0 : Int) = min (min max_len (S - P)) (P / 512 * 512 + P % 512 - P)
      ∧ 0 ≤ (30 : Int) - P / 512 := by
  omega

theorem File_Read_arith_byte (P S max_len k : Int) (h0 : 0 ≤ P) (hk0 : 0 ≤ k)
    (hk1 : k < min max_len (S - P)) : 0 ≤ P + k ∧ P + k < S := by
  omega

/-- C6: for an in-use descriptor `fd` with cursor `P` whose inode record has
size `S` with `0 <= P <= S` and whose first `ceil(S/SECTOR_SIZE)` data-list
entries are non-zero sectors of the disk, and for `max_len >= 0`,
`File_Read(fd, out, max_len)` returns `n = min(max_len, S - P)`, writes to
`out[0 .. n)` the file bytes at the offsets `P .. P+n` (byte `o` is the byte
at offset `o mod SECTOR_SIZE` of data sector `o div SECTOR_SIZE`), leaves the
rest of `out` alone and sets the cursor to `P + n`; nothing else changes, and
no error is set (in particular when `P = S`, where `n = 0`). -/
theorem File_Read_spec (env : Env) (st : FS) (fd : Int) (out : Mem) (max_len : Int)
    (hinuse : (st.open_files fd).inode ≠ 0)
    (hvalid : valid_inode env (st.open_files fd).inode)
    (hpos : 0 ≤ (st.open_files fd).pos)
    (hposS : (st.open_files fd).pos ≤ inode_record_size env st.disk (st.open_files fd).inode)
    (hdata : ∀ i, 0 ≤ i →
      i * SECTOR_SIZE < inode_record_size env st.disk (st.open_files fd).inode →
      i < MAX_SECTORS_PER_FILE
        ∧ inode_record_data env st.disk (st.open_files fd).inode i ≠ 0
        ∧ 0 ≤ inode_record_data env st.disk (st.open_files fd).inode i
        ∧ inode_record_data env st.disk (st.open_files fd).inode i < TOTAL_SECTORS)
    (hlen : 0 ≤ max_len) :
    ∃ st1 out1,
      File_Read env st fd out max_len
        = some (min max_len (inode_record_size env st.disk (st.open_files fd).inode
            - (st.open_files fd).pos), st1, out1)
      ∧ (∀ k, 0 ≤ k →
          k < min max_len (inode_record_size env st.disk (st.open_files fd).inode
            - (st.open_files fd).pos) →
          out1 k = file_byte env st.disk (st.open_files fd).inode ((st.open_files fd).pos + k))
      ∧ (∀ k, ¬ (0 ≤ k ∧
          k < min max_len (inode_record_size env st.disk (st.open_files fd).inode
            - (st.open_files fd).pos)) → out1 k = out k)
      ∧ (st1.open_files fd).pos = (st.open_files fd).pos
          + min max_len (inode_record_size env st.disk (st.open_files fd).inode
            - (st.open_files fd).pos)
      ∧ (st1.open_files fd).inode = (st.open_files fd).inode
      ∧ (st1.open_files fd).size = (st.open_files fd).size
      ∧ (∀ i, i ≠ fd → st1.open_files i = st.open_files i)
      ∧ st1.disk = st.disk ∧ st1.osErrno = st.osErrno := by
  generalize hn : (st.open_files fd).inode = n at *
  generalize hP : (st.open_files fd).pos = P at *
  have hM : MAX_SECTORS_PER_FILE = 30 := rfl
  have hi1 : cdiv P SECTOR_SIZE = P / 512 := Int.tdiv_eq_ediv hpos (by decide)
  have hi2 : cmod P SECTOR_SIZE = P % 512 := Int.tmod_eq_emod hpos (by decide)
  have hval : File_Read env st fd out max_len
      = (fun R : Int × Mem =>
          some (R.1, ({ st with open_files := (set_open_file st.open_files fd
            ({ st.open_files fd with pos := P + R.1 } : open_file_t)) } : FS), R.2))
        (File_Read_sectors st.disk
          (fun j => if 0 ≤ j ∧ j < SECTOR_SIZE then inode_record_sector env st.disk n j
            else env.stack j)
          (n % INODES_PER_SECTOR * sizeof_inode_t) P max_len
          ((30 : Int) - P / 512).toNat (P / 512) (P % 512) env.stack 0 out) := by
    have hrd := Disk_Read_inode_sector env st.disk n hvalid env.stack
    have hoff := inode_offset_eq env n hvalid
    have hoff1 : 0 ≤ n % INODES_PER_SECTOR ∧ n % INODES_PER_SECTOR < INODES_PER_SECTOR := by
      rw [INODES_PER_SECTOR_eq]; omega
    unfold File_Read
    simp only [hn, hP, hrd, hoff, hi1, hi2, hM]
    rw [if_neg hinuse, if_neg (by decide), if_pos hoff1]
  rw [hval]
  clear hval hi1 hi2
  have hsz := inode_size_read env st.disk n hvalid env.stack
  have hdt := inode_data_read env st.disk n hvalid env.stack
  rw [Disk_Read_inode_sector env st.disk n hvalid env.stack] at hsz hdt
  simp only at hsz hdt
  rw [hM] at hdt
  generalize (fun j => if 0 ≤ j ∧ j < SECTOR_SIZE then inode_record_sector env st.disk n j
            else env.stack j) = nb at hsz hdt ⊢
  generalize n % INODES_PER_SECTOR * sizeof_inode_t = file at hsz hdt ⊢
  rw [SECTOR_SIZE_eq, hM, TOTAL_SECTORS_eq] at hdata
  have hdata1 : ∀ i, 0 ≤ i → i * 512 < inode_size nb file →
      i < 30 ∧ inode_data nb file i ≠ 0 ∧ 0 ≤ inode_data nb file i
        ∧ inode_data nb file i < 10000 := by
    intro i h0 h1
    rw [hsz] at h1
    have h2 := hdata i h0 h1
    rw [hdt i h0 h2.1]
    exact h2
  have hbyte : ∀ o, 0 ≤ o → o < inode_size nb file →
      st.disk (inode_data nb file (o / 512)) (o % 512) = file_byte env st.disk n o := by
    intro o h0 h1
    have h2 := (hdata1 (o / 512) (by omega) (by omega)).1
    unfold file_byte
    rw [SECTOR_SIZE_eq, hdt (o / 512) (by omega) h2]
  clear hdt hdata
  have hS15 : inode_size nb file ≤ 15360 := by
    by_contra hcon
    have := (hdata1 30 (by omega) (by omega)).1
    omega
  rw [← hsz] at hposS ⊢
  clear hsz
  obtain ⟨a1, a2, a3, a4, a5, a6⟩ := File_Read_arith P (inode_size nb file) max_len hpos hposS
    hlen hS15
  have hcnt : P / 512 + (((30 : Int) - P / 512).toNat : Int) = 30 := by
    rw [Int.toNat_of_nonneg a6]; ring
  generalize ((30 : Int) - P / 512).toNat = m at hcnt ⊢
  obtain ⟨r1, r2⟩ := File_Read_sectors_spec st.disk nb file P max_len hdata1
    m (P / 512) (P % 512) env.stack 0 out a1 hcnt a2 a3 a4 a5
  clear a1 a2 a3 a4 a5 a6 hcnt hdata1
  generalize File_Read_sectors st.disk nb file P max_len m (P / 512) (P % 512) env.stack 0 out
    = R at r1 r2 ⊢
  obtain ⟨c, o⟩ := R
  simp only at r1 r2 ⊢
  refine ⟨⟨st.disk, set_open_file st.open_files fd
    ⟨(st.open_files fd).inode, (st.open_files fd).size, P + c⟩, st.osErrno⟩, o,
    ?_, ?_, ?_, ?_, ?_, ?_, ?_, rfl, rfl⟩
  · rw [r1]
  · intro k hk0 hk1
    rw [r2 k, if_pos ⟨hk0, hk1⟩]
    have hb := File_Read_arith_byte P (inode_size nb file) max_len k hpos hk0 hk1
    exact hbyte (P + k) hb.1 hb.2
  · intro k hk
    rw [r2 k, if_neg hk]
  · simp [set_open_file, r1]
  · simp [set_open_file, hn]
  · simp [set_open_file]
  · intro i hi
    simp [set_open_file, hi]

/-- The hypotheses of `File_Read_spec` hold in the state `FS_stored`: the
inode of descriptor 0 is 1, its record has size 600 and its first two data
sectors are 300 and 301. -/
theorem FS_stored_data (i : Int) (h0 : 0 ≤ i)
    (h1 : i * SECTOR_SIZE < inode_record_size stdEnv FS_stored.disk (FS_stored.open_files 0).inode) :
    i < MAX_SECTORS_PER_FILE
      ∧ inode_record_data stdEnv FS_stored.disk (FS_stored.open_files 0).inode i ≠ 0
      ∧ 0 ≤ inode_record_data stdEnv FS_stored.disk (FS_stored.open_files 0).inode i
      ∧ inode_record_data stdEnv FS_stored.disk (FS_stored.open_files 0).inode i
          < TOTAL_SECTORS := by
  have hS : inode_record_size stdEnv FS_stored.disk (FS_stored.open_files 0).inode = 600 := by
    decide!
  rw [hS, SECTOR_SIZE_eq] at h1
  have hi : i = 0 ∨ i = 1 := by omega
  rcases hi with rfl | rfl
  · decide!
  · decide!

/-- The theorem `File_Read_spec` at a concrete input: in the state
`FS_stored` (a file of 600 bytes, cursor 500) a read of at most 200 bytes
returns 100, and the first byte read is the byte at offset 500 of the file. -/
theorem File_Read_spec_witness :
    (FS_stored.open_files 0).inode = 1 ∧ (FS_stored.open_files 0).pos = 500
      ∧ inode_record_size stdEnv FS_stored.disk 1 = 600
      ∧ ∃ st1 out1,
        File_Read stdEnv FS_stored 0 (fun _ => 0) 200 = some (100, st1, out1)
          ∧ out1 0 = file_byte stdEnv FS_stored.disk 1 500
          ∧ out1 100 = 0
          ∧ (st1.open_files 0).pos = 600 := by
  have hinode : (FS_stored.open_files 0).inode = 1 := by decide!
  have hpos : (FS_stored.open_files 0).pos = 500 := by decide!
  have hS : inode_record_size stdEnv FS_stored.disk 1 = 600 := by decide!
  refine ⟨hinode, hpos, hS, ?_⟩
  obtain ⟨st1, out1, h1, h2, h3, h4, _⟩ :=
    File_Read_spec stdEnv FS_stored 0 (fun _ => 0) 200 (by decide!)
      ⟨by decide!, by decide!, by decide!⟩ (by decide!) (by decide!) FS_stored_data (by decide)
  rw [hinode, hpos, hS] at h1 h2 h3 h4
  have hmin : min (200 : Int) (600 - 500) = 100 := by decide
  rw [hmin] at h1 h2 h3 h4
  refine ⟨st1, out1, h1, ?_, ?_, h4⟩
  · have := h2 0 (by decide) (by decide)
    rw [this]
    rfl
  · exact h3 100 (by decide)

/-! ## File_Seek -/

/-- For a descriptor in the range of the table, whatever its slot holds,
`File_Seek` gets past its first test. -/
theorem File_Seek_cases (st : FS) (fd offset : Int) (h0 : 0 ≤ fd) (h1 : fd < MAX_OPEN_FILES) :
    (0 ≤ offset ∧ offset ≤ (st.open_files fd).size →
      (File_Seek st fd offset).1 = offset
        ∧ ((File_Seek st fd offset).2.open_files fd).pos = offset)
    ∧ (¬ (0 ≤ offset ∧ offset ≤ (st.open_files fd).size) →
      (File_Seek st fd offset).1 = -1
        ∧ (File_Seek st fd offset).2.osErrno = FS_Error.E_SEEK_OUT_OF_BOUNDS
        ∧ ((File_Seek st fd offset).2.open_files fd).pos = (st.open_files fd).pos) := by
  have hopen := is_file_open_of_slot st fd h0 h1
  constructor
  · intro h
    have h2 : ¬ (offset > (st.open_files fd).size ∨ offset < 0) := by omega
    simp [File_Seek, hopen, h2, set_open_file]
  · intro h
    have h2 : offset > (st.open_files fd).size ∨ offset < 0 := by omega
    simp [File_Seek, hopen, h2]

/-- C7: for every descriptor `fd` of the table with cached size `S` and every
offset: if `0 <= offset <= S` then `File_Seek(fd, offset)` returns `offset`
and sets the cursor to `offset`; otherwise it returns -1, sets `osErrno` to
`E_SEEK_OUT_OF_BOUNDS` and leaves the cursor unchanged.  In particular the
offset `S` succeeds (for `S >= 0`) while `S + 1` and `-1` fail. -/
theorem File_Seek_spec (st : FS) (fd offset : Int) (h0 : 0 ≤ fd) (h1 : fd < MAX_OPEN_FILES) :
    (0 ≤ offset ∧ offset ≤ (st.open_files fd).size →
      (File_Seek st fd offset).1 = offset
        ∧ ((File_Seek st fd offset).2.open_files fd).pos = offset)
    ∧ (¬ (0 ≤ offset ∧ offset ≤ (st.open_files fd).size) →
      (File_Seek st fd offset).1 = -1
        ∧ (File_Seek st fd offset).2.osErrno = FS_Error.E_SEEK_OUT_OF_BOUNDS
        ∧ ((File_Seek st fd offset).2.open_files fd).pos = (st.open_files fd).pos)
    ∧ (0 ≤ (st.open_files fd).size →
      (File_Seek st fd (st.open_files fd).size).1 = (st.open_files fd).size
        ∧ ((File_Seek st fd (st.open_files fd).size).2.open_files fd).pos
            = (st.open_files fd).size)
    ∧ ((File_Seek st fd ((st.open_files fd).size + 1)).1 = -1
        ∧ (File_Seek st fd ((st.open_files fd).size + 1)).2.osErrno
            = FS_Error.E_SEEK_OUT_OF_BOUNDS)
    ∧ ((File_Seek st fd (-1)).1 = -1
        ∧ (File_Seek st fd (-1)).2.osErrno = FS_Error.E_SEEK_OUT_OF_BOUNDS) := by
  refine ⟨(File_Seek_cases st fd offset h0 h1).1, (File_Seek_cases st fd offset h0 h1).2, ?_, ?_, ?_⟩
  · intro hS
    exact (File_Seek_cases st fd _ h0 h1).1 ⟨hS, le_refl _⟩
  · have h := (File_Seek_cases st fd ((st.open_files fd).size + 1) h0 h1).2 (by omega)
    exact ⟨h.1, h.2.1⟩
  · have h := (File_Seek_cases st fd (-1) h0 h1).2 (by omega)
    exact ⟨h.1, h.2.1⟩

/-- The theorem `File_Seek_spec` at a concrete input: descriptor 0 of
`FS_stored` (cached size 600, cursor 500) and the offset 600. -/
theorem File_Seek_spec_witness :
    (0 : Int) ≤ 0 ∧ (0 : Int) < MAX_OPEN_FILES ∧ (FS_stored.open_files 0).size = 600
      ∧ (File_Seek FS_stored 0 600).1 = 600
      ∧ ((File_Seek FS_stored 0 600).2.open_files 0).pos = 600
      ∧ (File_Seek FS_stored 0 601).1 = -1
      ∧ (File_Seek FS_stored 0 (-1)).1 = -1 := by
  have hS : (FS_stored.open_files 0).size = 600 := by decide!
  have h := File_Seek_spec FS_stored 0 600 (by decide) (by decide)
  rw [hS] at h
  exact ⟨by decide, by decide, hS, (h.1 (by decide)).1, (h.1 (by decide)).2, h.2.2.2.1.1,
    h.2.2.2.2.1⟩

/-- C8: on the freshly formatted file system no slot of `open_files` is in
use, and yet `File_Seek(0, 0)` returns 0 and does not set `osErrno` to
`E_BAD_FD`: the test `is_file_open(open_files[fd].inode)` compares the slot
with itself. -/
theorem File_Seek_unused_slot :
    (FS_fresh.open_files 0).inode = 0 ∧ (File_Seek FS_fresh 0 0).1 = 0
      ∧ (File_Seek FS_fresh 0 0).2.osErrno = FS_Error.E_GENERAL := by
  decide!

/-! ## File_Open -/

/-- C9: for a path that resolves (`follow_path` returns a parent that is not
negative, with the child it found): if every slot of `open_files` is in use,
`File_Open` returns -1 with `E_TOO_MANY_OPEN_FILES`; otherwise, `fd` being
the lowest free slot, if the final component is absent it returns -1 with
`E_NO_SUCH_FILE`, if the inode of the child is not a file (a directory) it
returns -1 with `E_GENERAL`, and otherwise it returns `fd` and sets
`open_files[fd]` to the inode of the file, the size stored in its inode
record and cursor 0.  In every case the disk and all other slots are
unchanged. -/
theorem File_Open_spec (env : Env) (st : FS) (file : List Nat) (parent child : Int)
    (fname : Option (List Nat))
    (hres : follow_path env st.disk file env.stack_int none = some (parent, child, fname))
    (_hparent : 0 ≤ parent)
    (hvalid : 0 ≤ child → valid_inode env child) :
    (all_fds_in_use st →
      File_Open env st file
        = some (-1, { st with osErrno := FS_Error.E_TOO_MANY_OPEN_FILES }))
    ∧ (∀ fd, lowest_free_fd st fd →
        (child < 0 →
          File_Open env st file = some (-1, { st with osErrno := FS_Error.E_NO_SUCH_FILE }))
        ∧ (0 ≤ child → inode_record_type env st.disk child ≠ 0 →
          File_Open env st file = some (-1, { st with osErrno := FS_Error.E_GENERAL }))
        ∧ (0 ≤ child → inode_record_type env st.disk child = 0 →
          File_Open env st file
            = some (fd, { st with open_files := (set_open_file st.open_files fd
                ⟨child, inode_record_size env st.disk child, 0⟩) }))) := by
  constructor
  · intro hfull
    simp [File_Open, new_file_fd_full st hfull]
  · intro fd hfd
    have hnew := new_file_fd_lowest st fd hfd
    have hfd0 : ¬ fd < 0 := by have := hfd.1; omega
    refine ⟨?_, ?_, ?_⟩
    · intro hc
      have hc1 : ¬ child ≥ 0 := by omega
      simp [File_Open, hnew, hfd0, hres, hc1]
    · intro hc hty
      have hv := hvalid hc
      have hoff := inode_offset_eq env child hv
      have hoff1 : 0 ≤ child % INODES_PER_SECTOR
          ∧ child % INODES_PER_SECTOR < INODES_PER_SECTOR := by
        rw [INODES_PER_SECTOR_eq]; omega
      have hrd := Disk_Read_inode_sector env st.disk child hv env.stack
      have hty1 := inode_type_read env st.disk child hv env.stack
      rw [hrd] at hty1
      simp [File_Open, hnew, hfd0, hres, hc, hoff, hoff1, hty1, hty, hrd]
    · intro hc hty
      have hv := hvalid hc
      have hoff := inode_offset_eq env child hv
      have hoff1 : 0 ≤ child % INODES_PER_SECTOR
          ∧ child % INODES_PER_SECTOR < INODES_PER_SECTOR := by
        rw [INODES_PER_SECTOR_eq]; omega
      have hrd := Disk_Read_inode_sector env st.disk child hv env.stack
      have hty1 := inode_type_read env st.disk child hv env.stack
      have hsz1 := inode_size_read env st.disk child hv env.stack
      rw [hrd] at hty1 hsz1
      simp [File_Open, hnew, hfd0, hres, hc, hoff, hoff1, hty1, hty, hsz1, hrd]

/-- The theorem `File_Open_spec` at a concrete input: the path `/a` in the
state `FS_opened`, where it names the file with inode 1, descriptor 0 is in
use and descriptor 1 is the lowest free slot. -/
theorem File_Open_spec_witness :
    follow_path stdEnv FS_opened.disk (ascii "/a") stdEnv.stack_int none = some (0, 1, none)
      ∧ inode_record_type stdEnv FS_opened.disk 1 = 0
      ∧ inode_record_size stdEnv FS_opened.disk 1 = 0
      ∧ File_Open stdEnv FS_opened (ascii "/a")
          = some (1, { FS_opened with open_files := (set_open_file FS_opened.open_files 1
              ⟨1, 0, 0⟩) }) := by
  have hres : follow_path stdEnv FS_opened.disk (ascii "/a") stdEnv.stack_int none
      = some (0, 1, none) := by decide!
  have hty : inode_record_type stdEnv FS_opened.disk 1 = 0 := by decide!
  have hsz : inode_record_size stdEnv FS_opened.disk 1 = 0 := by decide!
  have hfree : lowest_free_fd FS_opened 1 := by
    refine ⟨by decide, by decide, by decide!, ?_⟩
    intro i hi0 hi1
    have hi : i = 0 := by omega
    subst hi
    decide!
  have h := ((File_Open_spec stdEnv FS_opened (ascii "/a") 0 1 none hres (by decide)
    (fun _ => ⟨by decide!, by decide, by decide!⟩)).2 1 hfree).2.2 (by decide) hty
  rw [hsz] at h
  exact ⟨hres, hty, hsz, h⟩

/-! ## File_Unlink -/

/-- C10: for every path naming an existing file (`follow_path` finds a child
inode that is at least 1) whose inode is held by a slot of `open_files`,
`File_Unlink` returns -1 with `osErrno = E_FILE_IN_USE` and leaves the disk
and the descriptor table unchanged. -/
theorem File_Unlink_open_file (env : Env) (st : FS) (pathname : List Nat) (parent child : Int)
    (fname : Option (List Nat))
    (hres : follow_path env st.disk pathname env.stack_int (some env.stack_str)
      = some (parent, child, fname))
    (hchild : 1 ≤ child)
    (hopen : ∃ fd, 0 ≤ fd ∧ fd < MAX_OPEN_FILES ∧ (st.open_files fd).inode = child) :
    File_Unlink env st pathname = some (-1, { st with osErrno := FS_Error.E_FILE_IN_USE }) := by
  obtain ⟨fd, h0, h1, h2⟩ := hopen
  have ho := is_file_open_of_slot st fd h0 h1
  rw [h2] at ho
  have hc : ¬ child < 1 := by omega
  simp [File_Unlink, hres, hc, ho]

/-- The theorem `File_Unlink_open_file` at a concrete input: the path `/a` in
the state `FS_opened`, where descriptor 0 holds its inode 1. -/
theorem File_Unlink_open_file_witness :
    follow_path stdEnv FS_opened.disk (ascii "/a") stdEnv.stack_int (some stdEnv.stack_str)
        = some (0, 1, some (ascii "a"))
      ∧ (FS_opened.open_files 0).inode = 1
      ∧ File_Unlink stdEnv FS_opened (ascii "/a")
          = some (-1, { FS_opened with osErrno := FS_Error.E_FILE_IN_USE }) := by
  have hres : follow_path stdEnv FS_opened.disk (ascii "/a") stdEnv.stack_int
      (some stdEnv.stack_str) = some (0, 1, some (ascii "a")) := by decide!
  have hfd : (FS_opened.open_files 0).inode = 1 := by decide!
  exact ⟨hres, hfd, File_Unlink_open_file stdEnv FS_opened (ascii "/a") 0 1 (some (ascii "a"))
    hres (by decide) ⟨0, by decide, by decide, hfd⟩⟩

/-! ## File_Close, then File_Unlink -/

/-- For the empty file `/a` that `File_Create` and `File_Open` leave behind
(inode 1, descriptor 0), `File_Close(0)` returns 0 and frees the slot,
`File_Unlink("/a")` then returns 0, the path resolves in the root with the
child absent, bit 1 of the inode bitmap is clear, and the next allocation in
the inode bitmap returns 1. -/
theorem File_Unlink_after_close_empty_file :
    (File_Close FS_opened 0).1 = 0
      ∧ ((File_Close FS_opened 0).2.open_files 0).inode = 0
      ∧ (File_Unlink stdEnv (File_Close FS_opened 0).2 (ascii "/a")).map Prod.fst = some 0
      ∧ resolve stdEnv FS_opened_unlinked.disk (ascii "/a") = some (0, -1)
      ∧ bitmap_bit FS_opened_unlinked.disk INODE_BITMAP_START_SECTOR 1 = false
      ∧ (bitmap_first_unused stdEnv FS_opened_unlinked.disk INODE_BITMAP_START_SECTOR
          (INODE_BITMAP_SECTORS stdEnv) (INODE_BITMAP_SIZE stdEnv)).1 = 1 := by
  decide!

/-- C11, as the code has it: the regular file `/a` (inode 1) of
`FS_six_sectors` holds the data sectors 256 to 261 and is open in descriptor 0
only.  `File_Close(0)` returns 0 and frees the slot and `File_Unlink("/a")`
returns 0, but afterwards `follow_path("/a")` returns -1 instead of the root
with the child absent: `remove_inode` has zeroed the sectors 1 to 5, the low
bytes of the numbers 257 to 261, so the inode bitmap is empty (bit 0 of the
root too) and the record of the root is no directory any more. -/
theorem File_Unlink_after_close_wrong_sectors :
    resolve stdEnv FS_six_sectors.disk (ascii "/a") = some (0, 1)
      ∧ inode_record_type stdEnv FS_six_sectors.disk 1 = 0
      ∧ (FS_six_sectors.open_files 0).inode = 1
      ∧ is_file_open FS_six_closed 1 = 0
      ∧ (File_Close FS_six_sectors 0).1 = 0
      ∧ (FS_six_closed.open_files 0).inode = 0
      ∧ (File_Unlink stdEnv FS_six_closed (ascii "/a")).map Prod.fst = some 0
      ∧ resolve stdEnv FS_six_unlinked.disk (ascii "/a") = some (-1, 0)
      ∧ inode_record_type stdEnv FS_six_unlinked.disk 0 = 0
      ∧ bitmap_bit FS_six_unlinked.disk INODE_BITMAP_START_SECTOR 0 = false := by
  decide!

/-! ## Dir_Unlink -/

/-- C12, as the code has it: in every state `Dir_Unlink("/")` returns -1 and
leaves the disk as it is, but the error it sets is `E_NO_SUCH_DIR`, not
`E_ROOT_DIR`. -/
theorem Dir_Unlink_root_errno (env : Env) (st : FS) :
    Dir_Unlink env st (ascii "/") = some (-1, { st with osErrno := FS_Error.E_NO_SUCH_DIR }) := by
  unfold Dir_Unlink
  rw [if_pos (by decide)]

/-- C13, as the code has it: `Dir_Unlink("/d")` of the empty directory `/d`
(inode 1) returns 0 and the path then resolves with the child absent, but bit
1 of the inode bitmap is still set: the next allocation returns 2. -/
theorem Dir_Unlink_keeps_inode_bit :
    (Dir_Create stdEnv FS_fresh (ascii "/d")).map Prod.fst = some 0
      ∧ resolve stdEnv FS_d.disk (ascii "/d") = some (0, 1)
      ∧ inode_record_type stdEnv FS_d.disk 1 = 1
      ∧ inode_record_size stdEnv FS_d.disk 1 = 0
      ∧ (Dir_Unlink stdEnv FS_d (ascii "/d")).map Prod.fst = some 0
      ∧ resolve stdEnv FS_d_unlinked.disk (ascii "/d") = some (0, -1)
      ∧ bitmap_bit FS_d_unlinked.disk INODE_BITMAP_START_SECTOR 1 = true
      ∧ (bitmap_first_unused stdEnv FS_d_unlinked.disk INODE_BITMAP_START_SECTOR
          (INODE_BITMAP_SECTORS stdEnv) (INODE_BITMAP_SIZE stdEnv)).1 = 2 := by
  decide!

/-- C14, as the code has it: after `Dir_Create("/d")`, `File_Create("/d/f")`
and a successful `File_Unlink("/d/f")` the directory `/d` (inode 1) has no
live entry, but its size is still 1, and `Dir_Unlink("/d")` fails with
`E_DIR_NOT_EMPTY`. -/
theorem unlink_keeps_directory_size :
    (Dir_Create stdEnv FS_fresh (ascii "/d")).map Prod.fst = some 0
      ∧ (File_Create stdEnv FS_d (ascii "/d/f")).map Prod.fst = some 0
      ∧ inode_record_size stdEnv FS_d_f.disk 1 = 1
      ∧ live_entries stdEnv FS_d_f.disk 1 = 1
      ∧ (File_Unlink stdEnv FS_d_f (ascii "/d/f")).map Prod.fst = some 0
      ∧ resolve stdEnv FS_d_f_unlinked.disk (ascii "/d/f") = some (1, -1)
      ∧ live_entries stdEnv FS_d_f_unlinked.disk 1 = 0
      ∧ inode_record_size stdEnv FS_d_f_unlinked.disk 1 = 1
      ∧ (Dir_Unlink stdEnv FS_d_f_unlinked (ascii "/d")).map (fun r => (r.1, r.2.osErrno))
          = some (-1, FS_Error.E_DIR_NOT_EMPTY) := by
  decide!

/-! ## Dir_Size and Dir_Read -/

theorem Dir_Size_entries_succ (m : Mem) (n : Nat) (j c : Int) :
    Dir_Size_entries m (n + 1) j c
      = if dirent_inode m (j * 20) > 0 then Dir_Size_entries m n (j + 1) (c + 20)
        else Dir_Size_entries m n (j + 1) c := rfl

theorem Dir_Size_sectors_succ (d : Disk) (inodeDir : Mem × Int) (n : Nat) (i : Int) (buf : Mem)
    (c : Int) :
    Dir_Size_sectors d inodeDir (n + 1) i buf c
      = Dir_Size_sectors d inodeDir n (i + 1)
          (Disk_Read d (inode_data inodeDir.1 inodeDir.2 i % 256) buf).2
          (Dir_Size_entries (Disk_Read d (inode_data inodeDir.1 inodeDir.2 i % 256) buf).2
            25 0 c) := by
  delta Dir_Size_sectors
  rfl

theorem Dir_Size_entries_none (m : Mem) :
    ∀ (n : Nat) (j c : Int), (∀ k : Nat, k < n → dirent_inode m ((j + k) * 20) ≤ 0) →
      Dir_Size_entries m n j c = c := by
  intro n
  induction n with
  | zero => intro j c _; rfl
  | succ n ih =>
    intro j c h
    have h0 := h 0 (Nat.succ_pos n)
    have hj : (j + ((0 : Nat) : Int)) * 20 = j * 20 := by simp
    rw [hj] at h0
    rw [Dir_Size_entries_succ, if_neg (not_lt.2 h0)]
    apply ih
    intro k hk
    have h1 := h (k + 1) (Nat.succ_lt_succ hk)
    have e : (j + ((k + 1 : Nat) : Int)) * 20 = (j + 1 + (k : Int)) * 20 := by push_cast; ring
    rw [e] at h1
    exact h1

theorem dirent_range (k : Nat) (j : Int) (hk : k < 25) (h0 : (k : Int) * 20 + 16 ≤ j)
    (h1 : j ≤ (k : Int) * 20 + 16 + 3) : 0 ≤ j ∧ j < 512 := by
  omega

theorem dirent_inode_read (d : Disk) (s : Int) (buf : Mem) (hs0 : 0 ≤ s) (hs1 : s < 10000)
    (k : Nat) (hk : k < 25) :
    dirent_inode (Disk_Read d s buf).2 ((k : Int) * 20) = dirent_inode (d s) ((k : Int) * 20) := by
  unfold dirent_inode
  have hM : MAX_NAME = 16 := rfl
  rw [hM]
  apply read_int_congr
  intro j hj0 hj1
  have hr := dirent_range k j hk hj0 hj1
  exact Disk_Read_valid d s buf j hs0 hs1 hr.1 hr.2

theorem Dir_Size_sectors_none (d : Disk) (inodeDir : Mem × Int) (s : Int)
    (hs0 : 0 ≤ s) (hs1 : s < 10000)
    (hz : ∀ k : Nat, k < 25 → dirent_inode (d s) ((k : Int) * 20) ≤ 0) :
    ∀ (n : Nat) (i : Int) (buf : Mem) (c : Int),
      (∀ k : Nat, k < n → inode_data inodeDir.1 inodeDir.2 (i + k) % 256 = s) →
      Dir_Size_sectors d inodeDir n i buf c = c := by
  intro n
  induction n with
  | zero => intro i buf c _; rfl
  | succ n ih =>
    intro i buf c h
    have h0 := h 0 (Nat.succ_pos n)
    have hi : i + ((0 : Nat) : Int) = i := by simp
    rw [hi] at h0
    rw [Dir_Size_sectors_succ, h0]
    have he : Dir_Size_entries (Disk_Read d s buf).2 25 0 c = c := by
      apply Dir_Size_entries_none
      intro k hk
      rw [zero_add, dirent_inode_read d s buf hs0 hs1 k hk]
      exact hz k hk
    rw [he]
    apply ih
    intro k hk
    have h1 := h (k + 1) (Nat.succ_lt_succ hk)
    have e : i + ((k + 1 : Nat) : Int) = i + 1 + (k : Int) := by push_cast; ring
    rw [e] at h1
    exact h1

theorem Dir_Size_resolved (env : Env) (d : Disk) (path : List Nat) (p li : Int)
    (f : Option (List Nat)) (h1 : path_type_resolver env d path = some 1)
    (h2 : follow_path env d path env.stack_int (some env.stack_str) = some (p, li, f)) :
    Dir_Size env d path = some (Dir_Size_sectors d (getNode env d li) 30 0 env.stack 0) := by
  unfold Dir_Size
  rw [h1]
  simp only
  rw [if_pos trivial, h2]

/-- C19, as the code has it: after `Dir_Create("/a")` and
`File_Create("/a/b")` on the freshly formatted file system the directory `/a`
(inode 1) has one entry, in its data sector 256, and `Dir_Size("/a")` is 0,
not 20: the function reads the sector `(unsigned char)256 = 0`. -/
theorem Dir_Size_wrong_sector :
    resolve stdEnv FS_dir_a_b.disk (ascii "/a") = some (0, 1)
      ∧ resolve stdEnv FS_dir_a_b.disk (ascii "/a/b") = some (1, 2)
      ∧ inode_record_type stdEnv FS_dir_a_b.disk 1 = 1
      ∧ inode_record_size stdEnv FS_dir_a_b.disk 1 = 1
      ∧ inode_record_data stdEnv FS_dir_a_b.disk 1 0 = 256
      ∧ live_entries stdEnv FS_dir_a_b.disk 1 = 1
      ∧ Dir_Size stdEnv FS_dir_a_b.disk (ascii "/a") = some 0
      ∧ (Dir_Read stdEnv FS_dir_a_b (ascii "/a") (fun _ => 0) 20).map
          (fun r => (r.1, bytes_of r.2.2 20))
          = some (1, [98, 0, 0, 0, 0, 0, 0, 0, 0, 0, 0, 0, 0, 0, 0, 0, 2, 0, 0, 0]) := by
  have h1 : path_type_resolver stdEnv FS_dir_a_b.disk (ascii "/a") = some 1 := by decide!
  have h2 : follow_path stdEnv FS_dir_a_b.disk (ascii "/a") stdEnv.stack_int
      (some stdEnv.stack_str) = some (0, 1, some (ascii "a")) := by decide!
  have h3 : ∀ k : Nat, k < 25 → dirent_inode (FS_dir_a_b.disk 0) ((k : Int) * 20) ≤ 0 := by
    decide!
  have h4 : ∀ k : Nat, k < 30 →
      inode_data (getNode stdEnv FS_dir_a_b.disk 1).1 (getNode stdEnv FS_dir_a_b.disk 1).2
        (0 + k) % 256 = 0 := by
    decide!
  refine ⟨by decide!, by decide!, by decide!, by decide!, by decide!, by decide!, ?_, by decide!⟩
  rw [Dir_Size_resolved stdEnv FS_dir_a_b.disk (ascii "/a") 0 1 (some (ascii "a")) h1 h2,
    Dir_Size_sectors_none FS_dir_a_b.disk (getNode stdEnv FS_dir_a_b.disk 1) 0
      (by decide) (by decide) h3 30 0 stdEnv.stack 0 h4]

/-- C18, as the code has it: after `File_Create("/a")`, `File_Create("/b")`
and `File_Unlink("/a")` the root has the one entry `b` and the size 2.
`Dir_Read("/", buffer, 40)` returns 2 and writes one record, the bytes 20 to
39 of the buffer stay as they were; `Dir_Read("/", buffer, 20)` fails with
`E_BUFFER_TOO_SMALL` although the one record fits. -/
theorem Dir_Read_after_unlink :
    (File_Create stdEnv FS_created (ascii "/b")).map Prod.fst = some 0
      ∧ (File_Unlink stdEnv FS_a_b (ascii "/a")).map Prod.fst = some 0
      ∧ inode_record_size stdEnv FS_a_b_unlinked.disk 0 = 2
      ∧ live_entries stdEnv FS_a_b_unlinked.disk 0 = 1
      ∧ (Dir_Read stdEnv FS_a_b_unlinked (ascii "/") (fun _ => 255) 40).map
          (fun r => (r.1, bytes_of r.2.2 40))
          = some (2, [98, 0, 0, 0, 0, 0, 0, 0, 0, 0, 0, 0, 0, 0, 0, 0, 2, 0, 0, 0,
              255, 255, 255, 255, 255, 255, 255, 255, 255, 255,
              255, 255, 255, 255, 255, 255, 255, 255, 255, 255])
      ∧ (Dir_Read stdEnv FS_a_b_unlinked (ascii "/") (fun _ => 255) 20).map
          (fun r => (r.1, r.2.1.osErrno)) = some (-1, FS_Error.E_BUFFER_TOO_SMALL) := by
  decide!

/-- A buffer size that is negative is accepted by `Dir_Read`, which compares
it as a `size_t`: on `FS_a_b`, whose root has two entries,
`Dir_Read("/", buffer, -1)` returns 2 and writes 40 bytes. -/
theorem Dir_Read_negative_size :
    (Dir_Read stdEnv FS_a_b (ascii "/") (fun _ => 255) (-1)).map
        (fun r => (r.1, bytes_of r.2.2 40))
      = some (2, [97, 0, 0, 0, 0, 0, 0, 0, 0, 0, 0, 0, 0, 0, 0, 0, 1, 0, 0, 0,
          98, 0, 0, 0, 0, 0, 0, 0, 0, 0, 0, 0, 0, 0, 0, 0, 2, 0, 0, 0]) := by
  decide!

/-! ## The root directory -/

/-- C20, as the code has it: after `Dir_Create("/a")`, `Dir_Create("/b")`,
`File_Create("/a/x")` and `File_Create("/b/y")` on the freshly formatted file
system the directory `/b` (inode 2) has the data sector 257.
`File_Unlink("/b")` returns 0 and zeroes the sector `(unsigned char)257 = 1`,
the inode bitmap: bit 0 is clear.  `File_Create("/c")` then takes inode 0 and
makes its record a file. -/
theorem root_inode_freed :
    bitmap_bit FS_two_dirs.disk INODE_BITMAP_START_SECTOR 0 = true
      ∧ inode_record_type stdEnv FS_two_dirs.disk 0 = 1
      ∧ resolve stdEnv FS_two_dirs.disk (ascii "/b") = some (0, 2)
      ∧ inode_record_data stdEnv FS_two_dirs.disk 2 0 = 257
      ∧ (File_Unlink stdEnv FS_two_dirs (ascii "/b")).map Prod.fst = some 0
      ∧ bitmap_bit FS_root_freed.disk INODE_BITMAP_START_SECTOR 0 = false
      ∧ bytes_of (FS_root_freed.disk INODE_BITMAP_START_SECTOR) 4 = [0, 0, 0, 0]
      ∧ (File_Create stdEnv FS_root_freed (ascii "/c")).map Prod.fst = some (-1)
      ∧ bitmap_bit FS_root_reused.disk INODE_BITMAP_START_SECTOR 0 = true
      ∧ inode_record_type stdEnv FS_root_reused.disk 0 = 0 := by
  decide!

/-- On the freshly formatted file system `Dir_Unlink("//")` returns 0 and
zeroes the first twenty bytes of the superblock, the magic number among
them. -/
theorem Dir_Unlink_double_slash :
    read_int (FS_fresh.disk SUPERBLOCK_START_SECTOR) 0 = to_int OS_MAGIC
      ∧ (Dir_Unlink stdEnv FS_fresh (ascii "//")).map
          (fun r => (r.1, read_int (r.2.disk SUPERBLOCK_START_SECTOR) 0)) = some (0, 0) := by
  decide!

/-! ## Creation -/

/-- When `follow_path` finds the parent and the child, that is, when the
final component of the path is there already, `create_file_or_directory`
returns -1 with `E_CREATE` and changes nothing else. -/
theorem create_existing (env : Env) (st : FS) (type : Int) (path : List Nat) (P c : Int)
    (f : Option (List Nat))
    (h : follow_path env st.disk path env.stack_int (some env.stack_str) = some (P, c, f))
    (hP : 0 ≤ P) (hc : 0 ≤ c) :
    create_file_or_directory env st type path
      = some (-1, { st with osErrno := FS_Error.E_CREATE }) := by
  unfold create_file_or_directory
  rw [h]
  simp only
  rw [if_pos (by omega), if_pos (by omega)]

/-- C16, as the code has it: on `FS_first_sector_full` the root is an empty
directory, the name `a` is legal and absent, bit 1 of the inode bitmap is free
and the sector bitmap has free sectors (4096 is one), but `File_Create("/a")`
returns -1 with `E_CREATE`, and leaves bit 1 of the inode bitmap set: the sector
allocation reads the first sector of the bitmap three times. -/
theorem create_fails_with_free_sector :
    resolve stdEnv FS_first_sector_full.disk (ascii "/a") = some (0, -1)
      ∧ inode_record_type stdEnv FS_first_sector_full.disk 0 = 1
      ∧ inode_record_size stdEnv FS_first_sector_full.disk 0 = 0
      ∧ illegal_filename (ascii "a") = 0
      ∧ bitmap_bit FS_first_sector_full.disk INODE_BITMAP_START_SECTOR 1 = false
      ∧ bitmap_bit FS_first_sector_full.disk (SECTOR_BITMAP_START_SECTOR stdEnv) 4096 = false
      ∧ (File_Create stdEnv FS_first_sector_full (ascii "/a")).map
          (fun r => (r.1, r.2.osErrno, bitmap_bit r.2.disk INODE_BITMAP_START_SECTOR 1))
          = some (-1, FS_Error.E_CREATE, true) := by
  decide!

/-- On the freshly formatted file system, where the sector bitmap has the
free sector 255 in its first sector, `File_Create("/a")` does what the create
postcondition says: it returns 0, inode 1 is stored as a file of size 0 with
an empty data list, the root has size 1 and the new data sector 255, its
entry 0 is the name `a` with inode 1, and the path resolves to parent 0 and
child 1. -/
theorem create_on_fresh :
    (File_Create stdEnv FS_fresh (ascii "/a")).map Prod.fst = some 0
      ∧ inode_record_type stdEnv FS_created.disk 1 = 0
      ∧ inode_record_size stdEnv FS_created.disk 1 = 0
      ∧ (List.range 30).map (fun i => inode_record_data stdEnv FS_created.disk 1 i)
          = List.replicate 30 0
      ∧ inode_record_size stdEnv FS_created.disk 0 = 1
      ∧ inode_record_data stdEnv FS_fresh.disk 0 0 = 0
      ∧ inode_record_data stdEnv FS_created.disk 0 0 = 255
      ∧ bytes_of (FS_created.disk 255) 20
          = [97, 0, 0, 0, 0, 0, 0, 0, 0, 0, 0, 0, 0, 0, 0, 0, 1, 0, 0, 0]
      ∧ resolve stdEnv FS_created.disk (ascii "/a") = some (0, 1) := by
  decide!

/-! ## Names -/

theorem legal_char_iff (c : Nat) : legal_char c = true ↔ name_char c := by
  unfold legal_char name_char
  simp only [Bool.or_eq_true, Bool.and_eq_true, decide_eq_true_eq, beq_iff_eq]
  have hA : Char.toNat 'A' = 65 := rfl
  have hZ : Char.toNat 'Z' = 90 := rfl
  have ha : Char.toNat 'a' = 97 := rfl
  have hz : Char.toNat 'z' = 122 := rfl
  have h0 : Char.toNat '0' = 48 := rfl
  have h9 : Char.toNat '9' = 57 := rfl
  have hdot : Char.toNat '.' = 46 := rfl
  have hdash : Char.toNat '-' = 45 := rfl
  have hund : Char.toNat '_' = 95 := rfl
  rw [hA, hZ, ha, hz, h0, h9, hdot, hdash, hund]
  tauto

theorem illegal_filename_iff (name : List Nat) :
    illegal_filename name = 0 ↔ name.length ≤ 15 ∧ ∀ c ∈ name, name_char c := by
  unfold illegal_filename
  have hM : MAX_NAME = 16 := rfl
  rw [hM]
  by_cases hlen : (name.length : Int) > 16 - 1
  · rw [if_pos hlen]
    constructor
    · intro h
      exact absurd h (by decide)
    · intro h
      omega
  · rw [if_neg hlen]
    by_cases hall : name.all legal_char = true
    · rw [if_pos hall]
      refine ⟨fun _ => ⟨by omega, ?_⟩, fun _ => rfl⟩
      intro c hc
      exact (legal_char_iff c).1 (List.all_eq_true.1 hall c hc)
    · rw [if_neg hall]
      constructor
      · intro h
        exact absurd h (by decide)
      · intro h
        exact absurd (List.all_eq_true.2 (fun c hc => (legal_char_iff c).2 (h.2 c hc))) hall

/-! ## The assertion of find_child_inode -/

theorem inode_offset_sector (env : Env) (n : Int) (h0 : 0 ≤ n) (h1 : n < 2147483648) :
    inode_offset env n (inode_sector env n) = n % 4 := by
  unfold inode_offset inode_start_entry inode_sector to_int to_size_t
  rw [INODES_PER_SECTOR_eq]
  generalize INODE_TABLE_START_SECTOR env = S
  omega

theorem dirent_inode_lt (m : Mem) (p : Int) : dirent_inode m p < 2147483648 := by
  unfold dirent_inode read_int to_int
  omega

theorem find_child_dirent_lt (buf : Mem) (fname : List Nat) (nentries : Int) :
    ∀ (n : Nat) (i c : Int), find_child_dirent buf fname nentries n i = some c → c < 2147483648
  | 0, _, _, h => by simp [find_child_dirent] at h
  | n + 1, i, c, h => by
    unfold find_child_dirent at h
    split at h
    · exact absurd h (by simp)
    · split at h
      · injection h with h
        rw [← h]
        exact dirent_inode_lt _ _
      · exact find_child_dirent_lt buf fname nentries n (i + 1) c h

theorem cache_holds_sector (env : Env) (n : Int) (h1 : n < 2147483648) :
    cache_holds env n (inode_sector env n) := by
  intro h0
  rw [inode_offset_sector env n h0 h1, INODES_PER_SECTOR_eq]
  omega

theorem cache_holds_neg (env : Env) (n s : Int) (h : n < 0) : cache_holds env n s := by
  intro h0
  omega

theorem find_child_loop_zero (env : Env) (d : Disk) (p : Int) (fname : List Nat)
    (nentries idx cs : Int) (cb : Mem) :
    find_child_loop env d p fname 0 nentries idx cs cb = (-1, cs, cb) := rfl

theorem find_child_loop_succ (env : Env) (d : Disk) (p : Int) (fname : List Nat) (fuel : Nat)
    (nentries idx cs : Int) (cb : Mem) :
    find_child_loop env d p fname (fuel + 1) nentries idx cs cb =
      if nentries > 0 then
        if (Disk_Read d (inode_data cb p idx) env.stack).1 < 0 then (-2, cs, cb)
        else
          match find_child_dirent (Disk_Read d (inode_data cb p idx) env.stack).2 fname nentries
              DIRENTS_PER_SECTOR.toNat 0 with
          | some child_inode =>
            if inode_sector env child_inode ≠ cs then
              if (Disk_Read d (inode_sector env child_inode) cb).1 < 0 then
                (-2, inode_sector env child_inode,
                  (Disk_Read d (inode_sector env child_inode) cb).2)
              else
                (child_inode, inode_sector env child_inode,
                  (Disk_Read d (inode_sector env child_inode) cb).2)
            else (child_inode, cs, cb)
          | none =>
            find_child_loop env d p fname fuel
              (to_int (to_size_t (to_size_t nentries - DIRENTS_PER_SECTOR))) (idx + 1) cs cb
      else (-1, cs, cb) := rfl

theorem find_child_loop_cache (env : Env) (d : Disk) (p : Int) (fname : List Nat)
    (fuel : Nat) : ∀ (nentries idx cs : Int) (cb : Mem),
      cache_holds env (find_child_loop env d p fname fuel nentries idx cs cb).1
        (find_child_loop env d p fname fuel nentries idx cs cb).2.1 := by
  induction fuel with
  | zero =>
    intro nentries idx cs cb
    rw [find_child_loop_zero]
    exact cache_holds_neg env (-1) _ (by decide)
  | succ fuel ih =>
    intro nentries idx cs cb
    rw [find_child_loop_succ]
    by_cases h1 : nentries > 0
    · rw [if_pos h1]
      by_cases h2 : (Disk_Read d (inode_data cb p idx) env.stack).1 < 0
      · rw [if_pos h2]
        exact cache_holds_neg env (-2) _ (by decide)
      · rw [if_neg h2]
        cases hf : find_child_dirent (Disk_Read d (inode_data cb p idx) env.stack).2 fname
            nentries DIRENTS_PER_SECTOR.toNat 0 with
        | none => exact ih _ _ _ _
        | some child =>
          have hlt := find_child_dirent_lt _ _ _ _ _ _ hf
          simp only
          by_cases h3 : inode_sector env child ≠ cs
          · rw [if_pos h3]
            by_cases h4 : (Disk_Read d (inode_sector env child) cb).1 < 0
            · rw [if_pos h4]
              exact cache_holds_neg env (-2) _ (by decide)
            · rw [if_neg h4]
              exact cache_holds_sector env child hlt
          · rw [if_neg h3]
            have hs2 : inode_sector env child = cs := not_not.1 h3
            rw [← hs2]
            exact cache_holds_sector env child hlt
    · rw [if_neg h1]
      exact cache_holds_neg env (-1) _ (by decide)

theorem find_child_inode_some (env : Env) (d : Disk) (parent : Int) (fname : List Nat)
    (cs : Int) (cb : Mem) (h0 : 0 ≤ parent) (h : cache_holds env parent cs) :
    ∃ r, find_child_inode env d parent fname cs cb = some r ∧ cache_holds env r.1 r.2.1 := by
  unfold find_child_inode
  simp only
  rw [if_pos (h h0)]
  by_cases ht : inode_type cb (inode_offset env parent cs * sizeof_inode_t) ≠ 1
  · rw [if_pos ht]
    exact ⟨_, rfl, cache_holds_neg env (-2) _ (by decide)⟩
  · rw [if_neg ht]
    exact ⟨_, rfl, find_child_loop_cache env d _ fname _ _ _ _ _⟩

theorem cache_holds_root (env : Env) : cache_holds env 0 (INODE_TABLE_START_SECTOR env) := by
  intro _
  unfold inode_offset inode_start_entry to_int to_size_t
  rw [INODES_PER_SECTOR_eq]
  generalize INODE_TABLE_START_SECTOR env = S
  omega

/-! ## Paths with an illegal component -/

theorem follow_path_loop_cons (env : Env) (d : Disk) (token : List Nat) (rest : List (List Nat))
    (parent child cs : Int) (cb : Mem) (lf : Option (List Nat)) :
    follow_path_loop env d (token :: rest) parent child cs cb lf =
      if token = [] then follow_path_loop env d rest parent child cs cb lf
      else if illegal_filename token ≠ 0 then some (false, parent, child, lf)
      else if child < 0 then some (false, parent, child, lf)
      else
        match find_child_inode env d child token cs cb with
        | none => none
        | some r =>
          follow_path_loop env d rest child r.1 r.2.1 r.2.2 (lf.map (fun _ => token)) := rfl

/-- With a token that is not empty and not a legal name among those still to
come, the loop of `follow_path` ends in a `return -1`. -/
theorem follow_path_loop_illegal (env : Env) (d : Disk) (tokens : List (List Nat)) :
    ∀ (parent child cs : Int) (cb : Mem) (lf : Option (List Nat)),
      cache_holds env child cs → (∃ t ∈ tokens, t ≠ [] ∧ illegal_filename t ≠ 0) →
      ∃ p c f, follow_path_loop env d tokens parent child cs cb lf = some (false, p, c, f) := by
  induction tokens with
  | nil =>
    intro parent child cs cb lf _ hbad
    obtain ⟨t, ht, _⟩ := hbad
    exact absurd ht (List.not_mem_nil t)
  | cons token rest ih =>
    intro parent child cs cb lf hc hbad
    rw [follow_path_loop_cons]
    obtain ⟨t, ht, hne, hill⟩ := hbad
    by_cases h1 : token = []
    · rw [if_pos h1]
      rcases List.mem_cons.1 ht with h | h
      · exact absurd (h ▸ h1) hne
      · exact ih parent child cs cb lf hc ⟨t, h, hne, hill⟩
    · rw [if_neg h1]
      by_cases h2 : illegal_filename token ≠ 0
      · rw [if_pos h2]
        exact ⟨_, _, _, rfl⟩
      · rw [if_neg h2]
        by_cases h3 : child < 0
        · rw [if_pos h3]
          exact ⟨_, _, _, rfl⟩
        · rw [if_neg h3]
          obtain ⟨r, hr, hcr⟩ := find_child_inode_some env d child token cs cb (by omega) hc
          rw [hr]
          simp only
          rcases List.mem_cons.1 ht with h | h
          · exact absurd (h ▸ hill) h2
          · exact ih child r.1 r.2.1 r.2.2 _ hcr ⟨t, h, hne, hill⟩

theorem strsep_tokens_slash (s : List Nat) : strsep_tokens (47 :: s) = [] :: strsep_tokens s := by
  simp [strsep_tokens]

/-- A path with a component that is not a legal name among the components of its first
`MAX_PATH` characters: `follow_path` returns -1 and leaves `last_inode`. -/
theorem follow_path_illegal (env : Env) (d : Disk) (path : List Nat) (li : Int)
    (lf : Option (List Nat))
    (hbad : ∃ t ∈ path_components ((c_str path).take MAX_PATH.toNat), illegal_filename t ≠ 0) :
    ∃ f, follow_path env d path li lf = some (-1, li, f) := by
  unfold follow_path
  by_cases h1 : (c_str path).head? ≠ some 47
  · rw [if_pos h1]
    exact ⟨lf, rfl⟩
  · rw [if_neg h1]
    simp only
    by_cases h2 : (Disk_Read d (INODE_TABLE_START_SECTOR env) env.stack).1 < 0
    · rw [if_pos h2]
      exact ⟨lf, rfl⟩
    · rw [if_neg h2]
      have h1b : (c_str path).head? = some 47 := not_not.1 h1
      obtain ⟨tl, htl⟩ : ∃ tl, c_str path = 47 :: tl := by
        cases hcs : c_str path with
        | nil => rw [hcs] at h1b; simp at h1b
        | cons a tl =>
          rw [hcs] at h1b
          simp only [List.head?_cons, Option.some.injEq] at h1b
          exact ⟨tl, by rw [h1b]⟩
      rw [htl] at hbad ⊢
      have hM : MAX_PATH.toNat = 255 + 1 := rfl
      have hM1 : (MAX_PATH - 1).toNat = 255 := rfl
      rw [hM, List.take_succ_cons] at hbad
      rw [hM1, List.tail_cons]
      unfold path_components at hbad
      rw [strsep_tokens_slash] at hbad
      obtain ⟨t, ht, hill⟩ := hbad
      have ht2 := List.mem_filter.1 ht
      have hne : t ≠ [] := by simpa using ht2.2
      have hmem : t ∈ strsep_tokens (List.take 255 tl) := by
        rcases List.mem_cons.1 ht2.1 with h | h
        · exact absurd h hne
        · exact h
      obtain ⟨p, c, f, hl⟩ := follow_path_loop_illegal env d _ (-1) 0
        (INODE_TABLE_START_SECTOR env)
        (Disk_Read d (INODE_TABLE_START_SECTOR env) env.stack).2 lf (cache_holds_root env)
        ⟨t, hmem, hne, hill⟩
      rw [hl]
      exact ⟨f, rfl⟩

theorem create_unresolved (env : Env) (st : FS) (type : Int) (path : List Nat)
    (f : Option (List Nat))
    (h : follow_path env st.disk path env.stack_int (some env.stack_str)
      = some (-1, env.stack_int, f)) :
    create_file_or_directory env st type path
      = some (-1, { st with osErrno := FS_Error.E_CREATE }) := by
  unfold create_file_or_directory
  rw [h]
  simp only
  rw [if_neg (by decide)]

/-- C17, within the first `MAX_PATH` characters of the path:
`illegal_filename(name)` returns 0 if and only if `name` has at most 15
characters, each of them an ASCII letter, a digit, a dot, a dash or an
underscore; and for every path that has, among the components of its first
`MAX_PATH` = 256 characters, one of 16 or more characters or with another
character, `follow_path` returns -1 and `File_Create` and `Dir_Create` return
-1 with `E_CREATE`, leaving the disk as it is. -/
theorem illegal_component_rejected (env : Env) (st : FS) (path : List Nat)
    (hbad : ∃ t ∈ path_components ((c_str path).take MAX_PATH.toNat),
      16 ≤ t.length ∨ ∃ c ∈ t, ¬ name_char c) :
    (∀ name : List Nat,
        illegal_filename name = 0 ↔ name.length ≤ 15 ∧ ∀ c ∈ name, name_char c)
      ∧ resolve env st.disk path = some (-1, env.stack_int)
      ∧ File_Create env st path = some (-1, { st with osErrno := FS_Error.E_CREATE })
      ∧ Dir_Create env st path = some (-1, { st with osErrno := FS_Error.E_CREATE }) := by
  have hill : ∃ t ∈ path_components ((c_str path).take MAX_PATH.toNat),
      illegal_filename t ≠ 0 := by
    obtain ⟨t, ht, hb⟩ := hbad
    refine ⟨t, ht, fun h0 => ?_⟩
    have h := (illegal_filename_iff t).1 h0
    rcases hb with hb | ⟨c, hc, hn⟩
    · omega
    · exact hn (h.2 c hc)
  obtain ⟨f, hf⟩ := follow_path_illegal env st.disk path env.stack_int (some env.stack_str) hill
  refine ⟨illegal_filename_iff, ?_, create_unresolved env st 0 path f hf,
    create_unresolved env st 1 path f hf⟩
  unfold resolve
  rw [hf]
  rfl

/-- The hypothesis of `illegal_component_rejected` holds for the path
`/aaaaaaaaaaaaaaaa`, whose component has 16 characters, and for `/a b`, whose
component has a blank. -/
theorem illegal_component_rejected_witness :
    File_Create stdEnv FS_fresh (ascii "/aaaaaaaaaaaaaaaa")
        = some (-1, { FS_fresh with osErrno := FS_Error.E_CREATE })
      ∧ Dir_Create stdEnv FS_fresh (ascii "/a b")
        = some (-1, { FS_fresh with osErrno := FS_Error.E_CREATE }) :=
  ⟨(illegal_component_rejected stdEnv FS_fresh (ascii "/aaaaaaaaaaaaaaaa")
      ⟨ascii "aaaaaaaaaaaaaaaa", by decide, Or.inl (by decide)⟩).2.2.1,
   (illegal_component_rejected stdEnv FS_fresh (ascii "/a b")
      ⟨ascii "a b", by decide, Or.inr ⟨32, by decide, by decide⟩⟩).2.2.2⟩

/-- C17 fails past the first `MAX_PATH` characters: the path `long_path`
has a component of sixteen characters, but `follow_path` sees the first
fifteen of them only; on the freshly formatted file system it returns the
root with the child absent, and `File_Create` returns 0. -/
theorem long_path_created :
    List.replicate 16 97 ∈ path_components (c_str long_path)
      ∧ illegal_filename (List.replicate 16 97) = 1
      ∧ resolve stdEnv FS_fresh.disk long_path = some (0, -1)
      ∧ (File_Create stdEnv FS_fresh long_path).map Prod.fst = some 0
      ∧ resolve stdEnv (state_after (File_Create stdEnv FS_fresh long_path) FS_fresh).disk
          (List.replicate 241 47 ++ List.replicate 15 97) = some (0, 1) := by
  decide!

/-! ## The bitmap functions -/

theorem byte_full (b : Byte) : (∀ m : Nat, m < 8 → b.val.testBit m = true) → b = 255 := by
  revert b
  decide!

theorem first_unused_bit_byte (b : Byte) (m : Nat) :
    m < 8 → b.val.testBit (7 - m) = false → (∀ t : Nat, t < m → b.val.testBit (7 - t) = true) →
      b ≠ 255 ∧ first_unused_bit 8 (255 - b.val) 8 0 = some (8 - (m : Int))
        ∧ ∀ t : Nat, t < 8 →
          (byte (b.val ||| (getExponent 2 (8 - (m : Int) - 1) % 256).toNat)).val.testBit t
            = (decide (t = 7 - m) || b.val.testBit t) := by
  revert b m
  decide!

theorem first_unused_byte_succ (d : Disk) (i : Int) (buffer : Mem)
    (currentSectors maxBits maxBytes totalBits : Int) (n : Nat) (j : Int) :
    first_unused_byte d i buffer currentSectors maxBits maxBytes totalBits (n + 1) j
      = if buffer j ≠ 255 then
          match first_unused_bit 8 (255 - (buffer j).val)
              (if j = maxBytes - 1 then maxBits - totalBits else 8) 0 with
          | none => some (-1, d)
          | some bitLocation =>
            some (currentSectors * SECTOR_SIZE * 8 + j * 8
                + (8 - (if bitLocation = 0 then 7 else bitLocation)),
              (Disk_Write d i (fun k =>
                if k = j then
                  byte ((buffer j).val
                    ||| (getExponent 2 ((if bitLocation = 0 then 7 else bitLocation) - 1)
                      % 256).toNat)
                else buffer k)).2)
        else first_unused_byte d i buffer currentSectors maxBits maxBytes totalBits n (j + 1) := by
  delta first_unused_byte
  rfl

theorem first_unused_byte_skip (d : Disk) (i : Int) (buffer : Mem)
    (currentSectors maxBits maxBytes totalBits : Int) (n : Nat) :
    ∀ (c : Nat) (j : Int), (∀ t : Nat, t < c → buffer (j + t) = 255) →
      first_unused_byte d i buffer currentSectors maxBits maxBytes totalBits (c + n) j
        = first_unused_byte d i buffer currentSectors maxBits maxBytes totalBits n (j + c) := by
  intro c
  induction c with
  | zero =>
    intro j _
    rw [Nat.zero_add, Nat.cast_zero, add_zero]
  | succ c ih =>
    intro j h
    have h0 := h 0 (Nat.succ_pos c)
    rw [Nat.cast_zero, add_zero] at h0
    have e : c + 1 + n = (c + n) + 1 := by omega
    rw [e, first_unused_byte_succ, if_neg (not_not.2 h0), ih (j + 1)]
    · have e2 : j + 1 + (c : Int) = j + ((c + 1 : Nat) : Int) := by push_cast; ring
      rw [e2]
    · intro t ht
      have h1 := h (t + 1) (Nat.succ_lt_succ ht)
      have e3 : j + ((t + 1 : Nat) : Int) = j + 1 + (t : Int) := by push_cast; ring
      rw [e3] at h1
      exact h1

theorem first_unused_sector_succ (d : Disk) (start : Int) (n : Nat) (i : Int) (buffer : Mem)
    (currentSectors maxBytes totalBits : Int) :
    first_unused_sector d start (n + 1) i buffer currentSectors maxBytes totalBits
      = match first_unused_byte d i (Disk_Read d start buffer).2 currentSectors (SECTOR_SIZE * 8)
          (if cmod maxBytes 8 > 0 then maxBytes + 1 else maxBytes)
          (if totalBits > SECTOR_SIZE * 8 then SECTOR_SIZE * 8 else totalBits)
          (if cmod maxBytes 8 > 0 then maxBytes + 1 else maxBytes).toNat 0 with
        | some r => r
        | none => first_unused_sector d start n (i + 1) (Disk_Read d start buffer).2
            (currentSectors + 1) (if cmod maxBytes 8 > 0 then maxBytes + 1 else maxBytes)
            (if totalBits > SECTOR_SIZE * 8 then SECTOR_SIZE * 8 else totalBits) := by
  delta first_unused_sector
  rfl




theorem bitmap_bit_first (d : Disk) (start j : Int) (h0 : 0 ≤ j) (h1 : j < 4096) :
    bitmap_bit d start j = (d start (j / 8)).val.testBit (7 - j % 8).toNat := by
  unfold bitmap_bit
  rw [SECTOR_SIZE_eq]
  have e1 : j / (512 * 8) = 0 := by omega
  have e2 : j / 8 % 512 = j / 8 := by omega
  rw [e1, e2, add_zero]

theorem bit_index (t r : Nat) (hr : r < 8) :
    ((8 * t + r : Nat) : Int) / 8 = (t : Int) ∧ ((8 * t + r : Nat) : Int) % 8 = (r : Int) := by
  omega

/-- The bytes before the one that holds the lowest zero bit are full. -/
theorem bytes_before_full (d : Disk) (start k : Int)
    (h2 : k < 4096) (hlow : ∀ j, 0 ≤ j → j < k → bitmap_bit d start j = true)
    (t : Nat) (ht : (t : Int) < k / 8) : d start (t : Int) = 255 := by
  apply byte_full
  intro m hm
  have hj := hlow ((8 * t + (7 - m) : Nat) : Int) (by omega) (by omega)
  rw [bitmap_bit_first d start _ (by omega) (by omega)] at hj
  have e := bit_index t (7 - m) (by omega)
  rw [e.1, e.2] at hj
  have e3 : (7 - ((7 - m : Nat) : Int)).toNat = m := by omega
  rw [e3] at hj
  exact hj



theorem first_unused_byte_found (d : Disk) (i : Int) (buffer : Mem) (cs tb : Int)
    (c m n N : Nat) (hN : N = c + (n + 1)) (hc : c < 511) (hm : m < 8)
    (hfull : ∀ t : Nat, t < c → buffer (t : Int) = 255)
    (hz : (buffer (c : Int)).val.testBit (7 - m) = false)
    (hl : ∀ t : Nat, t < m → (buffer (c : Int)).val.testBit (7 - t) = true) :
    first_unused_byte d i buffer cs 4096 512 tb N 0
      = some (cs * SECTOR_SIZE * 8 + (c : Int) * 8 + (m : Int),
          (Disk_Write d i (fun k =>
            if k = (c : Int) then
              byte ((buffer (c : Int)).val ||| (getExponent 2 (8 - (m : Int) - 1) % 256).toNat)
            else buffer k)).2) := by
  subst hN
  have hb := first_unused_bit_byte (buffer (c : Int)) m hm hz hl
  rw [first_unused_byte_skip d i buffer cs 4096 512 tb (n + 1) c 0
    (fun t ht => by rw [zero_add]; exact hfull t ht), zero_add, first_unused_byte_succ,
    if_pos hb.1, if_neg (by omega), hb.2.1]
  simp only
  rw [if_neg (by omega)]
  have e : (8 : Int) - (8 - (m : Int)) = (m : Int) := by ring
  rw [e]




theorem set_byte_bit_testBit (b : Byte) (v : Bool) (i : Nat) (hi : i < 8) (t : Nat)
    (ht : t < 8) : (set_byte_bit b i v).val.testBit t = if t = i then v else b.val.testBit t := by
  revert b v i hi t ht
  decide!

theorem set_byte_bit_alloc (b : Byte) (m : Nat) :
    m < 8 → byte (b.val ||| (getExponent 2 (8 - (m : Int) - 1) % 256).toNat)
      = set_byte_bit b (7 - m) true := by
  revert b m
  decide!

theorem set_byte_bit_reset (b : Byte) (m : Nat) :
    m < 8 → byte (b.val &&& ((255 - getExponent 2 (7 - (m : Int))) % 256).toNat)
      = set_byte_bit b (7 - m) false := by
  revert b m
  decide!

theorem set_byte_bit_undo (b : Byte) (i : Nat) :
    i < 8 → b.val.testBit i = false → set_byte_bit (set_byte_bit b i true) i false = b := by
  revert b i
  decide!

theorem set_byte_bit_same (b : Byte) (v : Bool) (i : Nat) :
    i < 8 → b.val.testBit i = v → set_byte_bit b i v = b := by
  revert b v i
  decide!




theorem Disk_Write_valid (d : Disk) (sector : Int) (buf : Mem) (h0 : 0 ≤ sector)
    (h1 : sector < 10000) :
    (Disk_Write d sector buf).2
      = fun s j => if s = sector ∧ 0 ≤ j ∧ j < 512 then buf j else d s j := by
  unfold Disk_Write
  rw [TOTAL_SECTORS_eq, SECTOR_SIZE_eq, if_neg (by omega)]

theorem bitmap_bit_with (d : Disk) (start k j : Int) (v : Bool) :
    bitmap_bit (bitmap_with d start k v) start j = if j = k then v else bitmap_bit d start j := by
  unfold bitmap_bit bitmap_with
  rw [SECTOR_SIZE_eq]
  by_cases hb : start + j / (512 * 8) = start + k / (512 * 8) ∧ j / 8 % 512 = k / 8 % 512
  · rw [if_pos hb, set_byte_bit_testBit _ v _ (by omega) _ (by omega)]
    by_cases hjk : j = k
    · rw [if_pos hjk, if_pos (by rw [hjk])]
    · rw [if_neg hjk, if_neg (by omega)]
  · rw [if_neg hb, if_neg (by intro h; rw [h] at hb; exact hb ⟨rfl, rfl⟩)]

theorem bitmap_with_other (d : Disk) (start k s : Int) (v : Bool)
    (hs : s ≠ start + k / (SECTOR_SIZE * 8)) : bitmap_with d start k v s = d s := by
  funext t
  unfold bitmap_with
  rw [if_neg (fun h => hs h.1)]

theorem bitmap_with_undo (d : Disk) (start k : Int) (h : bitmap_bit d start k = false) :
    bitmap_with (bitmap_with d start k true) start k false = d := by
  funext s t
  unfold bitmap_with
  by_cases hb : s = start + k / (SECTOR_SIZE * 8) ∧ t = k / 8 % SECTOR_SIZE
  · rw [if_pos hb, if_pos hb]
    unfold bitmap_bit at h
    rw [← hb.1, ← hb.2] at h
    exact set_byte_bit_undo _ _ (by omega) h
  · rw [if_neg hb, if_neg hb]

theorem bitmap_with_same (d : Disk) (start k : Int) (v : Bool) (h : bitmap_bit d start k = v) :
    bitmap_with d start k v = d := by
  funext s t
  unfold bitmap_with
  by_cases hb : s = start + k / (SECTOR_SIZE * 8) ∧ t = k / 8 % SECTOR_SIZE
  · rw [if_pos hb]
    unfold bitmap_bit at h
    rw [← hb.1, ← hb.2] at h
    exact set_byte_bit_same _ _ _ (by omega) h
  · rw [if_neg hb]




theorem maxBytes_eq : (if cmod SECTOR_SIZE 8 > 0 then SECTOR_SIZE + 1 else SECTOR_SIZE) = 512 := by
  decide

/-- When the lowest zero bit `k` of a bitmap lies in the first 511 bytes of
its first sector, `bitmap_first_unused` returns `k` and sets that bit. -/
theorem bitmap_first_unused_first (env : Env) (d : Disk) (start num nbits k : Int)
    (hs0 : 0 ≤ start) (hs1 : start < 10000) (hnum : 1 ≤ num) (hk0 : 0 ≤ k) (hk2 : k < 4088)
    (hzero : bitmap_bit d start k = false)
    (hlow : ∀ j, 0 ≤ j → j < k → bitmap_bit d start j = true) :
    bitmap_first_unused env d start num nbits = (k, bitmap_with d start k true) := by
  obtain ⟨n, hn⟩ : ∃ n, num.toNat = n + 1 := ⟨num.toNat - 1, by omega⟩
  have hc : ((k / 8).toNat : Int) = k / 8 := by omega
  have hm : ((k % 8).toNat : Int) = k % 8 := by omega
  have hread : ∀ t : Int, 0 ≤ t → t < 512 → (Disk_Read d start env.stack).2 t = d start t :=
    fun t h0 h1 => Disk_Read_valid d start env.stack t hs0 hs1 h0 h1
  have hbit : bitmap_bit d start k
      = ((Disk_Read d start env.stack).2 ((k / 8).toNat : Int)).val.testBit (7 - (k % 8).toNat) := by
    rw [bitmap_bit_first d start k hk0 (by omega),
      hread ((k / 8).toNat : Int) (by omega) (by omega), hc]
    congr 1
    omega
  have h := first_unused_byte_found d start (Disk_Read d start env.stack).2 0
    (if nbits * 8 > SECTOR_SIZE * 8 then SECTOR_SIZE * 8 else nbits * 8)
    (k / 8).toNat (k % 8).toNat (511 - (k / 8).toNat) 512 (by omega) (by omega) (by omega)
    (fun t ht => by
      rw [hread (t : Int) (by omega) (by omega)]
      exact bytes_before_full d start k (by omega) hlow t (by omega))
    (by rw [← hbit]; exact hzero)
    (fun t ht => by
      have hj := hlow (8 * (k / 8) + t) (by omega) (by omega)
      rw [bitmap_bit_first d start _ (by omega) (by omega)] at hj
      have e1 : (8 * (k / 8) + (t : Int)) / 8 = ((k / 8).toNat : Int) := by omega
      have e2 : (7 - (8 * (k / 8) + (t : Int)) % 8).toNat = 7 - t := by omega
      rw [e1, e2, ← hread ((k / 8).toNat : Int) (by omega) (by omega)] at hj
      exact hj)
  unfold bitmap_first_unused
  rw [hn, first_unused_sector_succ, maxBytes_eq]
  have e512 : (512 : Int).toNat = 512 := rfl
  have e4096 : SECTOR_SIZE * 8 = 4096 := by decide
  rw [e512, e4096]
  rw [e4096] at h
  rw [h]
  simp only
  rw [set_byte_bit_alloc _ _ (by omega : (k % 8).toNat < 8), hc, hm,
    Disk_Write_valid d start _ hs0 hs1]
  congr 1
  · rw [SECTOR_SIZE_eq]
    omega
  · funext s t
    unfold bitmap_with
    rw [SECTOR_SIZE_eq]
    have e1 : k / (512 * 8) = 0 := by omega
    have e2 : k / 8 % 512 = k / 8 := by omega
    have e3 : (7 - k % 8).toNat = 7 - (k % 8).toNat := by omega
    rw [e1, e2, e3, add_zero]
    by_cases hst : s = start ∧ t = k / 8
    · rw [if_pos hst, if_pos ⟨hst.1, by omega, by omega⟩, if_pos hst.2, hst.1, hst.2,
        hread (k / 8) (by omega) (by omega)]
    · rw [if_neg hst]
      by_cases hw : s = start ∧ 0 ≤ t ∧ t < 512
      · rw [if_pos hw, if_neg (fun h => hst ⟨hw.1, h⟩), hread t hw.2.1 hw.2.2, hw.1]
      · rw [if_neg hw]

/-- For a slot `k` with `1 ≤ k < 4096` of a bitmap, `bitmap_reset(start, num,
k + 1)` returns 0 and clears bit `k`. -/
theorem bitmap_reset_first (env : Env) (d : Disk) (start num k : Int)
    (hs0 : 0 ≤ start) (hs1 : start < 10000) (hk1 : 1 ≤ k) (hk2 : k < 4096) :
    bitmap_reset env d start num (k + 1) = (0, bitmap_with d start k false) := by
  have hread : ∀ t : Int, 0 ≤ t → t < 512 → (Disk_Read d start env.stack).2 t = d start t :=
    fun t h0 h1 => Disk_Read_valid d start env.stack t hs0 hs1 h0 h1
  unfold bitmap_reset
  have e4096 : SECTOR_SIZE * 8 = 4096 := by decide
  have ek : k + 1 - 1 = k := by ring
  have e1 : cmod k 4096 = k := by
    unfold cmod
    rw [Int.tmod_eq_emod (by omega) (by omega)]
    omega
  have e2 : cdiv k 4096 + start = start := by
    unfold cdiv
    rw [Int.tdiv_eq_ediv (by omega) (by omega)]
    omega
  have e3 : cdiv k 8 = k / 8 := by
    unfold cdiv
    rw [Int.tdiv_eq_ediv (by omega) (by omega)]
  have e4 : cmod k 8 = ((k % 8).toNat : Int) := by
    unfold cmod
    rw [Int.tmod_eq_emod (by omega) (by omega)]
    omega
  simp only
  rw [e4096, ek, e1, e2, if_neg (by omega), if_neg (by omega), if_neg (by omega), e3, e4,
    set_byte_bit_reset _ _ (by omega : (k % 8).toNat < 8), Disk_Write_valid d start _ hs0 hs1]
  congr 1
  funext s t
  unfold bitmap_with
  rw [SECTOR_SIZE_eq]
  have e5 : k / (512 * 8) = 0 := by omega
  have e6 : k / 8 % 512 = k / 8 := by omega
  have e7 : (7 - k % 8).toNat = 7 - (k % 8).toNat := by omega
  rw [e5, e6, e7, add_zero]
  by_cases hst : s = start ∧ t = k / 8
  · rw [if_pos hst, if_pos ⟨hst.1, by omega, by omega⟩, if_pos hst.2, hst.1, hst.2,
      hread (k / 8) (by omega) (by omega)]
  · rw [if_neg hst]
    by_cases hw : s = start ∧ 0 ≤ t ∧ t < 512
    · rw [if_pos hw, if_neg (fun h => hst ⟨hw.1, h⟩), hread t hw.2.1 hw.2.2, hw.1]
    · rw [if_neg hw]




theorem bitsHandler_count (rem : Nat) (hrem : rem < 8) (r : Nat) (hr : r < 8) :
    (byte (((List.range rem).foldl (fun count k => count + getExponent 2 (7 - (k : Int)))
      (0 : Int)) % 256).toNat).val.testBit (7 - r) = decide (r < rem) := by
  revert rem hrem r hr
  decide!

theorem byte_255_bit (r : Nat) (hr : r < 8) : (255 : Byte).val.testBit (7 - r) = true := by
  revert r hr
  decide

theorem byte_0_bit (r : Nat) : (0 : Byte).val.testBit r = false := by
  show Nat.testBit 0 r = false
  exact Nat.zero_testBit r

/-- The bits of the sector that `bitsHandler(currentBits, sector)` writes:
the first `currentBits` are set and the others clear. -/
theorem bitsHandler_bit (env : Env) (d : Disk) (cb s : Int) (h0 : 0 ≤ cb)
    (hs0 : 0 ≤ s) (hs1 : s < 10000) (t : Int) (ht0 : 0 ≤ t) (ht1 : t < 512) (r : Nat)
    (hr : r < 8) :
    (bitsHandler env d cb s s t).val.testBit (7 - r) = decide (8 * t + r < cb) := by
  have e1 : cdiv cb 8 = cb / 8 := by
    unfold cdiv
    rw [Int.tdiv_eq_ediv h0 (by omega)]
  have e2 : cmod cb 8 = cb % 8 := by
    unfold cmod
    rw [Int.tmod_eq_emod h0 (by omega)]
  unfold bitsHandler
  simp only
  rw [e1, e2, Disk_Write_valid d s _ hs0 hs1, SECTOR_SIZE_eq]
  simp only
  rw [if_pos ⟨trivial, ht0, ht1⟩]
  by_cases hrem : cb % 8 > 0
  · rw [if_pos hrem, if_pos hrem]
    by_cases hz : cb / 8 + 1 ≤ t ∧ t < 512
    · rw [if_pos hz, byte_0_bit]
      exact (decide_eq_false (by omega)).symm
    · rw [if_neg hz]
      by_cases hl : t = cb / 8 + 1 - 1
      · rw [if_pos hl, bitsHandler_count _ (by omega) r hr]
        congr 1
        apply propext
        constructor <;> intro h <;> omega
      · rw [if_neg hl, if_pos ⟨ht0, by omega⟩, byte_255_bit r hr]
        exact (decide_eq_true (by omega)).symm
  · rw [if_neg hrem, if_neg hrem]
    by_cases hz : cb / 8 ≤ t ∧ t < 512
    · rw [if_pos hz, byte_0_bit]
      exact (decide_eq_false (by omega)).symm
    · rw [if_neg hz, if_pos ⟨ht0, by omega⟩, byte_255_bit r hr]
      exact (decide_eq_true (by omega)).symm

theorem bitsHandler_other (env : Env) (d : Disk) (cb s s2 : Int) (h : s2 ≠ s) :
    bitsHandler env d cb s s2 = d s2 := by
  unfold bitsHandler Disk_Write
  simp only
  split
  · rfl
  · funext t
    simp only
    rw [if_neg (fun hh => h hh.1)]




theorem bitmap_init_loop_succ (env : Env) (n : Nat) (d : Disk) (i currentBits : Int) :
    bitmap_init_loop env (n + 1) d i currentBits
      = if currentBits > SECTOR_SIZE * 8 then
          bitmap_init_loop env n (bitsHandler env d (SECTOR_SIZE * 8) i) (i + 1)
            (currentBits - SECTOR_SIZE * 8)
        else bitmap_init_loop env n (bitsHandler env d currentBits i) (i + 1) 0 := rfl

theorem bitmap_init_loop_other (env : Env) :
    ∀ (n : Nat) (d : Disk) (i c s : Int), (s < i ∨ i + n ≤ s) →
      bitmap_init_loop env n d i c s = d s := by
  intro n
  induction n with
  | zero => intro d i c s _; rfl
  | succ n ih =>
    intro d i c s hs
    rw [bitmap_init_loop_succ]
    have hne : s ≠ i := by
      push_cast at hs
      omega
    have hs2 : s < i + 1 ∨ i + 1 + (n : Int) ≤ s := by
      push_cast at hs
      omega
    by_cases hc : c > SECTOR_SIZE * 8
    · rw [if_pos hc, ih _ _ _ _ hs2, bitsHandler_other env d _ i s hne]
    · rw [if_neg hc, ih _ _ _ _ hs2, bitsHandler_other env d _ i s hne]

theorem bitmap_init_loop_bit (env : Env) :
    ∀ (n : Nat) (d : Disk) (i c : Int), 0 ≤ c → 0 ≤ i → i + n ≤ 10000 →
      ∀ (q : Nat) (t : Int) (r : Nat), q < n → 0 ≤ t → t < 512 → r < 8 →
        (bitmap_init_loop env n d i c (i + q) t).val.testBit (7 - r)
          = decide (4096 * (q : Int) + 8 * t + r < c) := by
  intro n
  induction n with
  | zero => intro d i c _ _ _ q t r hq; omega
  | succ n ih =>
    intro d i c hc hi hn q t r hq ht0 ht1 hr
    have e4096 : SECTOR_SIZE * 8 = 4096 := by decide
    push_cast at hn
    rw [bitmap_init_loop_succ, e4096]
    cases q with
    | zero =>
      rw [Nat.cast_zero, add_zero]
      by_cases hbig : c > 4096
      · rw [if_pos hbig, bitmap_init_loop_other env n _ (i + 1) _ i (Or.inl (by omega)),
          bitsHandler_bit env d 4096 i (by omega) hi (by omega) t ht0 ht1 r hr]
        congr 1
        apply propext
        constructor <;> intro h <;> omega
      · rw [if_neg hbig, bitmap_init_loop_other env n _ (i + 1) _ i (Or.inl (by omega)),
          bitsHandler_bit env d c i hc hi (by omega) t ht0 ht1 r hr]
        congr 1
        apply propext
        constructor <;> intro h <;> omega
    | succ q =>
      have e : i + ((q + 1 : Nat) : Int) = i + 1 + (q : Int) := by push_cast; ring
      rw [e]
      by_cases hbig : c > 4096
      · rw [if_pos hbig, ih _ (i + 1) (c - 4096) (by omega) (by omega) (by omega) q t r
          (by omega) ht0 ht1 hr]
        congr 1
        apply propext
        push_cast
        constructor <;> intro h <;> omega
      · rw [if_neg hbig, ih _ (i + 1) 0 (by omega) (by omega) (by omega) q t r
          (by omega) ht0 ht1 hr]
        congr 1
        apply propext
        push_cast
        constructor <;> intro h <;> omega

/-- The bitmap after `bitmap_init(start, num, nbits)`. -/
theorem bitmap_init_bit (env : Env) (d : Disk) (start num nbits k : Int) (hs0 : 0 ≤ start)
    (hs1 : start + num ≤ 10000) (hb : 0 ≤ nbits) (hk0 : 0 ≤ k) (hk1 : k < num * 4096) :
    bitmap_bit (bitmap_init env d start num nbits) start k = decide (k < nbits) := by
  unfold bitmap_bit bitmap_init
  rw [SECTOR_SIZE_eq]
  have e1 : k / (512 * 8) = ((k / 4096).toNat : Int) := by omega
  have e2 : (7 - k % 8).toNat = 7 - (k % 8).toNat := by omega
  rw [e1, e2, bitmap_init_loop_bit env num.toNat d start nbits hb hs0 (by omega)
    (k / 4096).toNat (k / 8 % 512) (k % 8).toNat (by omega) (by omega) (by omega) (by omega)]
  congr 1
  apply propext
  constructor <;> intro h <;> omega

theorem bitmap_init_other (env : Env) (d : Disk) (start num nbits s : Int)
    (hs : s < start ∨ start + num ≤ s) : bitmap_init env d start num nbits s = d s := by
  unfold bitmap_init
  apply bitmap_init_loop_other
  omega




theorem Disk_Write_other (d : Disk) (sector : Int) (buf : Mem) (s : Int) (h : s ≠ sector) :
    (Disk_Write d sector buf).2 s = d s := by
  unfold Disk_Write
  split
  · rfl
  · funext t
    simp only
    rw [if_neg (fun hh => h hh.1)]

theorem FS_Boot_inode_table_succ (env : Env) (n : Nat) (i : Int) (d : Disk) :
    FS_Boot_inode_table env (n + 1) i d
      = if (Disk_Write d (INODE_TABLE_START_SECTOR env + i)
            (if i = 0 then write_int (write_int (memset0 env.stack 0 SECTOR_SIZE) 0 0) 4 1
              else memset0 env.stack 0 SECTOR_SIZE)).1 < 0 then (false, d)
        else FS_Boot_inode_table env n (i + 1)
          (Disk_Write d (INODE_TABLE_START_SECTOR env + i)
            (if i = 0 then write_int (write_int (memset0 env.stack 0 SECTOR_SIZE) 0 0) 4 1
              else memset0 env.stack 0 SECTOR_SIZE)).2 := rfl

theorem FS_Boot_inode_table_other (env : Env) :
    ∀ (n : Nat) (i : Int) (d : Disk) (s : Int), 0 ≤ i → s < INODE_TABLE_START_SECTOR env + i →
      (FS_Boot_inode_table env n i d).2 s = d s := by
  intro n
  induction n with
  | zero => intro i d s _ _; rfl
  | succ n ih =>
    intro i d s hi hs
    rw [FS_Boot_inode_table_succ]
    generalize (if i = 0 then write_int (write_int (memset0 env.stack 0 SECTOR_SIZE) 0 0) 4 1
      else memset0 env.stack 0 SECTOR_SIZE) = buf
    by_cases hw : (Disk_Write d (INODE_TABLE_START_SECTOR env + i) buf).1 < 0
    · rw [if_pos hw]
    · rw [if_neg hw, ih (i + 1) _ s (by omega) (by omega), Disk_Write_other d _ _ s (by omega)]

theorem FS_Boot_format_disk (env : Env) (st : FS) :
    (FS_Boot_format env st).2.disk
      = (FS_Boot_inode_table env (INODE_TABLE_SECTORS env).toNat 0
          (bitmap_init env
            (bitmap_init env
              (Disk_Write Disk_Init SUPERBLOCK_START_SECTOR
                (write_int (memset0 env.stack 0 SECTOR_SIZE) 0 OS_MAGIC)).2
              INODE_BITMAP_START_SECTOR (INODE_BITMAP_SECTORS env) 1)
            (SECTOR_BITMAP_START_SECTOR env) SECTOR_BITMAP_SECTORS
            (to_int (DATABLOCK_START_SECTOR env)))).2 := by
  unfold FS_Boot_format
  simp only
  have hw : ¬ (Disk_Write Disk_Init SUPERBLOCK_START_SECTOR
      (write_int (memset0 env.stack 0 SECTOR_SIZE) 0 OS_MAGIC)).1 < 0 := by
    unfold Disk_Write
    rw [if_neg (by decide)]
    exact not_lt.2 (le_refl (0 : Int))
  rw [if_neg hw]
  split <;> rfl

theorem bitmap_bit_congr (d1 d2 : Disk) (start k : Int)
    (h : d1 (start + k / (SECTOR_SIZE * 8)) = d2 (start + k / (SECTOR_SIZE * 8))) :
    bitmap_bit d1 start k = bitmap_bit d2 start k := by
  unfold bitmap_bit
  rw [h]

/-- The layout of a configuration with `0 < MAX_FILES < 2^31`. -/
theorem layout (env : Env) (h0 : 0 < env.MAX_FILES) (h1 : env.MAX_FILES < 2147483648) :
    1 ≤ INODE_BITMAP_SECTORS env
      ∧ SECTOR_BITMAP_START_SECTOR env = 1 + INODE_BITMAP_SECTORS env
      ∧ INODE_TABLE_START_SECTOR env = 4 + INODE_BITMAP_SECTORS env
      ∧ INODE_TABLE_SECTORS env = (env.MAX_FILES + 3) / 4
      ∧ DATABLOCK_START_SECTOR env
          = 4 + INODE_BITMAP_SECTORS env + (env.MAX_FILES + 3) / 4
      ∧ INODE_BITMAP_SECTORS env ≤ 524289 := by
  have hS : SECTOR_BITMAP_SECTORS = 3 := by decide
  have hI : INODES_PER_SECTOR = 4 := by decide
  have hA : INODE_BITMAP_SIZE env = (env.MAX_FILES + 7) / 8 := by
    unfold INODE_BITMAP_SIZE cdiv
    rw [Int.tdiv_eq_ediv (by omega) (by omega)]
  have hB : INODE_BITMAP_SECTORS env = ((env.MAX_FILES + 7) / 8 + 512 - 1) / 512 := by
    unfold INODE_BITMAP_SECTORS cdiv
    rw [hA, SECTOR_SIZE_eq, Int.tdiv_eq_ediv (by omega) (by omega)]
  unfold DATABLOCK_START_SECTOR INODE_TABLE_SECTORS INODE_TABLE_START_SECTOR
    SECTOR_BITMAP_START_SECTOR INODE_BITMAP_START_SECTOR to_size_t
  rw [hS, hI, hB]
  omega

/-! ## bitmap_init, and the round trip of an allocation -/

/-- C24: for a region of `num ≥ 1` sectors from `start` that lies on the
disk and `0 ≤ nbits ≤ num * SECTOR_SIZE * 8`, after `bitmap_init(start, num,
nbits)` bit `k` of the region is set exactly when `k < nbits`, for every `k`
below `num * SECTOR_SIZE * 8`, and the sectors outside the region are as
before.  After formatting (`0 < MAX_FILES < 2^31`, the data sectors starting
on the disk) the inode bitmap has exactly bit 0 set and the sector bitmap
exactly the bits below `DATABLOCK_START_SECTOR`. -/
theorem bitmap_init_spec (env : Env) (d : Disk) (start num nbits : Int) (hs0 : 0 ≤ start)
    (hs1 : start + num ≤ TOTAL_SECTORS) (_hnum : 1 ≤ num) (hb0 : 0 ≤ nbits)
    (_hb1 : nbits ≤ num * (SECTOR_SIZE * 8)) :
    (∀ k, 0 ≤ k → k < num * (SECTOR_SIZE * 8) →
        bitmap_bit (bitmap_init env d start num nbits) start k = decide (k < nbits))
      ∧ (∀ s, s < start ∨ start + num ≤ s → bitmap_init env d start num nbits s = d s)
      ∧ (0 < env.MAX_FILES → env.MAX_FILES < 2147483648 →
          DATABLOCK_START_SECTOR env ≤ TOTAL_SECTORS → ∀ st : FS,
            (∀ k, 0 ≤ k → k < INODE_BITMAP_SECTORS env * (SECTOR_SIZE * 8) →
              bitmap_bit (FS_Boot_format env st).2.disk INODE_BITMAP_START_SECTOR k
                = decide (k = 0))
            ∧ (∀ k, 0 ≤ k → k < SECTOR_BITMAP_SECTORS * (SECTOR_SIZE * 8) →
              bitmap_bit (FS_Boot_format env st).2.disk (SECTOR_BITMAP_START_SECTOR env) k
                = decide (k < DATABLOCK_START_SECTOR env))) := by
  have e4096 : SECTOR_SIZE * 8 = 4096 := by decide
  rw [TOTAL_SECTORS_eq] at hs1
  rw [e4096]
  refine ⟨fun k hk0 hk1 => bitmap_init_bit env d start num nbits k hs0 hs1 hb0 hk0 hk1,
    fun s hs => bitmap_init_other env d start num nbits s hs, ?_⟩
  intro hm0 hm1 hD st
  obtain ⟨l1, l2, l3, _, l5, _⟩ := layout env hm0 hm1
  rw [TOTAL_SECTORS_eq, l5] at hD
  have hS : SECTOR_BITMAP_SECTORS = 3 := by decide
  have hI : INODE_BITMAP_START_SECTOR = 1 := rfl
  rw [FS_Boot_format_disk, hS, hI, l2]
  constructor
  · intro k hk0 hk1
    rw [bitmap_bit_congr _ _ 1 k
        (FS_Boot_inode_table_other env _ 0 _ _ (le_refl 0) (by rw [e4096, l3]; omega)),
      bitmap_bit_congr _ _ 1 k
        (bitmap_init_other env _ _ 3 _ _ (Or.inl (by rw [e4096]; omega))),
      bitmap_init_bit env _ 1 _ 1 k (by omega) (by omega) (by omega) hk0 hk1]
    congr 1
    apply propext
    constructor <;> intro h <;> omega
  · intro k hk0 hk1
    rw [bitmap_bit_congr _ _ _ k
        (FS_Boot_inode_table_other env _ 0 _ _ (le_refl 0) (by rw [e4096, l3]; omega)),
      bitmap_init_bit env _ _ 3 _ k (by omega) (by omega)
        (by unfold to_int; rw [l5]; omega) hk0 hk1]
    congr 1
    apply propext
    unfold to_int
    rw [l5]
    constructor <;> intro h <;> omega

/-- The theorem `bitmap_init_spec` at the two calls of the formatting of the
usual configuration: the inode bitmap (sector 1, one bit reserved) on the
empty disk, and the freshly formatted file system, where the sectors 0 to 254
are in use and sector 255 is the first free one. -/
theorem bitmap_init_spec_witness :
    bitmap_bit (bitmap_init stdEnv Disk_Init 1 1 1) 1 0 = true
      ∧ bitmap_bit (bitmap_init stdEnv Disk_Init 1 1 1) 1 1 = false
      ∧ bitmap_bit FS_fresh.disk INODE_BITMAP_START_SECTOR 0 = true
      ∧ bitmap_bit FS_fresh.disk INODE_BITMAP_START_SECTOR 999 = false
      ∧ bitmap_bit FS_fresh.disk (SECTOR_BITMAP_START_SECTOR stdEnv) 254 = true
      ∧ bitmap_bit FS_fresh.disk (SECTOR_BITMAP_START_SECTOR stdEnv) 255 = false
      ∧ bitmap_bit FS_fresh.disk (SECTOR_BITMAP_START_SECTOR stdEnv) 9999 = false := by
  have h := bitmap_init_spec stdEnv Disk_Init 1 1 1 (by decide) (by decide) (by decide)
    (by decide) (by decide)
  have hf := h.2.2 (by decide) (by decide) (by decide!) FS_initial
  have e : FS_fresh = (FS_Boot_format stdEnv FS_initial).2 := rfl
  rw [e]
  exact ⟨(h.1 0 (by decide) (by decide)).trans (decide_eq_true (by decide)),
    (h.1 1 (by decide) (by decide)).trans (decide_eq_false (by decide)),
    (hf.1 0 (by decide) (by decide!)).trans (decide_eq_true (by decide)),
    (hf.1 999 (by decide) (by decide!)).trans (decide_eq_false (by decide)),
    (hf.2 254 (by decide) (by decide!)).trans (decide_eq_true (by decide!)),
    (hf.2 255 (by decide) (by decide!)).trans (decide_eq_false (by decide!)),
    (hf.2 9999 (by decide) (by decide!)).trans (decide_eq_false (by decide!))⟩

/-- C30: when the lowest zero bit `k` of a bitmap on the disk satisfies
`1 ≤ k < 8 * (SECTOR_SIZE - 1)`, `bitmap_first_unused` returns `k` and leaves
the disk with bit `k` set and nothing else changed: every other bit of the
bitmap and every other sector are as before.  `bitmap_reset(start, num,
k + 1)` then returns 0 and restores the disk. -/
theorem first_unused_reset_round_trip (env : Env) (d : Disk) (start num nbits k : Int)
    (hs0 : 0 ≤ start) (hs1 : start < TOTAL_SECTORS) (hnum : 1 ≤ num) (hk1 : 1 ≤ k)
    (hk2 : k < 8 * (SECTOR_SIZE - 1)) (hzero : bitmap_bit d start k = false)
    (hlow : ∀ j, 0 ≤ j → j < k → bitmap_bit d start j = true) :
    bitmap_first_unused env d start num nbits = (k, bitmap_with d start k true)
      ∧ (∀ j, bitmap_bit (bitmap_with d start k true) start j
          = if j = k then true else bitmap_bit d start j)
      ∧ (∀ s, s ≠ start → bitmap_with d start k true s = d s)
      ∧ bitmap_reset env (bitmap_first_unused env d start num nbits).2 start num (k + 1)
          = (0, d) := by
  rw [TOTAL_SECTORS_eq] at hs1
  rw [SECTOR_SIZE_eq] at hk2
  have h := bitmap_first_unused_first env d start num nbits k hs0 hs1 hnum (by omega)
    (by omega) hzero hlow
  refine ⟨h, fun j => bitmap_bit_with d start k j true, ?_, ?_⟩
  · intro s hs
    apply bitmap_with_other
    rw [SECTOR_SIZE_eq]
    omega
  · rw [h]
    simp only
    rw [bitmap_reset_first env _ start num k hs0 hs1 hk1 (by omega),
      bitmap_with_undo d start k hzero]

/-- The theorem `first_unused_reset_round_trip` at the inode bitmap of
`FS_created`, where the bits 0 and 1 are set and bit 2 is the lowest zero
bit. -/
theorem first_unused_reset_round_trip_witness :
    bitmap_first_unused stdEnv FS_created.disk 1 1 125
        = (2, bitmap_with FS_created.disk 1 2 true)
      ∧ bitmap_reset stdEnv (bitmap_first_unused stdEnv FS_created.disk 1 1 125).2 1 1 3
        = (0, FS_created.disk) := by
  have h := first_unused_reset_round_trip stdEnv FS_created.disk 1 1 125 2 (by decide)
    (by decide) (by decide) (by decide) (by decide) (by decide!)
    (fun j h0 h1 => by
      have hj : j = 0 ∨ j = 1 := by omega
      rcases hj with rfl | rfl
      · decide!
      · decide!)
  exact ⟨h.1, h.2.2.2⟩

/-! ## The allocator and the release of bits -/

/-- C25, as the code has it: in `FS_first_sector_full` the bits 0 to 4095 of
the sector bitmap (sectors 2 to 4) are set and bit 4096, in sector 3, is
clear, but `bitmap_first_unused` returns -1: it reads the sector `start` in
every iteration of its loop over the sectors.  In `disk_last_byte` bit 4088,
in the last byte of sector 2, is the lowest zero bit, and the function
returns -1 as well. -/
theorem bitmap_first_unused_misses_free_bit :
    bitmap_bit FS_first_sector_full.disk (SECTOR_BITMAP_START_SECTOR stdEnv) 4095 = true
      ∧ bitmap_bit FS_first_sector_full.disk (SECTOR_BITMAP_START_SECTOR stdEnv) 4096 = false
      ∧ (bitmap_first_unused stdEnv FS_first_sector_full.disk (SECTOR_BITMAP_START_SECTOR stdEnv)
          SECTOR_BITMAP_SECTORS SECTOR_BITMAP_SIZE).1 = -1
      ∧ bitmap_bit disk_last_byte (SECTOR_BITMAP_START_SECTOR stdEnv) 4087 = true
      ∧ bitmap_bit disk_last_byte (SECTOR_BITMAP_START_SECTOR stdEnv) 4088 = false
      ∧ (bitmap_first_unused stdEnv disk_last_byte (SECTOR_BITMAP_START_SECTOR stdEnv)
          SECTOR_BITMAP_SECTORS SECTOR_BITMAP_SIZE).1 = -1 := by
  decide!

/-- C26, as the code has it: for the slot 0, `bitmap_reset(start, num, 1)`
returns 0 and leaves bit 0 set (on the freshly formatted file system, in the
inode bitmap and in the sector bitmap); for the slot 4096 of the sector
bitmap, set in `disk_bit_4096`, `bitmap_reset(start, num, 4097)` returns -1 and
leaves the bit set.  The slot 4095 is cleared. -/
theorem bitmap_reset_fails :
    bitmap_bit FS_fresh.disk INODE_BITMAP_START_SECTOR 0 = true
      ∧ (bitmap_reset stdEnv FS_fresh.disk INODE_BITMAP_START_SECTOR
          (INODE_BITMAP_SECTORS stdEnv) 1).1 = 0
      ∧ bitmap_bit (bitmap_reset stdEnv FS_fresh.disk INODE_BITMAP_START_SECTOR
          (INODE_BITMAP_SECTORS stdEnv) 1).2 INODE_BITMAP_START_SECTOR 0 = true
      ∧ bitmap_bit FS_fresh.disk (SECTOR_BITMAP_START_SECTOR stdEnv) 0 = true
      ∧ (bitmap_reset stdEnv FS_fresh.disk (SECTOR_BITMAP_START_SECTOR stdEnv)
          SECTOR_BITMAP_SECTORS 1).1 = 0
      ∧ bitmap_bit (bitmap_reset stdEnv FS_fresh.disk (SECTOR_BITMAP_START_SECTOR stdEnv)
          SECTOR_BITMAP_SECTORS 1).2 (SECTOR_BITMAP_START_SECTOR stdEnv) 0 = true
      ∧ bitmap_bit disk_bit_4096 (SECTOR_BITMAP_START_SECTOR stdEnv) 4096 = true
      ∧ (bitmap_reset stdEnv disk_bit_4096 (SECTOR_BITMAP_START_SECTOR stdEnv)
          SECTOR_BITMAP_SECTORS 4097).1 = -1
      ∧ bitmap_bit (bitmap_reset stdEnv disk_bit_4096 (SECTOR_BITMAP_START_SECTOR stdEnv)
          SECTOR_BITMAP_SECTORS 4097).2 (SECTOR_BITMAP_START_SECTOR stdEnv) 4096 = true
      ∧ bitmap_bit FS_first_sector_full.disk (SECTOR_BITMAP_START_SECTOR stdEnv) 4095 = true
      ∧ (bitmap_reset stdEnv FS_first_sector_full.disk (SECTOR_BITMAP_START_SECTOR stdEnv)
          SECTOR_BITMAP_SECTORS 4096).1 = 0
      ∧ bitmap_bit (bitmap_reset stdEnv FS_first_sector_full.disk
          (SECTOR_BITMAP_START_SECTOR stdEnv) SECTOR_BITMAP_SECTORS 4096).2
          (SECTOR_BITMAP_START_SECTOR stdEnv) 4095 = false := by
  decide!

/-- C27, as the code has it: on `stored_disk` the file `/a` (inode 1, in the
root) has the data sectors 300 and 301, whose bits are set in the sector
bitmap.  `remove_inode(0, 0, 1)` returns 0 and clears bit 1 of the inode
bitmap, but the bits 300 and 301 of the sector bitmap stay set and the bits
44 and 45, those of `(unsigned char)300` and `(unsigned char)301`, two sectors
of the inode table, are cleared. -/
theorem remove_inode_wrong_sectors :
    inode_record_data stdEnv stored_disk 1 0 = 300
      ∧ inode_record_data stdEnv stored_disk 1 1 = 301
      ∧ inode_record_data stdEnv stored_disk 1 2 = 0
      ∧ bitmap_bit stored_disk 2 300 = true
      ∧ bitmap_bit stored_disk 2 301 = true
      ∧ bitmap_bit stored_disk 2 44 = true
      ∧ bitmap_bit stored_disk 2 45 = true
      ∧ (remove_inode stdEnv stored_disk 0 0 1).1 = 0
      ∧ bitmap_bit (remove_inode stdEnv stored_disk 0 0 1).2 INODE_BITMAP_START_SECTOR 1 = false
      ∧ bitmap_bit (remove_inode stdEnv stored_disk 0 0 1).2 2 300 = true
      ∧ bitmap_bit (remove_inode stdEnv stored_disk 0 0 1).2 2 301 = true
      ∧ bitmap_bit (remove_inode stdEnv stored_disk 0 0 1).2 2 44 = false
      ∧ bitmap_bit (remove_inode stdEnv stored_disk 0 0 1).2 2 45 = false := by
  decide!

/-- C28, as the code has it: with the bits 0 to 999 of the inode bitmap set
(`FS_inodes_full`: all `MAX_FILES` = 1000 slots live, `INODE_BITMAP_SIZE` =
125 bytes), `bitmap_first_unused(start, num, 125)` returns 1000 = 8 * 125.
`File_Create("/a")` returns 0 with the inode 1000, whose record is in sector
255 = `DATABLOCK_START_SECTOR`, the sector that the same call makes the first
data sector of the root directory. -/
theorem bitmap_first_unused_beyond_capacity :
    INODE_BITMAP_SIZE stdEnv = 125
      ∧ bitmap_bit FS_inodes_full.disk INODE_BITMAP_START_SECTOR 999 = true
      ∧ bitmap_bit FS_inodes_full.disk INODE_BITMAP_START_SECTOR 1000 = false
      ∧ (bitmap_first_unused stdEnv FS_inodes_full.disk INODE_BITMAP_START_SECTOR
          (INODE_BITMAP_SECTORS stdEnv) (INODE_BITMAP_SIZE stdEnv)).1 = 1000
      ∧ (File_Create stdEnv FS_inodes_full (ascii "/a")).map Prod.fst = some 0
      ∧ resolve stdEnv FS_inodes_full_a.disk (ascii "/a") = some (0, 1000)
      ∧ bitmap_bit FS_inodes_full_a.disk INODE_BITMAP_START_SECTOR 1000 = true
      ∧ inode_sector stdEnv 1000 = 255
      ∧ DATABLOCK_START_SECTOR stdEnv = 255
      ∧ inode_record_data stdEnv FS_inodes_full_a.disk 0 0 = 255 := by
  decide!

/-! ## The sector bitmap after a write -/

/-- C21, as the code has it: after `File_Create("/a")`, `File_Open("/a")` and
`File_Write(0, buffer, 1)` on the freshly formatted file system, all three
successful, bit 256 of the sector bitmap is set, but no live inode has the
sector 256 in its data list: the live inodes are 0 and 1, the data list of
the root holds the sector 255 and that of the file `/a` is empty. -/
theorem sector_allocated_but_unreferenced :
    (File_Create stdEnv FS_fresh (ascii "/a")).map Prod.fst = some 0
      ∧ (File_Open stdEnv FS_created (ascii "/a")).map Prod.fst = some 0
      ∧ (File_Write stdEnv FS_opened 0 (fun _ => 65) 1).1 = 1
      ∧ DATABLOCK_START_SECTOR stdEnv = 255
      ∧ bitmap_bit FS_opened.disk (SECTOR_BITMAP_START_SECTOR stdEnv) 256 = false
      ∧ bitmap_bit FS_written.disk (SECTOR_BITMAP_START_SECTOR stdEnv) 256 = true
      ∧ (∀ n : Nat, n < 1000 →
          bitmap_bit FS_written.disk INODE_BITMAP_START_SECTOR n = true →
          ∀ i : Nat, i < 30 → (inode_record_data stdEnv FS_written.disk n i == 256) = false) := by
  refine ⟨by decide!, by decide!, by decide!, by decide!, by decide!, by decide!, ?_⟩
  have hb : ∀ j : Nat, j < 125 →
      (FS_written.disk 1 (j : Int)).val = if j = 0 then 192 else 0 := by decide!
  have h0 : ∀ i : Nat, i < 30 → (inode_record_data stdEnv FS_written.disk (0 : Nat) i == 256)
      = false := by decide!
  have h1 : ∀ i : Nat, i < 30 → (inode_record_data stdEnv FS_written.disk (1 : Nat) i == 256)
      = false := by decide!
  have hbits : ∀ m : Nat, m < 8 → 2 ≤ m → Nat.testBit 192 (7 - m) = false := by decide
  intro n hn hlive
  have hI : INODE_BITMAP_START_SECTOR = 1 := rfl
  rw [hI, bitmap_bit_first _ 1 (n : Int) (by omega) (by omega)] at hlive
  have e1 : (n : Int) / 8 = ((n / 8 : Nat) : Int) := by omega
  have e2 : (7 - (n : Int) % 8).toNat = 7 - n % 8 := by omega
  rw [e1, e2, hb (n / 8) (by omega)] at hlive
  by_cases hz : n / 8 = 0
  · rw [if_pos hz] at hlive
    by_cases h2 : 2 ≤ n % 8
    · rw [hbits (n % 8) (by omega) h2] at hlive
      exact absurd hlive (by decide)
    · have hn01 : n = 0 ∨ n = 1 := by omega
      rcases hn01 with rfl | rfl
      · exact h0
      · exact h1
  · rw [if_neg hz, Nat.zero_testBit] at hlive
    exact absurd hlive (by decide)

/-! ## Failed creations -/

/-- C22 fails after the allocation of the inode: in `FS_no_sector` the
sector bitmap has no free bit and the root directory, which is empty, needs
its first data sector.  `File_Create("/a")` and `Dir_Create("/a")` return -1
with `E_CREATE`, but bit 1 of the inode bitmap, clear before the call, is set
after it, and `Dir_Create` has set the type of the record of inode 1. -/
theorem create_failure_changes_disk :
    (bitmap_first_unused stdEnv FS_no_sector.disk (SECTOR_BITMAP_START_SECTOR stdEnv)
        SECTOR_BITMAP_SECTORS SECTOR_BITMAP_SIZE).1 = -1
      ∧ resolve stdEnv FS_no_sector.disk (ascii "/a") = some (0, -1)
      ∧ inode_record_size stdEnv FS_no_sector.disk 0 = 0
      ∧ bitmap_bit FS_no_sector.disk INODE_BITMAP_START_SECTOR 1 = false
      ∧ inode_record_type stdEnv FS_no_sector.disk 1 = 0
      ∧ (File_Create stdEnv FS_no_sector (ascii "/a")).map
          (fun r => (r.1, r.2.osErrno, bitmap_bit r.2.disk INODE_BITMAP_START_SECTOR 1))
          = some (-1, FS_Error.E_CREATE, true)
      ∧ (Dir_Create stdEnv FS_no_sector (ascii "/a")).map
          (fun r => (r.1, r.2.osErrno, bitmap_bit r.2.disk INODE_BITMAP_START_SECTOR 1,
            inode_record_type stdEnv r.2.disk 1))
          = some (-1, FS_Error.E_CREATE, true, 1) := by
  decide!

theorem first_unused_bit_le : ∀ (fuel tempBuffer2 : Nat) (byteSize bitLocation L : Int),
    first_unused_bit fuel tempBuffer2 byteSize bitLocation = some L → L ≤ bitLocation + fuel := by
  intro fuel
  induction fuel with
  | zero =>
    intro t bs b L h
    unfold first_unused_bit at h
    injection h with h
    rw [← h]
    simp
  | succ fuel ih =>
    intro t bs b L h
    unfold first_unused_bit at h
    by_cases h1 : t ≠ 0
    · rw [if_pos h1] at h
      by_cases h2 : bs - 1 < 0
      · rw [if_pos h2] at h
        exact absurd h (by simp)
      · rw [if_neg h2] at h
        have := ih _ _ _ _ h
        push_cast
        omega
    · rw [if_neg h1] at h
      injection h with h
      rw [← h]
      push_cast
      omega

/-- A negative value of the byte loop of `bitmap_first_unused` comes with the
disk as it was. -/
theorem first_unused_byte_neg (d : Disk) (i : Int) (buffer : Mem)
    (cs maxBits maxBytes totalBits : Int) (hcs : 0 ≤ cs) :
    ∀ (n : Nat) (j : Int) (r : Int × Disk), 0 ≤ j →
      first_unused_byte d i buffer cs maxBits maxBytes totalBits n j = some r →
      r.1 < 0 → r.2 = d := by
  intro n
  induction n with
  | zero =>
    intro j r _ h
    exact absurd h (by simp [first_unused_byte])
  | succ n ih =>
    intro j r hj h hr
    rw [first_unused_byte_succ] at h
    by_cases hb : buffer j ≠ 255
    · rw [if_pos hb] at h
      cases hf : first_unused_bit 8 (255 - (buffer j).val)
          (if j = maxBytes - 1 then maxBits - totalBits else 8) 0 with
      | none =>
        rw [hf] at h
        simp only at h
        injection h with h
        rw [← h]
      | some L =>
        rw [hf] at h
        simp only at h
        injection h with h
        have hL := first_unused_bit_le _ _ _ _ _ hf
        rw [← h] at hr
        simp only at hr
        rw [SECTOR_SIZE_eq] at hr
        exfalso
        by_cases hL0 : L = 0
        · rw [if_pos hL0] at hr
          omega
        · rw [if_neg hL0] at hr
          push_cast at hL
          omega
    · rw [if_neg hb] at h
      exact ih (j + 1) r (by omega) h hr

theorem first_unused_sector_neg (d : Disk) (start : Int) :
    ∀ (n : Nat) (i : Int) (buffer : Mem) (cs maxBytes totalBits : Int), 0 ≤ cs →
      (first_unused_sector d start n i buffer cs maxBytes totalBits).1 < 0 →
      (first_unused_sector d start n i buffer cs maxBytes totalBits).2 = d := by
  intro n
  induction n with
  | zero => intro i buffer cs maxBytes totalBits _ _; rfl
  | succ n ih =>
    intro i buffer cs maxBytes totalBits hcs
    rw [first_unused_sector_succ]
    cases hf : first_unused_byte d i (Disk_Read d start buffer).2 cs (SECTOR_SIZE * 8)
        (if cmod maxBytes 8 > 0 then maxBytes + 1 else maxBytes)
        (if totalBits > SECTOR_SIZE * 8 then SECTOR_SIZE * 8 else totalBits)
        (if cmod maxBytes 8 > 0 then maxBytes + 1 else maxBytes).toNat 0 with
    | none =>
      simp only
      exact ih _ _ _ _ _ (by omega)
    | some r =>
      simp only
      exact first_unused_byte_neg d i _ cs _ _ _ hcs _ 0 r (le_refl 0) hf

/-- When `bitmap_first_unused` returns a negative value the disk is as it
was. -/
theorem bitmap_first_unused_neg (env : Env) (d : Disk) (start num nbits : Int)
    (h : (bitmap_first_unused env d start num nbits).1 < 0) :
    (bitmap_first_unused env d start num nbits).2 = d :=
  first_unused_sector_neg d start _ _ _ _ _ _ (le_refl 0) h

theorem create_no_inode (env : Env) (st : FS) (type : Int) (path : List Nat) (P c : Int)
    (f : Option (List Nat))
    (h : follow_path env st.disk path env.stack_int (some env.stack_str) = some (P, c, f))
    (hfail : P < 0 ∨ 0 ≤ c
      ∨ (bitmap_first_unused env st.disk INODE_BITMAP_START_SECTOR (INODE_BITMAP_SECTORS env)
          (INODE_BITMAP_SIZE env)).1 < 0) :
    create_file_or_directory env st type path
      = some (-1, { st with osErrno := FS_Error.E_CREATE }) := by
  by_cases hP : 0 ≤ P
  · by_cases hc : 0 ≤ c
    · exact create_existing env st type path P c f h hP hc
    · have ha : (bitmap_first_unused env st.disk INODE_BITMAP_START_SECTOR
          (INODE_BITMAP_SECTORS env) (INODE_BITMAP_SIZE env)).1 < 0 := by
        rcases hfail with h1 | h1 | h1
        · omega
        · omega
        · exact h1
      have hd := bitmap_first_unused_neg env st.disk _ _ _ ha
      have hadd : add_inode env st.disk type P (f.getD []) = some (-1, st.disk) := by
        unfold add_inode
        simp only
        rw [if_pos ha, hd]
      unfold create_file_or_directory
      rw [h]
      simp only
      rw [if_pos (by omega), if_neg (by omega), hadd]
      simp only
      rw [if_neg (by decide)]
  · unfold create_file_or_directory
    rw [h]
    simp only
    rw [if_neg (by omega)]

/-- C22, for a failure before an inode is allocated: for every state and
path, when `follow_path` returns no parent directory (`P < 0`), or finds the
last component (`0 ≤ c`), or `bitmap_first_unused` returns no slot of the
inode bitmap, `File_Create` and `Dir_Create` return -1 with `E_CREATE` and the
disk image is the one before the call. -/
theorem create_failure_keeps_disk (env : Env) (st : FS) (path : List Nat) (P c : Int)
    (f : Option (List Nat))
    (h : follow_path env st.disk path env.stack_int (some env.stack_str) = some (P, c, f))
    (hfail : P < 0 ∨ 0 ≤ c
      ∨ (bitmap_first_unused env st.disk INODE_BITMAP_START_SECTOR (INODE_BITMAP_SECTORS env)
          (INODE_BITMAP_SIZE env)).1 < 0) :
    File_Create env st path = some (-1, { st with osErrno := FS_Error.E_CREATE })
      ∧ Dir_Create env st path = some (-1, { st with osErrno := FS_Error.E_CREATE })
      ∧ ({ st with osErrno := FS_Error.E_CREATE } : FS).disk = st.disk :=
  ⟨create_no_inode env st 0 path P c f h hfail, create_no_inode env st 1 path P c f h hfail, rfl⟩

/-- The theorem `create_failure_keeps_disk` at the path `/a`: in `FS_created`,
where the file exists, and in `FS_no_inode`, where the name is free in the
root and the inode bitmap has no free slot. -/
theorem create_failure_keeps_disk_witness :
    File_Create stdEnv FS_created (ascii "/a")
        = some (-1, { FS_created with osErrno := FS_Error.E_CREATE })
      ∧ resolve stdEnv FS_no_inode.disk (ascii "/a") = some (0, -1)
      ∧ File_Create stdEnv FS_no_inode (ascii "/a")
        = some (-1, { FS_no_inode with osErrno := FS_Error.E_CREATE })
      ∧ Dir_Create stdEnv FS_no_inode (ascii "/a")
        = some (-1, { FS_no_inode with osErrno := FS_Error.E_CREATE }) := by
  have h1 := create_failure_keeps_disk stdEnv FS_created (ascii "/a") 0 1 (some (ascii "a"))
    (by decide!) (Or.inr (Or.inl (by decide)))
  have h2 := create_failure_keeps_disk stdEnv FS_no_inode (ascii "/a") 0 (-1)
    (some (ascii "a")) (by decide!) (Or.inr (Or.inr (by decide!)))
  exact ⟨h1.1, by decide!, h2.1, h2.2.1⟩

/-! ## The inode cache of follow_path -/

theorem cache_exact_neg (env : Env) (d : Disk) (n s : Int) (b : Mem) (h : n < 0) :
    cache_exact env d n s b := by
  intro h0
  omega

theorem Disk_Read_ok (d : Disk) (s : Int) (b : Mem) (h : ¬ (Disk_Read d s b).1 < 0) :
    0 ≤ s ∧ s < TOTAL_SECTORS ∧ ∀ j, 0 ≤ j → j < SECTOR_SIZE → (Disk_Read d s b).2 j = d s j := by
  unfold Disk_Read at h ⊢
  by_cases hs : s < 0 ∨ s ≥ TOTAL_SECTORS
  · rw [if_pos hs] at h
    exact absurd (by decide : (-1 : Int) < 0) h
  · rw [if_neg hs]
    refine ⟨by omega, by omega, ?_⟩
    intro j hj0 hj1
    simp only
    rw [if_pos ⟨hj0, hj1⟩]

theorem inode_sector_exact (env : Env) (h0 : 0 < env.MAX_FILES) (h1 : env.MAX_FILES < 2147483648)
    (n : Int) (hn0 : 0 ≤ n) (hn1 : n < 2147483648) :
    inode_sector env n = INODE_TABLE_START_SECTOR env + n / INODES_PER_SECTOR := by
  obtain ⟨_, _, l3, _, _, l6⟩ := layout env h0 h1
  unfold inode_sector to_int to_size_t
  rw [INODES_PER_SECTOR_eq, l3]
  omega

theorem find_child_loop_exact (env : Env) (hm0 : 0 < env.MAX_FILES)
    (hm1 : env.MAX_FILES < 2147483648) (d : Disk) (p : Int) (fname : List Nat) (fuel : Nat) :
    ∀ (nentries idx cs : Int) (cb : Mem),
      (0 ≤ cs ∧ cs < TOTAL_SECTORS ∧ ∀ j, 0 ≤ j → j < SECTOR_SIZE → cb j = d cs j) →
      cache_exact env d (find_child_loop env d p fname fuel nentries idx cs cb).1
        (find_child_loop env d p fname fuel nentries idx cs cb).2.1
        (find_child_loop env d p fname fuel nentries idx cs cb).2.2 := by
  induction fuel with
  | zero =>
    intro nentries idx cs cb _
    rw [find_child_loop_zero]
    exact cache_exact_neg env d (-1) _ _ (by decide)
  | succ fuel ih =>
    intro nentries idx cs cb hcb
    rw [find_child_loop_succ]
    by_cases h1 : nentries > 0
    · rw [if_pos h1]
      by_cases h2 : (Disk_Read d (inode_data cb p idx) env.stack).1 < 0
      · rw [if_pos h2]
        exact cache_exact_neg env d (-2) _ _ (by decide)
      · rw [if_neg h2]
        cases hf : find_child_dirent (Disk_Read d (inode_data cb p idx) env.stack).2 fname
            nentries DIRENTS_PER_SECTOR.toNat 0 with
        | none => exact ih _ _ _ _ hcb
        | some child =>
          have hlt := find_child_dirent_lt _ _ _ _ _ _ hf
          simp only
          by_cases h3 : inode_sector env child ≠ cs
          · rw [if_pos h3]
            by_cases h4 : (Disk_Read d (inode_sector env child) cb).1 < 0
            · rw [if_pos h4]
              exact cache_exact_neg env d (-2) _ _ (by decide)
            · rw [if_neg h4]
              intro hc0
              obtain ⟨r0, r1, r2⟩ := Disk_Read_ok d _ cb h4
              exact ⟨inode_sector_exact env hm0 hm1 child hc0 hlt, r0, r1, r2⟩
          · rw [if_neg h3]
            have hs2 : inode_sector env child = cs := not_not.1 h3
            intro hc0
            exact ⟨by rw [← hs2]; exact inode_sector_exact env hm0 hm1 child hc0 hlt,
              hcb.1, hcb.2.1, hcb.2.2⟩
    · rw [if_neg h1]
      exact cache_exact_neg env d (-1) _ _ (by decide)


theorem find_child_inode_exact (env : Env) (hm0 : 0 < env.MAX_FILES)
    (hm1 : env.MAX_FILES < 2147483648) (d : Disk) (parent : Int) (fname : List Nat) (cs : Int)
    (cb : Mem) (hp : 0 ≤ parent) (h : cache_exact env d parent cs cb) :
    (0 ≤ inode_offset env parent cs ∧ inode_offset env parent cs < INODES_PER_SECTOR)
      ∧ inode_type cb (inode_offset env parent cs * sizeof_inode_t)
          = inode_record_type env d parent
      ∧ inode_size cb (inode_offset env parent cs * sizeof_inode_t)
          = inode_record_size env d parent
      ∧ (∀ i, 0 ≤ i → i < MAX_SECTORS_PER_FILE →
          inode_data cb (inode_offset env parent cs * sizeof_inode_t) i
            = inode_record_data env d parent i)
      ∧ ∃ r, find_child_inode env d parent fname cs cb = some r
          ∧ cache_exact env d r.1 r.2.1 r.2.2 := by
  obtain ⟨e, c0, c1, cbuf⟩ := h hp
  obtain ⟨_, _, l3, _, _, _⟩ := layout env hm0 hm1
  have hv : valid_inode env parent := ⟨by omega, hp, by rw [← e]; exact c1⟩
  have hsec : inode_sector env parent = cs := (inode_sector_eq env parent hv).trans e.symm
  have hoff : inode_offset env parent cs = parent % INODES_PER_SECTOR := by
    rw [← hsec]
    exact inode_offset_eq env parent hv
  have hass : 0 ≤ inode_offset env parent cs ∧ inode_offset env parent cs < INODES_PER_SECTOR := by
    rw [hoff, INODES_PER_SECTOR_eq]
    omega
  have hrec : inode_record_sector env d parent = d cs := by
    unfold inode_record_sector
    rw [← e]
  have hM : MAX_SECTORS_PER_FILE = 30 := rfl
  rw [SECTOR_SIZE_eq] at cbuf
  refine ⟨hass, ?_, ?_, ?_, ?_⟩
  · unfold inode_record_type inode_type
    rw [hrec, hoff]
    apply read_int_congr
    intro j hj0 hj1
    rw [INODES_PER_SECTOR_eq, sizeof_inode_t_eq] at hj0 hj1
    exact cbuf j (by omega) (by omega)
  · unfold inode_record_size inode_size
    rw [hrec, hoff]
    apply read_int_congr
    intro j hj0 hj1
    rw [INODES_PER_SECTOR_eq, sizeof_inode_t_eq] at hj0 hj1
    exact cbuf j (by omega) (by omega)
  · intro i hi0 hi1
    rw [hM] at hi1
    unfold inode_record_data inode_data
    rw [hrec, hoff]
    apply read_int_congr
    intro j hj0 hj1
    rw [INODES_PER_SECTOR_eq, sizeof_inode_t_eq] at hj0 hj1
    exact cbuf j (by omega) (by omega)
  · unfold find_child_inode
    simp only
    rw [if_pos hass]
    by_cases ht : inode_type cb (inode_offset env parent cs * sizeof_inode_t) ≠ 1
    · rw [if_pos ht]
      exact ⟨_, rfl, cache_exact_neg env d (-2) _ _ (by decide)⟩
    · rw [if_neg ht]
      rw [← SECTOR_SIZE_eq] at cbuf
      exact ⟨_, rfl, find_child_loop_exact env hm0 hm1 d _ fname _ _ _ _ _ ⟨c0, c1, cbuf⟩⟩

theorem cache_exact_root (env : Env) (d : Disk)
    (h : ¬ (Disk_Read d (INODE_TABLE_START_SECTOR env) env.stack).1 < 0) :
    cache_exact env d 0 (INODE_TABLE_START_SECTOR env)
      (Disk_Read d (INODE_TABLE_START_SECTOR env) env.stack).2 := by
  intro _
  obtain ⟨r0, r1, r2⟩ := Disk_Read_ok d _ env.stack h
  refine ⟨?_, r0, r1, r2⟩
  rw [INODES_PER_SECTOR_eq]
  omega

/-- The loop of `follow_path` returns: no assertion fails. -/
theorem follow_path_loop_some (env : Env) (d : Disk) (tokens : List (List Nat)) :
    ∀ (parent child cs : Int) (cb : Mem) (lf : Option (List Nat)),
      cache_holds env child cs →
      ∃ r, follow_path_loop env d tokens parent child cs cb lf = some r := by
  induction tokens with
  | nil =>
    intro parent child cs cb lf _
    exact ⟨_, rfl⟩
  | cons token rest ih =>
    intro parent child cs cb lf hc
    rw [follow_path_loop_cons]
    by_cases h1 : token = []
    · rw [if_pos h1]
      exact ih parent child cs cb lf hc
    · rw [if_neg h1]
      by_cases h2 : illegal_filename token ≠ 0
      · rw [if_pos h2]
        exact ⟨_, rfl⟩
      · rw [if_neg h2]
        by_cases h3 : child < 0
        · rw [if_pos h3]
          exact ⟨_, rfl⟩
        · rw [if_neg h3]
          obtain ⟨r, hr, hcr⟩ := find_child_inode_some env d child token cs cb (by omega) hc
          rw [hr]
          exact ih child r.1 r.2.1 r.2.2 _ hcr

/-- Every call of `follow_path` returns: no assertion fails. -/
theorem follow_path_some (env : Env) (d : Disk) (path : List Nat) (li : Int)
    (lf : Option (List Nat)) : ∃ r, follow_path env d path li lf = some r := by
  unfold follow_path
  by_cases h1 : (c_str path).head? ≠ some 47
  · rw [if_pos h1]
    exact ⟨_, rfl⟩
  · rw [if_neg h1]
    simp only
    by_cases h2 : (Disk_Read d (INODE_TABLE_START_SECTOR env) env.stack).1 < 0
    · rw [if_pos h2]
      exact ⟨_, rfl⟩
    · rw [if_neg h2]
      obtain ⟨r, hr⟩ := follow_path_loop_some env d
        (strsep_tokens (List.take (MAX_PATH - 1).toNat (c_str path).tail)) (-1) 0
        (INODE_TABLE_START_SECTOR env)
        (Disk_Read d (INODE_TABLE_START_SECTOR env) env.stack).2 lf (cache_holds_root env)
      rw [hr]
      obtain ⟨b, p, c, f⟩ := r
      cases b
      · exact ⟨_, rfl⟩
      · simp only
        by_cases h3 : c < -1
        · rw [if_pos h3]
          exact ⟨_, rfl⟩
        · rw [if_neg h3]
          exact ⟨_, rfl⟩

theorem follow_path_call_exact (env : Env) (hm0 : 0 < env.MAX_FILES)
    (hm1 : env.MAX_FILES < 2147483648) (d : Disk) (tokens : List (List Nat)) (child cs : Int)
    (cb : Mem) (x : Int × Int × Mem) (hcall : follow_path_call env d tokens child cs cb x)
    (h : cache_exact env d child cs cb) : 0 ≤ x.1 ∧ cache_exact env d x.1 x.2.1 x.2.2 := by
  induction hcall with
  | skip token rest child cs cb x _ _ ih => exact ih h
  | here token rest child cs cb _ _ hc => exact ⟨hc, h⟩
  | next token rest child cs cb r x _ _ hc hr _ ih =>
    obtain ⟨_, _, _, _, r2, hr2, hex⟩ :=
      find_child_inode_exact env hm0 hm1 d child token cs cb hc h
    rw [hr] at hr2
    injection hr2 with hr2
    rw [← hr2] at hex
    exact ih hex

/-- C29: in a configuration with `0 < MAX_FILES < 2^31`, for every disk image
and path, every call `find_child_inode(parent_inode, token, &cached_sector,
cached_buffer)` that `follow_path` makes has `cached_sector =
INODE_TABLE_START_SECTOR + parent_inode / INODES_PER_SECTOR`, a sector of the
disk, with the cached buffer equal to the contents of that sector; so the
asserted `0 ≤ offset < INODES_PER_SECTOR` holds, the type, size and data list
that the call examines are those of the record of `parent_inode`, and the
call returns; and `follow_path` itself returns for every path. -/
theorem follow_path_cache_exact (env : Env) (hm0 : 0 < env.MAX_FILES)
    (hm1 : env.MAX_FILES < 2147483648) (d : Disk) (path : List Nat) :
    (∀ x : Int × Int × Mem, follow_path_calls env d path x →
        0 ≤ x.1
          ∧ x.2.1 = INODE_TABLE_START_SECTOR env + x.1 / INODES_PER_SECTOR
          ∧ 0 ≤ x.2.1 ∧ x.2.1 < TOTAL_SECTORS
          ∧ (∀ j, 0 ≤ j → j < SECTOR_SIZE → x.2.2 j = d x.2.1 j)
          ∧ (0 ≤ inode_offset env x.1 x.2.1 ∧ inode_offset env x.1 x.2.1 < INODES_PER_SECTOR)
          ∧ inode_type x.2.2 (inode_offset env x.1 x.2.1 * sizeof_inode_t)
              = inode_record_type env d x.1
          ∧ inode_size x.2.2 (inode_offset env x.1 x.2.1 * sizeof_inode_t)
              = inode_record_size env d x.1
          ∧ (∀ i, 0 ≤ i → i < MAX_SECTORS_PER_FILE →
              inode_data x.2.2 (inode_offset env x.1 x.2.1 * sizeof_inode_t) i
                = inode_record_data env d x.1 i)
          ∧ ∀ token, ∃ r, find_child_inode env d x.1 token x.2.1 x.2.2 = some r)
      ∧ ∀ (li : Int) (lf : Option (List Nat)), ∃ r, follow_path env d path li lf = some r := by
  refine ⟨?_, fun li lf => follow_path_some env d path li lf⟩
  intro x hx
  obtain ⟨_, hread, hcall⟩ := hx
  obtain ⟨hx0, hex⟩ := follow_path_call_exact env hm0 hm1 d _ _ _ _ x hcall
    (cache_exact_root env d hread)
  obtain ⟨e, c0, c1, cbuf⟩ := hex hx0
  obtain ⟨a1, a2, a3, a4, _⟩ := find_child_inode_exact env hm0 hm1 d x.1 [] x.2.1 x.2.2 hx0 hex
  refine ⟨hx0, e, c0, c1, cbuf, a1, a2, a3, a4, ?_⟩
  intro token
  obtain ⟨_, _, _, _, r, hr, _⟩ :=
    find_child_inode_exact env hm0 hm1 d x.1 token x.2.1 x.2.2 hx0 hex
  exact ⟨r, hr⟩

/-- The theorem `follow_path_cache_exact` at the path `/a` in `FS_created`:
the call for the token `a` has the parent 0 and the sector 5 of the root inode
in the cache; it examines the record of the root, a directory with one
entry, and `follow_path` returns. -/
theorem follow_path_cache_exact_witness :
    inode_offset stdEnv 0 (INODE_TABLE_START_SECTOR stdEnv) = 0
      ∧ inode_type (Disk_Read FS_created.disk (INODE_TABLE_START_SECTOR stdEnv) stdEnv.stack).2
          (inode_offset stdEnv 0 (INODE_TABLE_START_SECTOR stdEnv) * sizeof_inode_t)
          = inode_record_type stdEnv FS_created.disk 0
      ∧ inode_record_type stdEnv FS_created.disk 0 = 1
      ∧ inode_record_size stdEnv FS_created.disk 0 = 1
      ∧ ∃ r, follow_path stdEnv FS_created.disk (ascii "/a") 0 none = some r := by
  have h := follow_path_cache_exact stdEnv (by decide) (by decide) FS_created.disk (ascii "/a")
  have hc : follow_path_calls stdEnv FS_created.disk (ascii "/a")
      (0, INODE_TABLE_START_SECTOR stdEnv,
        (Disk_Read FS_created.disk (INODE_TABLE_START_SECTOR stdEnv) stdEnv.stack).2) := by
    refine ⟨by decide, by decide!, ?_⟩
    have e : strsep_tokens (((c_str (ascii "/a")).tail).take (MAX_PATH - 1).toNat) = [[97]] := by
      decide
    rw [e]
    exact follow_path_call.here [97] [] 0 _ _ (by decide) (by decide) (by decide)
  have hx := h.1 _ hc
  exact ⟨by decide!, hx.2.2.2.2.2.2.1, by decide!, by decide!, h.2 0 none⟩

/-! ## Path resolution and the reference walk -/

theorem follow_path_loop_filter (env : Env) (d : Disk) (tokens : List (List Nat)) :
    ∀ (parent child cs : Int) (cb : Mem) (lf : Option (List Nat)),
      follow_path_loop env d tokens parent child cs cb lf
        = follow_path_loop env d (tokens.filter (fun t => t ≠ [])) parent child cs cb lf := by
  induction tokens with
  | nil => intro parent child cs cb lf; rfl
  | cons token rest ih =>
    intro parent child cs cb lf
    by_cases h1 : token = []
    · rw [follow_path_loop_cons, if_pos h1, List.filter_cons_of_neg (by simpa using h1)]
      exact ih parent child cs cb lf
    · rw [List.filter_cons_of_pos (by simpa using h1), follow_path_loop_cons,
        follow_path_loop_cons, if_neg h1, if_neg h1]
      by_cases h2 : illegal_filename token ≠ 0
      · rw [if_pos h2, if_pos h2]
      · rw [if_neg h2, if_neg h2]
        by_cases h3 : child < 0
        · rw [if_pos h3, if_pos h3]
        · rw [if_neg h3, if_neg h3]
          cases hf : find_child_inode env d child token cs cb with
          | none => rfl
          | some r => exact ih _ _ _ _ _

theorem strcmp_eq_congr (m1 m2 : Mem) (name : List Nat) :
    ∀ off : Int, (∀ j, off ≤ j → j ≤ off + name.length → m1 j = m2 j) →
      strcmp_eq m1 off name = strcmp_eq m2 off name := by
  induction name with
  | nil =>
    intro off h
    unfold strcmp_eq
    rw [h off (le_refl off) (by simp)]
  | cons c cs ih =>
    intro off h
    unfold strcmp_eq
    rw [h off (le_refl off) (by simp; omega), ih (off + 1) (fun j h0 h1 => h j (by omega)
      (by simp only [List.length_cons, Nat.cast_add, Nat.cast_one]; omega))]

theorem strcmp_eq_empty_slot (m : Mem) (off : Int) (name : List Nat) (h : (m off).val = 0)
    (hne : name ≠ []) : strcmp_eq m off name = false := by
  cases name with
  | nil => exact absurd rfl hne
  | cons c cs =>
    unfold strcmp_eq
    rw [h]
    by_cases hc : c = 0
    · rw [hc]
      simp
    · have : ((0 : Nat) == c) = false := by
        simp only [beq_eq_false_iff_ne, ne_eq]
        omega
      rw [this]
      simp

theorem lookup_from_succ (env : Env) (d : Disk) (p : Int) (name : List Nat) (n : Nat) (e : Int) :
    lookup_from env d p name (n + 1) e
      = if strcmp_eq (entry_sector env d p e) (entry_offset e) name then
          some (dirent_inode (entry_sector env d p e) (entry_offset e))
        else lookup_from env d p name n (e + 1) := rfl

theorem find_child_dirent_succ (buf : Mem) (fname : List Nat) (nentries : Int) (n : Nat)
    (i : Int) :
    find_child_dirent buf fname nentries (n + 1) i
      = if i > nentries then none
        else if strcmp_eq buf (i * sizeof_dirent_t) fname then
          some (dirent_inode buf (i * sizeof_dirent_t))
        else find_child_dirent buf fname nentries n (i + 1) := rfl

theorem DIRENTS_PER_SECTOR_eq : DIRENTS_PER_SECTOR = 25 := by decide

theorem sizeof_dirent_t_eq : sizeof_dirent_t = 20 := by decide

theorem entry_in_sector (env : Env) (d : Disk) (p idx i : Int) (hi0 : 0 ≤ i) (hi1 : i < 25) :
    entry_sector env d p (25 * idx + i) = d (inode_record_data env d p idx)
      ∧ entry_offset (25 * idx + i) = i * 20 := by
  unfold entry_sector entry_offset
  rw [DIRENTS_PER_SECTOR_eq, sizeof_dirent_t_eq]
  have e1 : (25 * idx + i) / 25 = idx := by omega
  have e2 : (25 * idx + i) % 25 = i := by omega
  rw [e1, e2]
  exact ⟨rfl, rfl⟩

theorem slot_bytes (i j : Int) (len : Nat) (hi0 : 0 ≤ i) (hi1 : i < 25) (hlen : len ≤ 19)
    (h0 : i * 20 ≤ j) (h1 : j ≤ i * 20 + len) : 0 ≤ j ∧ j < 512 := by
  omega

/-- The scan of one directory sector by `find_child_inode` is the reference
lookup among the entries of the sector, when the slot after the last entry
does not hold the name. -/
theorem find_child_dirent_lookup (env : Env) (d : Disk) (p : Int) (name : List Nat) (buf : Mem)
    (idx m : Int) (hlen : name.length ≤ 15)
    (hbuf : ∀ j, 0 ≤ j → j < 512 → buf j = d (inode_record_data env d p idx) j)
    (hstale : m < 25 → strcmp_eq (d (inode_record_data env d p idx)) (m * 20) name = false) :
    ∀ (n : Nat) (i : Int), 0 ≤ i → i + n = 25 →
      find_child_dirent buf name m n i
        = lookup_from env d p name (min m 25 - i).toNat (25 * idx + i) := by
  intro n
  induction n with
  | zero =>
    intro i _ hn
    have e : (min m 25 - i).toNat = 0 := by
      have h25 : i = 25 := by simpa using hn
      omega
    rw [e]
    rfl
  | succ n ih =>
    intro i hi0 hn
    have hi1 : i < 25 := by
      push_cast at hn
      omega
    have hs : strcmp_eq buf (i * sizeof_dirent_t) name
        = strcmp_eq (d (inode_record_data env d p idx)) (i * 20) name := by
      rw [sizeof_dirent_t_eq]
      apply strcmp_eq_congr
      intro j h0 h1
      have hb := slot_bytes i j name.length hi0 hi1 (by omega) h0 h1
      exact hbuf j hb.1 hb.2
    have hd : dirent_inode buf (i * sizeof_dirent_t)
        = dirent_inode (d (inode_record_data env d p idx)) (i * 20) := by
      rw [sizeof_dirent_t_eq]
      unfold dirent_inode
      have hM : MAX_NAME = 16 := rfl
      rw [hM]
      apply read_int_congr
      intro j h0 h1
      have hb := slot_bytes i j 19 hi0 hi1 (le_refl 19) (by omega) (by push_cast; omega)
      exact hbuf j hb.1 hb.2
    have hnext := ih (i + 1) (by omega) (by push_cast at hn ⊢; omega)
    rw [find_child_dirent_succ, hs, hd, hnext]
    by_cases hgt : i > m
    · rw [if_pos hgt]
      have e : (min m 25 - i).toNat = 0 := by omega
      rw [e]
      rfl
    · rw [if_neg hgt]
      by_cases heq : i = m
      · rw [heq, hstale (by omega)]
        have e1 : (min m 25 - (m + 1)).toNat = 0 := by omega
        have e2 : (min m 25 - m).toNat = 0 := by omega
        rw [e1, e2]
        rfl
      · have e : (min m 25 - i).toNat = (min m 25 - (i + 1)).toNat + 1 := by omega
        have e3 : 25 * idx + i + 1 = 25 * idx + (i + 1) := by ring
        obtain ⟨es, eo⟩ := entry_in_sector env d p idx i hi0 hi1
        rw [e, lookup_from_succ, es, eo, e3]

theorem lookup_from_add (env : Env) (d : Disk) (p : Int) (name : List Nat) (b : Nat) :
    ∀ (a : Nat) (e : Int),
      lookup_from env d p name a e = none →
      lookup_from env d p name (a + b) e = lookup_from env d p name b (e + a) := by
  intro a
  induction a with
  | zero =>
    intro e _
    rw [Nat.zero_add, Nat.cast_zero, add_zero]
  | succ a ih =>
    intro e h
    rw [lookup_from_succ] at h
    have e1 : a + 1 + b = (a + b) + 1 := by omega
    rw [e1, lookup_from_succ]
    by_cases hs : strcmp_eq (entry_sector env d p e) (entry_offset e) name
    · rw [if_pos hs] at h
      exact absurd h (by simp)
    · rw [if_neg hs] at h ⊢
      rw [ih (e + 1) h]
      have e2 : e + 1 + (a : Int) = e + ((a + 1 : Nat) : Int) := by push_cast; ring
      rw [e2]

theorem lookup_from_found (env : Env) (d : Disk) (p : Int) (name : List Nat) (c : Int) :
    ∀ (a b : Nat) (e : Int),
      lookup_from env d p name a e = some c →
      lookup_from env d p name (a + b) e = some c := by
  intro a
  induction a with
  | zero =>
    intro b e h
    exact absurd h (by simp [lookup_from])
  | succ a ih =>
    intro b e h
    rw [lookup_from_succ] at h
    have e1 : a + 1 + b = (a + b) + 1 := by omega
    rw [e1, lookup_from_succ]
    by_cases hs : strcmp_eq (entry_sector env d p e) (entry_offset e) name
    · rw [if_pos hs] at h ⊢
      exact h
    · rw [if_neg hs] at h ⊢
      exact ih b (e + 1) h

/-- An inode number that the reference lookup finds is the one of an entry. -/
theorem lookup_from_entry (env : Env) (d : Disk) (p : Int) (name : List Nat) (c : Int) :
    ∀ (a : Nat) (e : Nat),
      lookup_from env d p name a (e : Int) = some c →
      ∃ k : Nat, e ≤ k ∧ k < e + a
        ∧ c = dirent_inode (entry_sector env d p (k : Int)) (entry_offset (k : Int)) := by
  intro a
  induction a with
  | zero =>
    intro e h
    exact absurd h (by simp [lookup_from])
  | succ a ih =>
    intro e h
    rw [lookup_from_succ] at h
    by_cases hs : strcmp_eq (entry_sector env d p e) (entry_offset e) name
    · rw [if_pos hs] at h
      injection h with h
      exact ⟨e, le_refl e, by omega, h.symm⟩
    · rw [if_neg hs] at h
      have e2 : (e : Int) + 1 = ((e + 1 : Nat) : Int) := by push_cast; ring
      rw [e2] at h
      obtain ⟨k, hk0, hk1, hk⟩ := ih (e + 1) h
      exact ⟨k, by omega, by omega, hk⟩

theorem Disk_Read_fst_valid (d : Disk) (s : Int) (b : Mem) (h0 : 0 ≤ s) (h1 : s < 10000) :
    (Disk_Read d s b).1 = 0 := by
  unfold Disk_Read
  rw [TOTAL_SECTORS_eq, if_neg (by omega)]

theorem nentries_next (m : Int) (h0 : 0 < m) (h1 : m ≤ 750) :
    to_int (to_size_t (to_size_t m - DIRENTS_PER_SECTOR)) = m - 25 := by
  rw [DIRENTS_PER_SECTOR_eq]
  unfold to_int to_size_t
  omega

theorem toNat_min_le (m : Int) : (min m 25).toNat ≤ m.toNat := by omega

theorem toNat_25 (idx : Int) (h : 0 ≤ idx) : (((25 * idx).toNat : Nat) : Int) = 25 * idx := by
  omega

theorem entry_lt_size (s idx : Int) (k : Nat) (h0 : 0 ≤ idx) (hp : 0 < s - 25 * idx)
    (hk : k < (25 * idx).toNat + (min (s - 25 * idx) 25).toNat) : k < s.toNat := by
  omega

theorem toNat_rest (s idx : Int) (hb : s - 25 * idx ≥ 25) :
    (s - 25 * idx).toNat - (min (s - 25 * idx) 25).toNat = (s - 25 * (idx + 1)).toNat
      ∧ 25 * idx + (((min (s - 25 * idx) 25).toNat : Nat) : Int) = 25 * (idx + 1) := by
  omega

theorem toNat_last (s idx : Int) (hb : ¬ s - 25 * idx ≥ 25) :
    (s - 25 * (idx + 1)).toNat = 0
      ∧ (s - 25 * idx).toNat = (min (s - 25 * idx) 25).toNat := by
  omega

theorem lookup_from_found_le (env : Env) (d : Disk) (p : Int) (name : List Nat) (c : Int)
    (a n : Nat) (e : Int) (h : lookup_from env d p name a e = some c) (hle : a ≤ n) :
    lookup_from env d p name n e = some c := by
  have := lookup_from_found env d p name c a (n - a) e h
  rwa [Nat.add_sub_cancel' hle] at this

theorem lookup_from_add_le (env : Env) (d : Disk) (p : Int) (name : List Nat)
    (a n : Nat) (e : Int) (h : lookup_from env d p name a e = none) (hle : a ≤ n) :
    lookup_from env d p name n e = lookup_from env d p name (n - a) (e + a) := by
  have := lookup_from_add env d p name (n - a) a e h
  rwa [Nat.add_sub_cancel' hle] at this

theorem valid_inode_read (env : Env) (d : Disk) (c : Int) (b : Mem) (hv : valid_inode env c) :
    (Disk_Read d (inode_sector env c) b).1 = 0 := by
  rw [inode_sector_eq env c hv]
  obtain ⟨v0, v1, v2⟩ := hv
  rw [TOTAL_SECTORS_eq] at v2
  have hc4 : 0 ≤ c / INODES_PER_SECTOR := by
    rw [INODES_PER_SECTOR_eq]
    omega
  exact Disk_Read_fst_valid d _ _ (by omega) v2

/-- The loop of `find_child_inode` over the sectors of a well-formed
directory returns what the reference lookup finds, -1 when it finds nothing. -/
theorem find_child_loop_lookup (env : Env) (d : Disk) (p poff : Int) (name : List Nat)
    (cs : Int) (cb : Mem) (hlen : name.length ≤ 15) (hne : name ≠ [])
    (hdata : ∀ i, 0 ≤ i → i < 30 → inode_data cb poff i = inode_record_data env d p i)
    (hwf : dir_wf env d p) :
    ∀ (fuel : Nat) (idx : Int), 0 ≤ idx → inode_record_size env d p - 25 * idx ≤ fuel →
      (find_child_loop env d poff name fuel (inode_record_size env d p - 25 * idx) idx cs cb).1
        = (lookup_from env d p name (inode_record_size env d p - 25 * idx).toNat
            (25 * idx)).getD (-1) := by
  obtain ⟨w0, w1, wsec, wstale, went⟩ := hwf
  have hM : MAX_SECTORS_PER_FILE = 30 := rfl
  have hMn : MAX_SECTORS_PER_FILE.toNat = 30 := rfl
  rw [hM, DIRENTS_PER_SECTOR_eq] at w1
  rw [hMn] at wsec
  rw [DIRENTS_PER_SECTOR_eq] at wsec wstale
  rw [TOTAL_SECTORS_eq] at wsec
  intro fuel
  induction fuel with
  | zero =>
    intro idx _ hf
    have e : (inode_record_size env d p - 25 * idx).toNat = 0 := by
      push_cast at hf
      omega
    rw [find_child_loop_zero, e]
    rfl
  | succ fuel ih =>
    intro idx h0 hf
    rw [find_child_loop_succ]
    by_cases hpos : inode_record_size env d p - 25 * idx > 0
    · rw [if_pos hpos]
      have hidx : idx < 30 := by omega
      have hcast : ((idx.toNat : Nat) : Int) = idx := by omega
      have hsec := wsec idx.toNat (by omega) (by rw [hcast]; omega)
      rw [hcast] at hsec
      rw [hdata idx h0 hidx,
        if_neg (by rw [Disk_Read_fst_valid d _ _ hsec.1 hsec.2]; decide)]
      have hstale : inode_record_size env d p - 25 * idx < 25 →
          strcmp_eq (d (inode_record_data env d p idx))
            ((inode_record_size env d p - 25 * idx) * 20) name = false := by
        intro hlt
        have hmod : inode_record_size env d p % 25 ≠ 0 := by omega
        have hz := wstale hmod
        obtain ⟨es, eo⟩ := entry_in_sector env d p idx (inode_record_size env d p - 25 * idx)
          (by omega) hlt
        have e : 25 * idx + (inode_record_size env d p - 25 * idx) = inode_record_size env d p := by
          ring
        rw [e] at es eo
        rw [es, eo] at hz
        exact strcmp_eq_empty_slot _ _ name hz hne
      have hD : (0 : Int) + ((DIRENTS_PER_SECTOR.toNat : Nat) : Int) = 25 := by decide
      have hscan := find_child_dirent_lookup env d p name
        (Disk_Read d (inode_record_data env d p idx) env.stack).2 idx
        (inode_record_size env d p - 25 * idx) hlen
        (fun j hj0 hj1 => Disk_Read_valid d _ env.stack j hsec.1 hsec.2 hj0 hj1) hstale
        DIRENTS_PER_SECTOR.toNat 0 (le_refl 0) hD
      rw [add_zero, sub_zero] at hscan
      rw [hscan]
      have hle := toNat_min_le (inode_record_size env d p - 25 * idx)
      have hm750 : inode_record_size env d p - 25 * idx ≤ 750 := by omega
      have hih := ih (idx + 1) (by omega) (by push_cast at hf; omega)
      clear hD wstale hstale hf ih
      cases hl : lookup_from env d p name (min (inode_record_size env d p - 25 * idx) 25).toNat
          (25 * idx) with
      | some c =>
        simp only
        rw [lookup_from_found_le env d p name c _ _ _ hl hle]
        have hl2 : lookup_from env d p name
            (min (inode_record_size env d p - 25 * idx) 25).toNat
            (((25 * idx).toNat : Nat) : Int) = some c := by
          rw [toNat_25 idx h0]
          exact hl
        obtain ⟨k, _, hk1, hk⟩ := lookup_from_entry env d p name c _ _ hl2
        have hv : valid_inode env c := by
          rw [hk]
          exact went k (entry_lt_size _ idx k h0 hpos hk1)
        by_cases h3 : inode_sector env c ≠ cs
        · rw [if_pos h3, if_neg (by rw [valid_inode_read env d c cb hv]; decide)]
          rfl
        · rw [if_neg h3]
          rfl
      | none =>
        simp only
        rw [nentries_next _ hpos hm750]
        have e1 : inode_record_size env d p - 25 * idx - 25
            = inode_record_size env d p - 25 * (idx + 1) := by ring
        rw [e1, hih]
        by_cases hbig : inode_record_size env d p - 25 * idx ≥ 25
        · obtain ⟨e2, e3⟩ := toNat_rest (inode_record_size env d p) idx hbig
          rw [lookup_from_add_le env d p name _ _ _ hl hle, e2, e3]
        · obtain ⟨e3, e4⟩ := toNat_last (inode_record_size env d p) idx hbig
          rw [e3, e4, hl]
          rfl
    · rw [if_neg hpos]
      have e : (inode_record_size env d p - 25 * idx).toNat = 0 := by omega
      rw [e]
      rfl

theorem le_toNat_zero (s : Int) : s - 25 * 0 ≤ ((s.toNat : Nat) : Int) := by omega

/-- What `find_child_inode` returns for a parent whose record the cache
holds: -2 when the parent is not a directory, and for a well-formed directory
the inode that the reference lookup finds for the name, -1 when it finds
none, with the cache exact for the inode returned. -/
theorem find_child_inode_lookup (env : Env) (hm0 : 0 < env.MAX_FILES)
    (hm1 : env.MAX_FILES < 2147483648) (d : Disk) (parent : Int) (name : List Nat) (cs : Int)
    (cb : Mem) (hp : 0 ≤ parent) (h : cache_exact env d parent cs cb)
    (hlen : name.length ≤ 15) (hne : name ≠ []) :
    (inode_record_type env d parent ≠ 1 →
        find_child_inode env d parent name cs cb = some (-2, cs, cb))
      ∧ (inode_record_type env d parent = 1 → dir_wf env d parent →
          ∃ r, find_child_inode env d parent name cs cb = some r
            ∧ r.1 = (lookup_ref env d parent name).getD (-1)
            ∧ cache_exact env d r.1 r.2.1 r.2.2) := by
  obtain ⟨hass, htype, hsize, hdata, r, hr, hc⟩ :=
    find_child_inode_exact env hm0 hm1 d parent name cs cb hp h
  have hM : MAX_SECTORS_PER_FILE = 30 := rfl
  rw [hM] at hdata
  constructor
  · intro ht
    unfold find_child_inode
    simp only
    rw [if_pos hass, htype, if_pos ht]
  · intro ht hwf
    refine ⟨r, hr, ?_, hc⟩
    unfold find_child_inode at hr
    simp only at hr
    rw [if_pos hass, htype, if_neg (not_not.2 ht), hsize] at hr
    have hl := find_child_loop_lookup env d parent (inode_offset env parent cs * sizeof_inode_t)
      name cs cb hlen hne hdata hwf (inode_record_size env d parent).toNat 0 (le_refl 0)
      (le_toNat_zero _)
    rw [mul_zero, sub_zero] at hl
    rw [← Option.some.inj hr, hl]
    rfl

theorem walk_cons (isdir : Int → Bool) (look : Int → List Nat → Option Int) (c : List Nat)
    (rest : List (List Nat)) (cur : Int) :
    walk isdir look (c :: rest) cur
      = if isdir cur then
          if rest = [] then some (cur, (look cur c).getD (-1))
          else
            match look cur c with
            | some x => walk isdir look rest x
            | none => none
        else none := rfl

theorem walk_ref_eq (env : Env) (d : Disk) (comps : List (List Nat)) (cur : Int) :
    walk_ref env d comps cur = walk (is_dir env d) (lookup_ref env d) comps cur := rfl

theorem is_dir_eq (env : Env) (d : Disk) (n : Int) :
    is_dir env d n = decide (inode_record_type env d n = 1) := rfl

theorem is_dir_true (env : Env) (d : Disk) (n : Int) (h : inode_record_type env d n = 1) :
    is_dir env d n = true := (is_dir_eq env d n).trans (decide_eq_true h)

theorem is_dir_false (env : Env) (d : Disk) (n : Int) (h : ¬ inode_record_type env d n = 1) :
    ¬ is_dir env d n = true := by
  rw [is_dir_eq, decide_eq_false h]
  exact Bool.false_ne_true

theorem walk_wf_cons (env : Env) (d : Disk) (c : List Nat) (rest : List (List Nat)) (cur : Int)
    (h : walk_wf env d (c :: rest) cur) (ht : inode_record_type env d cur = 1) :
    dir_wf env d cur ∧ ∀ x, lookup_ref env d cur c = some x → walk_wf env d rest x := by
  rw [walk_wf] at h
  exact h ht

theorem getLastD_cons_ne (t : List Nat) (rest : List (List Nat)) (h : rest ≠ []) :
    (t :: rest).getLastD [] = rest.getLastD [] := by
  cases rest with
  | nil => exact absurd rfl h
  | cons u r => rfl

theorem lookup_ref_valid (env : Env) (d : Disk) (p : Int) (name : List Nat) (c : Int)
    (hwf : dir_wf env d p) (h : lookup_ref env d p name = some c) : valid_inode env c := by
  obtain ⟨_, _, _, _, went⟩ := hwf
  unfold lookup_ref at h
  have h2 : lookup_from env d p name (inode_record_size env d p).toNat (((0 : Nat) : Nat) : Int)
      = some c := by
    rw [Nat.cast_zero]
    exact h
  obtain ⟨k, _, hk1, hk⟩ := lookup_from_entry env d p name c _ _ h2
  rw [hk]
  exact went k (by rw [Nat.zero_add] at hk1; exact hk1)

theorem map_const_const (lf : Option (List Nat)) (a b : List Nat) :
    (lf.map (fun _ => a)).map (fun _ => b) = lf.map (fun _ => b) := by
  cases lf <;> rfl

/-- The loop of `follow_path` entered with a negative `child_inode`: it ends
in a `return -1` at the next token, and without one it ends with that
`child_inode`. -/
theorem follow_path_loop_neg (env : Env) (d : Disk) (comps : List (List Nat))
    (hc : ∀ t ∈ comps, t ≠ [] ∧ illegal_filename t = 0)
    (parent child cs : Int) (cb : Mem) (lf : Option (List Nat)) (h : child < 0) :
    (comps = [] ∧ follow_path_loop env d comps parent child cs cb lf
        = some (true, parent, child, lf))
      ∨ (comps ≠ [] ∧ follow_path_loop env d comps parent child cs cb lf
        = some (false, parent, child, lf)) := by
  cases comps with
  | nil => exact Or.inl ⟨rfl, rfl⟩
  | cons t rest =>
    right
    obtain ⟨h1, h2⟩ := hc t (List.mem_cons_self t rest)
    rw [follow_path_loop_cons, if_neg h1, if_neg (not_not.2 h2), if_pos h]
    exact ⟨List.cons_ne_nil t rest, rfl⟩

/-- The loop of `follow_path` over the components of a path, entered at an
inode whose record the cache holds, against the reference walk from that
inode: where the walk gives a parent and a child the loop runs to its end
with them and with the last component as the name, the child not below -1;
where the walk fails the loop ends in a `return -1` or with a child below
-1. -/
theorem follow_path_loop_walk (env : Env) (hm0 : 0 < env.MAX_FILES)
    (hm1 : env.MAX_FILES < 2147483648) (d : Disk) (comps : List (List Nat)) :
    (∀ t ∈ comps, t ≠ [] ∧ illegal_filename t = 0) → comps ≠ [] →
    ∀ (parent child cs : Int) (cb : Mem) (lf : Option (List Nat)),
      0 ≤ child → cache_exact env d child cs cb → walk_wf env d comps child →
      (∀ P c, walk (is_dir env d) (lookup_ref env d) comps child = some (P, c) →
          follow_path_loop env d comps parent child cs cb lf
              = some (true, P, c, lf.map (fun _ => comps.getLastD []))
            ∧ 0 ≤ P ∧ -1 ≤ c)
        ∧ (walk (is_dir env d) (lookup_ref env d) comps child = none →
            ∃ P c f, follow_path_loop env d comps parent child cs cb lf = some (false, P, c, f)
              ∨ (follow_path_loop env d comps parent child cs cb lf = some (true, P, c, f)
                  ∧ c < -1)) := by
  induction comps with
  | nil =>
    intro _ hne
    exact absurd rfl hne
  | cons t rest ih =>
    intro hc _ parent child cs cb lf h0 hcache hwf
    obtain ⟨h1, h2⟩ := hc t (List.mem_cons_self t rest)
    have hrest : ∀ u ∈ rest, u ≠ [] ∧ illegal_filename u = 0 :=
      fun u hu => hc u (List.mem_cons_of_mem t hu)
    have hlen : t.length ≤ 15 := ((illegal_filename_iff t).1 h2).1
    obtain ⟨hfile, hdir⟩ := find_child_inode_lookup env hm0 hm1 d child t cs cb h0 hcache hlen h1
    rw [follow_path_loop_cons, if_neg h1, if_neg (not_not.2 h2), if_neg (not_lt.2 h0)]
    by_cases ht : inode_record_type env d child = 1
    · have hw := walk_wf_cons env d t rest child hwf ht
      obtain ⟨r, hr, hr1, hrc⟩ := hdir ht hw.1
      rw [hr]
      simp only
      rw [walk_cons, if_pos (is_dir_true env d child ht)]
      by_cases hnil : rest = []
      · rw [if_pos hnil]
        subst hnil
        constructor
        · intro P c hPc
          obtain ⟨e1, e2⟩ := Prod.mk.inj (Option.some.inj hPc)
          refine ⟨?_, by rw [← e1]; exact h0, ?_⟩
          · rw [← e1, ← e2, ← hr1]
            rfl
          · rw [← e2]
            cases hl : lookup_ref env d child t with
            | none => exact le_refl _
            | some x =>
              have := (lookup_ref_valid env d child t x hw.1 hl).2.1
              exact le_trans (by decide) this
        · intro hn
          exact absurd hn (by simp)
      · rw [if_neg hnil]
        cases hl : lookup_ref env d child t with
        | none =>
          simp only
          rw [hl] at hr1
          have hneg : r.1 < 0 := by
            rw [hr1]
            decide
          constructor
          · intro P c hPc
            exact absurd hPc (by simp)
          · intro _
            rcases follow_path_loop_neg env d rest hrest child r.1 r.2.1 r.2.2
              (lf.map (fun _ => t)) hneg with ⟨hn, _⟩ | ⟨_, hf⟩
            · exact absurd hn hnil
            · exact ⟨_, _, _, Or.inl hf⟩
        | some x =>
          simp only
          rw [hl] at hr1
          have hx : r.1 = x := hr1
          have hx0 : 0 ≤ x := (lookup_ref_valid env d child t x hw.1 hl).2.1
          have hi := ih hrest hnil child r.1 r.2.1 r.2.2 (lf.map (fun _ => t))
            (by rw [hx]; exact hx0) hrc (by rw [hx]; exact hw.2 x hl)
          rw [hx] at hi
          obtain ⟨hi1, hi2⟩ := hi
          constructor
          · intro P c hPc
            obtain ⟨g1, g2, g3⟩ := hi1 P c hPc
            refine ⟨?_, g2, g3⟩
            rw [hx, g1, map_const_const, getLastD_cons_ne t rest hnil]
          · intro hn
            rw [hx]
            exact hi2 hn
    · have hw : walk (is_dir env d) (lookup_ref env d) (t :: rest) child = none := by
        rw [walk_cons, if_neg (is_dir_false env d child ht)]
      rw [hfile ht, hw]
      simp only
      constructor
      · intro P c hPc
        exact absurd hPc (by simp)
      · intro _
        rcases follow_path_loop_neg env d rest hrest child (-2) cs cb
          (lf.map (fun _ => t)) (by decide) with ⟨_, hf⟩ | ⟨_, hf⟩
        · exact ⟨_, _, _, Or.inr ⟨hf, by decide⟩⟩
        · exact ⟨_, _, _, Or.inl hf⟩

theorem root_read (env : Env) (d : Disk) (h : valid_inode env 0) :
    ¬ (Disk_Read d (INODE_TABLE_START_SECTOR env) env.stack).1 < 0 := by
  obtain ⟨h0, _, h2⟩ := h
  rw [INODES_PER_SECTOR_eq, TOTAL_SECTORS_eq] at h2
  rw [Disk_Read_fst_valid d _ _ h0 (by omega)]
  decide

theorem path_components_ne (s : List Nat) : ∀ t ∈ path_components s, t ≠ [] := by
  intro t ht
  unfold path_components at ht
  have := (List.mem_filter.1 ht).2
  simpa using this

/-- The result of `follow_path` against the reference resolution, for a
path whose components are legal names on a disk whose directories along the
path are well formed: -1 with `last_inode` left where the reference
resolution fails, and where it gives a parent and a child these two, neither
the parent negative nor the child below -1, with the last component as
`last_fname`. -/
theorem follow_path_walk (env : Env) (d : Disk) (path : List Nat) (li : Int)
    (lf : Option (List Nat)) (hm0 : 0 < env.MAX_FILES) (hm1 : env.MAX_FILES < 2147483648)
    (hroot : valid_inode env 0)
    (hlegal : ∀ t ∈ path_components (((c_str path).tail).take (MAX_PATH - 1).toNat),
      illegal_filename t = 0)
    (hwf : walk_wf env d (path_components (((c_str path).tail).take (MAX_PATH - 1).toNat)) 0) :
    (resolve_ref env d path = none → ∃ f, follow_path env d path li lf = some (-1, li, f))
      ∧ (∀ P c, resolve_ref env d path = some (P, c) →
          follow_path env d path li lf
            = some (P, c,
                if path_components (((c_str path).tail).take (MAX_PATH - 1).toNat) = [] then lf
                else lf.map (fun _ =>
                  (path_components (((c_str path).tail).take (MAX_PATH - 1).toNat)).getLastD []))
            ∧ 0 ≤ P ∧ -1 ≤ c)
      ∧ ((c_str path).head? ≠ some 47 → follow_path env d path li lf = some (-1, li, lf)) := by
  have hread := root_read env d hroot
  have hcache := cache_exact_root env d hread
  unfold resolve_ref follow_path
  by_cases h1 : (c_str path).head? ≠ some 47
  · rw [if_pos h1, if_neg h1]
    refine ⟨fun _ => ⟨lf, rfl⟩, ?_, fun _ => rfl⟩
    intro P c hPc
    exact absurd hPc (by simp)
  · rw [if_neg h1, if_pos (not_not.1 h1)]
    simp only
    rw [if_neg hread, follow_path_loop_filter]
    have hne := path_components_ne (((c_str path).tail).take (MAX_PATH - 1).toNat)
    have hpc : List.filter (fun t => decide (t ≠ []))
        (strsep_tokens (((c_str path).tail).take (MAX_PATH - 1).toNat))
        = path_components (((c_str path).tail).take (MAX_PATH - 1).toNat) := rfl
    rw [hpc]
    generalize path_components (((c_str path).tail).take (MAX_PATH - 1).toNat) = comps
      at hlegal hwf hne ⊢
    refine ⟨?_, ?_, fun h => absurd h h1⟩
    · intro hres
      by_cases hn : comps = []
      · rw [if_pos hn] at hres
        exact absurd hres (by simp)
      · rw [if_neg hn, walk_ref_eq] at hres
        obtain ⟨_, hf⟩ := follow_path_loop_walk env hm0 hm1 d comps
          (fun t ht => ⟨hne t ht, hlegal t ht⟩) hn (-1) 0 (INODE_TABLE_START_SECTOR env)
          (Disk_Read d (INODE_TABLE_START_SECTOR env) env.stack).2 lf (le_refl 0) hcache hwf
        obtain ⟨P, c, f, hcase⟩ := hf hres
        rcases hcase with h | ⟨h, hc⟩
        · rw [h]
          exact ⟨f, rfl⟩
        · rw [h]
          simp only
          rw [if_pos hc]
          exact ⟨f, rfl⟩
    · intro P c hres
      by_cases hn : comps = []
      · rw [if_pos hn] at hres
        obtain ⟨e1, e2⟩ := Prod.mk.inj (Option.some.inj hres)
        rw [if_pos hn, hn, ← e1, ← e2]
        exact ⟨rfl, le_refl 0, by decide⟩
      · rw [if_neg hn, walk_ref_eq] at hres
        obtain ⟨hs, _⟩ := follow_path_loop_walk env hm0 hm1 d comps
          (fun t ht => ⟨hne t ht, hlegal t ht⟩) hn (-1) 0 (INODE_TABLE_START_SECTOR env)
          (Disk_Read d (INODE_TABLE_START_SECTOR env) env.stack).2 lf (le_refl 0) hcache hwf
        obtain ⟨g1, g2, g3⟩ := hs P c hres
        rw [g1, if_neg hn]
        simp only
        rw [if_neg (not_lt.2 g3), if_neg (fun h => absurd (h.1 ▸ g2) (by decide))]
        exact ⟨rfl, g2, g3⟩

/-- C23, on a disk whose directories along the path are well formed: path
resolution equals the reference walk.  For every configuration with
`0 < MAX_FILES < 2^31` whose root inode record is on the disk, every disk and
every path such that the components of the first `MAX_PATH - 1` = 255 bytes
after the leading slash are legal names and the directories that the
reference walk visits are well formed (`walk_wf`): where the reference
resolution fails (a node on the way is not a directory, or a component that
is not the last is not found), `follow_path` returns -1 and leaves
`last_inode`; where it gives a parent and a child (0 and 0 for the path
without a component; otherwise the directory reached by the components before
the last as the parent, and as the child the inode recorded there for the
last component, -1 when it is absent), `follow_path` returns the parent, which
is not negative, sets `last_inode` to the child, which is not below -1, and,
when the path has a component, `last_fname` to the last one.  For a path that
does not start with a slash `follow_path` returns -1, whatever the
configuration and the disk, and the reference resolution fails. -/
theorem follow_path_reference_walk (env : Env) (d : Disk) (path : List Nat) (li : Int)
    (lf : Option (List Nat)) :
    (0 < env.MAX_FILES → env.MAX_FILES < 2147483648 → valid_inode env 0 →
      (∀ t ∈ path_components (((c_str path).tail).take (MAX_PATH - 1).toNat),
        illegal_filename t = 0) →
      walk_wf env d (path_components (((c_str path).tail).take (MAX_PATH - 1).toNat)) 0 →
      (resolve_ref env d path = none → ∃ f, follow_path env d path li lf = some (-1, li, f))
        ∧ (∀ P c, resolve_ref env d path = some (P, c) →
            follow_path env d path li lf
              = some (P, c,
                  if path_components (((c_str path).tail).take (MAX_PATH - 1).toNat) = [] then lf
                  else lf.map (fun _ =>
                    (path_components
                      (((c_str path).tail).take (MAX_PATH - 1).toNat)).getLastD []))
              ∧ 0 ≤ P ∧ -1 ≤ c))
      ∧ ((c_str path).head? ≠ some 47 →
          follow_path env d path li lf = some (-1, li, lf) ∧ resolve_ref env d path = none) := by
  refine ⟨fun hm0 hm1 hroot hlegal hwf => ?_, fun h => ⟨?_, ?_⟩⟩
  · exact ⟨(follow_path_walk env d path li lf hm0 hm1 hroot hlegal hwf).1,
      (follow_path_walk env d path li lf hm0 hm1 hroot hlegal hwf).2.1⟩
  · unfold follow_path
    rw [if_pos h]
  · unfold resolve_ref
    rw [if_neg h]

/-- C23 at `follow_path("/a/b")` after `Dir_Create("/a")` and
`File_Create("/a/b")` on the freshly formatted file system: the components
`a` and `b` are legal names, the root and `/a` are well-formed directories,
the reference walk finds `a` in the root with inode 1 and `b` in `/a` with
inode 2, and `follow_path` returns the parent 1 with the child 2 and the name
`b`. -/
theorem follow_path_reference_walk_witness :
    (0 < stdEnv.MAX_FILES ∧ stdEnv.MAX_FILES < 2147483648 ∧ valid_inode stdEnv 0)
      ∧ path_components (((c_str (ascii "/a/b")).tail).take (MAX_PATH - 1).toNat)
          = [ascii "a", ascii "b"]
      ∧ (illegal_filename (ascii "a") = 0 ∧ illegal_filename (ascii "b") = 0)
      ∧ walk_wf stdEnv FS_dir_a_b.disk [ascii "a", ascii "b"] 0
      ∧ (dir_wf stdEnv FS_dir_a_b.disk 0 ∧ dir_wf stdEnv FS_dir_a_b.disk 1)
      ∧ (lookup_ref stdEnv FS_dir_a_b.disk 0 (ascii "a") = some 1
          ∧ lookup_ref stdEnv FS_dir_a_b.disk 1 (ascii "b") = some 2)
      ∧ resolve_ref stdEnv FS_dir_a_b.disk (ascii "/a/b") = some (1, 2)
      ∧ follow_path stdEnv FS_dir_a_b.disk (ascii "/a/b") 0 (some [])
          = some (1, 2, some (ascii "b")) := by
  have hp : path_components (((c_str (ascii "/a/b")).tail).take (MAX_PATH - 1).toNat)
      = [ascii "a", ascii "b"] := by decide
  have hd0 : dir_wf stdEnv FS_dir_a_b.disk 0 := by decide!
  have hd1 : dir_wf stdEnv FS_dir_a_b.disk 1 := by decide!
  have hl0 : lookup_ref stdEnv FS_dir_a_b.disk 0 (ascii "a") = some 1 := by decide!
  have hl1 : lookup_ref stdEnv FS_dir_a_b.disk 1 (ascii "b") = some 2 := by decide!
  have hw : walk_wf stdEnv FS_dir_a_b.disk [ascii "a", ascii "b"] 0 := by
    rw [walk_wf]
    intro _
    refine ⟨hd0, ?_⟩
    intro x hx
    rw [hl0] at hx
    rw [← Option.some.inj hx, walk_wf]
    intro _
    refine ⟨hd1, ?_⟩
    intro y _
    rw [walk_wf]
    trivial
  have hr : resolve_ref stdEnv FS_dir_a_b.disk (ascii "/a/b") = some (1, 2) := by decide!
  have h := (follow_path_reference_walk stdEnv FS_dir_a_b.disk (ascii "/a/b") 0 (some [])).1
    (by decide) (by decide) (by decide)
    (by rw [hp]; decide) (by rw [hp]; exact hw)
  have h2 := (h.2 1 2 hr).1
  rw [hp] at h2
  exact ⟨⟨by decide, by decide, by decide⟩, hp, ⟨by decide, by decide⟩, hw, ⟨hd0, hd1⟩,
    ⟨hl0, hl1⟩, hr, h2⟩

/-! ## The slot after the last entry of a directory -/

/-- The clause of `dir_wf` on the slot after the last entry is needed.  On
`stale_slot_disk` the root has the size 1 and its one entry, in slot 0 of
sector 255, is `a` with inode 1, while slot 1 of the sector holds the name `b`
and the inode number 2: the root is not well formed, the reference resolution
of `/b` gives the root with the child -1, and `follow_path("/b")` gives the
root with the child 2, because the scan of `find_child_inode` stops at
`i > nentries` and so compares slot `nentries` as well. -/
theorem scan_compares_slot_after_last_entry :
    inode_record_size stdEnv stale_slot_disk 0 = 1
      ∧ strcmp_eq (stale_slot_disk 255) 20 (ascii "b") = true
      ∧ dirent_inode (stale_slot_disk 255) 20 = 2
      ∧ ¬ dir_wf stdEnv stale_slot_disk 0
      ∧ resolve_ref stdEnv stale_slot_disk (ascii "/b") = some (0, -1)
      ∧ resolve stdEnv stale_slot_disk (ascii "/b") = some (0, 2)
      ∧ dir_wf stdEnv FS_created.disk 0
      ∧ resolve stdEnv FS_created.disk (ascii "/b") = some (0, -1) := by
  decide!

/-! ## Creation of an entry that exists -/

theorem path_components_take (path : List Nat) (h : (c_str path).head? = some 47) :
    path_components ((c_str path).take MAX_PATH.toNat)
      = path_components (((c_str path).tail).take (MAX_PATH - 1).toNat) := by
  cases hcs : c_str path with
  | nil =>
    rw [hcs] at h
    simp at h
  | cons a tl =>
    rw [hcs] at h
    simp only [List.head?_cons, Option.some.injEq] at h
    have e1 : MAX_PATH.toNat = (MAX_PATH - 1).toNat + 1 := by decide
    rw [h, e1, List.take_succ_cons, List.tail_cons]
    unfold path_components
    rw [strsep_tokens_slash, List.filter_cons_of_neg (by simp)]

/-- C15, with the path read as `follow_path` reads it: for every
configuration with `0 < MAX_FILES < 2^31` whose root inode record is on the
disk, every state and every path whose final component, among the components
of the first `MAX_PATH - 1` = 255 bytes after the leading slash, is recorded
in its parent directory according to the reference resolution (parent `P`,
child `c` not negative; the directories on the way well formed), `File_Create`
and `Dir_Create` return -1 with `E_CREATE` and leave the disk and the table
of open files as they are; and on the freshly formatted file system
`File_Create("/a.txt")` returns 0, after which a second
`File_Create("/a.txt")` returns -1 with `E_CREATE`. -/
theorem create_existing_entry_fails (env : Env) (st : FS) (path : List Nat) (P c : Int)
    (hm0 : 0 < env.MAX_FILES) (hm1 : env.MAX_FILES < 2147483648) (hroot : valid_inode env 0)
    (hwf : walk_wf env st.disk
      (path_components (((c_str path).tail).take (MAX_PATH - 1).toNat)) 0)
    (h : resolve_ref env st.disk path = some (P, c)) (hc : 0 ≤ c) :
    (File_Create env st path = some (-1, { st with osErrno := FS_Error.E_CREATE })
      ∧ Dir_Create env st path = some (-1, { st with osErrno := FS_Error.E_CREATE })
      ∧ ({ st with osErrno := FS_Error.E_CREATE } : FS).disk = st.disk)
    ∧ ((File_Create stdEnv FS_fresh (ascii "/a.txt")).map Prod.fst = some 0
      ∧ (File_Create stdEnv FS_a_txt (ascii "/a.txt")).map (fun r => (r.1, r.2.osErrno))
          = some (-1, FS_Error.E_CREATE)) := by
  have hcreate : ∀ type, create_file_or_directory env st type path
      = some (-1, { st with osErrno := FS_Error.E_CREATE }) := by
    intro type
    by_cases hleg : ∀ t ∈ path_components (((c_str path).tail).take (MAX_PATH - 1).toNat),
        illegal_filename t = 0
    · obtain ⟨hf, hP, _⟩ := (follow_path_walk env st.disk path env.stack_int
        (some env.stack_str) hm0 hm1 hroot hleg hwf).2.1 P c h
      exact create_existing env st type path P c _ hf hP hc
    · have hhead : (c_str path).head? = some 47 := by
        by_contra hne
        unfold resolve_ref at h
        rw [if_neg hne] at h
        exact absurd h (by simp)
      have hbad : ∃ t ∈ path_components ((c_str path).take MAX_PATH.toNat),
          illegal_filename t ≠ 0 := by
        rw [path_components_take path hhead]
        by_contra hno
        exact hleg (fun t ht => by_contra (fun hne => hno ⟨t, ht, hne⟩))
      obtain ⟨f, hf⟩ := follow_path_illegal env st.disk path env.stack_int
        (some env.stack_str) hbad
      exact create_unresolved env st type path f hf
  exact ⟨⟨hcreate 0, hcreate 1, rfl⟩, by decide!⟩

/-- C15 at `/a.txt` after `File_Create("/a.txt")` on the freshly formatted
file system: the root is a well-formed directory, the reference resolution
gives the parent 0 and the child 1, and `File_Create` and `Dir_Create` return
-1 with `E_CREATE`. -/
theorem create_existing_entry_fails_witness :
    (0 < stdEnv.MAX_FILES ∧ stdEnv.MAX_FILES < 2147483648 ∧ valid_inode stdEnv 0)
      ∧ path_components (((c_str (ascii "/a.txt")).tail).take (MAX_PATH - 1).toNat)
          = [ascii "a.txt"]
      ∧ walk_wf stdEnv FS_a_txt.disk [ascii "a.txt"] 0
      ∧ resolve_ref stdEnv FS_a_txt.disk (ascii "/a.txt") = some (0, 1)
      ∧ File_Create stdEnv FS_a_txt (ascii "/a.txt")
        = some (-1, { FS_a_txt with osErrno := FS_Error.E_CREATE })
      ∧ Dir_Create stdEnv FS_a_txt (ascii "/a.txt")
        = some (-1, { FS_a_txt with osErrno := FS_Error.E_CREATE }) := by
  have hp : path_components (((c_str (ascii "/a.txt")).tail).take (MAX_PATH - 1).toNat)
      = [ascii "a.txt"] := by decide
  have hd0 : dir_wf stdEnv FS_a_txt.disk 0 := by decide!
  have hw : walk_wf stdEnv FS_a_txt.disk [ascii "a.txt"] 0 := by
    rw [walk_wf]
    intro _
    refine ⟨hd0, ?_⟩
    intro x _
    rw [walk_wf]
    trivial
  have hr : resolve_ref stdEnv FS_a_txt.disk (ascii "/a.txt") = some (0, 1) := by decide!
  have h := create_existing_entry_fails stdEnv FS_a_txt (ascii "/a.txt") 0 1
    (by decide) (by decide) (by decide) (by rw [hp]; exact hw) hr (by decide)
  exact ⟨⟨by decide, by decide, by decide⟩, hp, hw, hr, h.1.1, h.1.2.1⟩

/-- C15 as stated fails past `MAX_PATH`: on `FS_abcdefgh` the root holds the
file `abcdefgh` (inode 1) and no entry `abcdef`; the path of 250 slashes
followed by `abcdefgh` has the one component `abcdefgh`, which exists in the
root; `follow_path` reads the 255 bytes after the leading slash, whose one
component is `abcdef`; `File_Create` and `Dir_Create` of the path return 0,
and after `File_Create` the root holds a new entry `abcdef` with inode 2. -/
theorem create_existing_past_max_path :
    path_components (c_str slashes_abcdefgh).tail = [ascii "abcdefgh"]
      ∧ path_components (((c_str slashes_abcdefgh).tail).take (MAX_PATH - 1).toNat)
          = [ascii "abcdef"]
      ∧ inode_record_type stdEnv FS_abcdefgh.disk 0 = 1
      ∧ lookup_ref stdEnv FS_abcdefgh.disk 0 (ascii "abcdefgh") = some 1
      ∧ resolve stdEnv FS_abcdefgh.disk (ascii "/abcdefgh") = some (0, 1)
      ∧ lookup_ref stdEnv FS_abcdefgh.disk 0 (ascii "abcdef") = none
      ∧ (File_Create stdEnv FS_abcdefgh slashes_abcdefgh).map Prod.fst = some 0
      ∧ (Dir_Create stdEnv FS_abcdefgh slashes_abcdefgh).map Prod.fst = some 0
      ∧ lookup_ref stdEnv
          (state_after (File_Create stdEnv FS_abcdefgh slashes_abcdefgh) FS_abcdefgh).disk 0
          (ascii "abcdef") = some 2
      ∧ resolve stdEnv
          (state_after (File_Create stdEnv FS_abcdefgh slashes_abcdefgh) FS_abcdefgh).disk
          (ascii "/abcdef") = some (0, 2) := by
  decide!

/-! ## The arrays of the loop of `File_Write` -/

/-- Where the loop of `File_Write` with the array bounds has a result, the
loop without them has the same. -/
theorem File_Write_loop_checked_some (env : Env) (inode : Mem × Int) (fsize : Int) (n : Nat) :
    ∀ (i : Int) (d : Disk) (pos bytesLeft : Int) (r : Disk × Int × Int),
      File_Write_loop_checked env inode fsize n i d pos bytesLeft = some r →
      File_Write_loop env inode fsize n i d pos bytesLeft = r := by
  induction n with
  | zero =>
    intro i d pos bytesLeft r h
    exact Option.some.inj h
  | succ n ih =>
    intro i d pos bytesLeft r h
    unfold File_Write_loop_checked at h
    unfold File_Write_loop
    simp only at h ⊢
    by_cases h1 : pos = 0
    · rw [if_pos h1] at h ⊢
      by_cases h2 : bytesLeft ≥ SECTOR_SIZE
      · rw [if_pos h2] at h ⊢
        by_cases h3 : in_sector_buffer (i * SECTOR_SIZE) SECTOR_SIZE
        · rw [if_pos h3] at h
          exact ih _ _ _ _ r h
        · rw [if_neg h3] at h
          exact absurd h (by simp)
      · rw [if_neg h2] at h ⊢
        by_cases h3 : in_sector_buffer (i * SECTOR_SIZE) (to_size_t bytesLeft)
            ∧ in_sector_buffer 0 (to_size_t bytesLeft)
        · rw [if_pos h3] at h
          exact ih _ _ _ _ r h
        · rw [if_neg h3] at h
          exact absurd h (by simp)
    · rw [if_neg h1] at h ⊢
      by_cases h3 : in_sector_buffer fsize (to_size_t (SECTOR_SIZE - fsize))
          ∧ in_sector_buffer 0 (to_size_t (SECTOR_SIZE - fsize))
      · rw [if_pos h3] at h
        exact ih _ _ _ _ r h
      · rw [if_neg h3] at h
        exact absurd h (by simp)

/-- Where `File_Write` with the array bounds has a result, `File_Write`
without them has the same: the two differ only where a `memcpy` leaves the
arrays. -/
theorem File_Write_checked_some (env : Env) (st : FS) (fd : Int) (buffer : Mem) (len : Int)
    (r : Int × FS) (h : File_Write_checked env st fd buffer len = some r) :
    File_Write env st fd buffer len = r := by
  unfold File_Write_checked at h
  unfold File_Write
  simp only at h ⊢
  by_cases h1 : fd < 0 ∧ fd > MAX_OPEN_FILES
  · rw [if_pos h1] at h ⊢
    exact Option.some.inj h
  · rw [if_neg h1] at h ⊢
    by_cases h2 : (st.open_files fd).inode < 1
    · rw [if_pos h2] at h ⊢
      exact Option.some.inj h
    · rw [if_neg h2] at h ⊢
      by_cases h3 : File_Write_end st fd len ≥ env.MAX_FILE_SIZE
      · rw [if_pos h3] at h ⊢
        exact Option.some.inj h
      · rw [if_neg h3] at h ⊢
        cases hl : File_Write_loop_checked env (getNode env st.disk (st.open_files fd).inode)
            (st.open_files fd).size (File_Write_end st fd len - File_Write_start st fd).toNat
            (File_Write_start st fd) st.disk (st.open_files fd).pos len with
        | none =>
          rw [hl] at h
          exact absurd h (by simp)
        | some x =>
          rw [hl] at h
          rw [File_Write_loop_checked_some env _ _ _ _ _ _ _ x hl]
          exact Option.some.inj h

/-- C3, as the code has it: requests that pass both tests and take a `memcpy`
of the loop outside its arrays.  Descriptor 0 of `FS_opened` is open on the
empty file `/a`, inode 1, cursor 0.  `File_Write(0, buf, 1000)` passes the
tests (`end` is 2); its first iteration copies the 512 bytes of `dataBuff`,
its second reads the 488 bytes at `dataBuff + 512`, outside the array.
`File_Write(0, buf, 7000000)` passes the tests as well (`end` is 13672, a
number of sectors, compared with `MAX_FILE_SIZE`, a number of bytes) and its
iterations read at `dataBuff + i * 512` for `i` up to 13671.  In `FS_stored`
descriptor 0 holds inode 1 with the cached size 600 and the cursor 500:
`File_Write(0, buf, 5)` passes the tests (`end` is 1) and calls `memcpy` with
the length `(size_t)(512 - 600)` = 2^64 - 88.  In each case the run with the
array bounds has no result, while the run without them returns `len`. -/
theorem File_Write_leaves_its_arrays :
    ((FS_opened.open_files 0).inode = 1 ∧ (FS_opened.open_files 0).pos = 0
        ∧ (FS_opened.open_files 0).size = 0)
      ∧ (File_Write_end FS_opened 0 1000 = 2
          ∧ File_Write_end FS_opened 0 1000 < stdEnv.MAX_FILE_SIZE
          ∧ in_sector_buffer (0 * SECTOR_SIZE) SECTOR_SIZE
          ∧ ¬ in_sector_buffer (1 * SECTOR_SIZE) (to_size_t (1000 - SECTOR_SIZE))
          ∧ (File_Write_checked stdEnv FS_opened 0 (fun _ => 65) 1000).isNone = true
          ∧ (File_Write stdEnv FS_opened 0 (fun _ => 65) 1000).1 = 1000)
      ∧ (File_Write_end FS_opened 0 7000000 = 13672
          ∧ File_Write_end FS_opened 0 7000000 < stdEnv.MAX_FILE_SIZE
          ∧ (File_Write_checked stdEnv FS_opened 0 (fun _ => 65) 7000000).isNone = true
          ∧ (File_Write stdEnv FS_opened 0 (fun _ => 65) 7000000).1 = 7000000)
      ∧ ((FS_stored.open_files 0).inode = 1 ∧ (FS_stored.open_files 0).pos = 500
          ∧ (FS_stored.open_files 0).size = 600
          ∧ File_Write_end FS_stored 0 5 = 1
          ∧ File_Write_end FS_stored 0 5 < stdEnv.MAX_FILE_SIZE
          ∧ to_size_t (SECTOR_SIZE - (FS_stored.open_files 0).size) = 18446744073709551528
          ∧ ¬ in_sector_buffer (FS_stored.open_files 0).size
              (to_size_t (SECTOR_SIZE - (FS_stored.open_files 0).size))
          ∧ (File_Write_checked stdEnv FS_stored 0 (fun _ => 65) 5).isNone = true
          ∧ (File_Write stdEnv FS_stored 0 (fun _ => 65) 5).1 = 5) := by
  decide!

end LibFS
